import Mathlib

/-!
# QgsGeometryAngleCheck: scanner and fixer of small-angle vertices

Shallow embedding of `src/analysis/vector/geometry_checker/qgsgeometryanglecheck.cpp`.

* `collectErrors` and `fixError` are translated from the source, twice.  The first
  translation computes in an arbitrary linearly ordered field `F` with the C math library
  (`sqrt`, `acos`, `M_PI`) as a parameter `LibM F`: exact arithmetic, no rounding, no NaN.
  The second translation (`Machine.collectErrors`, `Machine.fixError`) computes in an
  arbitrary arithmetic `Arith D` of which no law is assumed; `exactArith` instantiates it
  with the first translation (`exact_collectErrors`, `exact_fixError`) and `doubleArith`
  with IEEE 754 binary64, the C++ type `double` (rounding to nearest, ties to even;
  infinities; NaN; `acos` outside [-1, 1] is a NaN).
* A statement over `F` says what the program computes as long as rounding plays no part;
  where a result depends on a law of the library, the law is a named hypothesis
  (`SqrtZeroIff`, `ExactLibM`).  What rounding and NaN change is stated over `double`.
* Indices are C++ `int`s, modelled by `Int` with the truncating remainder `Int.tmod`; ring
  lengths are taken to be small enough for `iVert - 1 + nVerts` not to overflow.
* The collaborators whose code is not part of the translated file (geometry access, vertex
  deletion, the error record, the feature pool) are modelled from the specification.
-/

namespace AngleCheck

/-! ## Numeric primitives -/

/-- The functions and the constant of the C math library that the check uses
(`sqrt` through `QgsVector::length`, `acos` and `M_PI` in the angle formula). -/
structure LibM (F : Type) where
  sqrt : F → F
  acos : F → F
  pi : F

/-- Modelled from the spec: a vertex is a 2D or 3D point; the check reads `x` and `y` only. -/
structure QgsPoint (F : Type) where
  x : F
  y : F
  z : F
deriving DecidableEq

/-- Modelled from the spec: the difference vector of two points (`QgsVector`). -/
structure QgsVector (F : Type) where
  x : F
  y : F
deriving DecidableEq

/-- Modelled from the spec: `QgsVector::length`, the Euclidean length. -/
def QgsVector.length {F : Type} [LinearOrderedField F] (lib : LibM F) (v : QgsVector F) : F :=
  lib.sqrt (v.x * v.x + v.y * v.y)

/-- Modelled from the spec: `QgsVector::normalized`, which throws `QgsException` (here
`none`) on a vector of zero length and otherwise divides the vector by its length. -/
def QgsVector.normalized {F : Type} [LinearOrderedField F] (lib : LibM F) (v : QgsVector F) :
    Option (QgsVector F) :=
  let len := v.length lib
  if len = 0 then none else some ⟨v.x / len, v.y / len⟩

/-- Modelled from the spec: `QgsVector::operator*`, the dot product. -/
def QgsVector.dot {F : Type} [LinearOrderedField F] (v w : QgsVector F) : F :=
  v.x * w.x + v.y * w.y

/-- Modelled from the spec: `QgsGeometryUtils::sqrDistance2D`, the squared distance of two
points in the plane. -/
def sqrDistance2D {F : Type} [LinearOrderedField F] (p q : QgsPoint F) : F :=
  (p.x - q.x) * (p.x - q.x) + (p.y - q.y) * (p.y - q.y)

/-! ## Geometry model -/

/-- Address of a vertex: `QgsVertexId( part, ring, vertex )`, three C++ `int`s. -/
structure QgsVertexId where
  part : Int
  ring : Int
  vertex : Int
deriving DecidableEq, Repr

/-- Modelled from the spec: a ring is an ordered sequence of vertices that is either
closed (traversal wraps) or open. -/
structure Ring (F : Type) where
  vertices : List (QgsPoint F)
  closed : Bool
deriving DecidableEq

/-- Modelled from the spec: a geometry is an ordered collection of parts, each an ordered
collection of rings. -/
structure QgsAbstractGeometry (F : Type) where
  parts : List (List (Ring F))
deriving DecidableEq

/-- Element of a list at a C++ `int` index, if there is one. -/
def getAt {α : Type} (l : List α) (i : Int) : Option α :=
  if i < 0 then none else l[i.toNat]?

/-- Modelled from the spec: `QgsAbstractGeometry::partCount`. -/
def QgsAbstractGeometry.partCount {F : Type} (g : QgsAbstractGeometry F) : Int :=
  g.parts.length

/-- Modelled from the spec: `QgsAbstractGeometry::ringCount( part )`. -/
def QgsAbstractGeometry.ringCount {F : Type} (g : QgsAbstractGeometry F) (iPart : Int) : Int :=
  match getAt g.parts iPart with
  | some rings => rings.length
  | none => 0

/-- The ring addressed by a part index and a ring index, if it exists. -/
def QgsAbstractGeometry.ringAt {F : Type} (g : QgsAbstractGeometry F) (iPart iRing : Int) :
    Option (Ring F) :=
  match getAt g.parts iPart with
  | some rings => getAt rings iRing
  | none => none

/-- Modelled from the spec: `QgsGeometryCheckerUtils::polyLineSize`, the ring length and
whether the ring is closed; a ring that does not exist has length 0. -/
def polyLineSize {F : Type} (g : QgsAbstractGeometry F) (iPart iRing : Int) : Int × Bool :=
  match g.ringAt iPart iRing with
  | some r => (r.vertices.length, r.closed)
  | none => (0, false)

/-- Modelled from the spec: `QgsAbstractGeometry::vertexAt`; an address without a vertex
yields the default point. -/
def QgsAbstractGeometry.vertexAt {F : Type} [LinearOrderedField F] (g : QgsAbstractGeometry F)
    (id : QgsVertexId) : QgsPoint F :=
  match g.ringAt id.part id.ring with
  | some r => (getAt r.vertices id.vertex).getD ⟨0, 0, 0⟩
  | none => ⟨0, 0, 0⟩

/-- Modelled from the spec: `QgsVertexId::isValid( geometry )`, whether the triple still
addresses an existing vertex of the geometry. -/
def QgsVertexId.isValid {F : Type} (id : QgsVertexId) (g : QgsAbstractGeometry F) : Bool :=
  decide (0 ≤ id.part) && decide (id.part < g.partCount) &&
  decide (0 ≤ id.ring) && decide (id.ring < g.ringCount id.part) &&
  decide (0 ≤ id.vertex) && decide (id.vertex < (polyLineSize g id.part id.ring).1)

/-- Modelled from the spec: `QgsGeometryCheckerUtils::canDeleteVertex`; after a removal a
closed ring must keep at least 3 vertices and an open one at least 2. -/
def canDeleteVertex {F : Type} (g : QgsAbstractGeometry F) (iPart iRing : Int) : Bool :=
  match g.ringAt iPart iRing with
  | some r => if r.closed then decide (3 < r.vertices.length) else decide (2 < r.vertices.length)
  | none => false

/-- Replace the element at a C++ `int` index of a list. -/
def setAt {α : Type} (l : List α) (i : Int) (a : α) : List α :=
  if i < 0 then l else l.set i.toNat a

/-- Modelled from the spec: `QgsAbstractGeometry::deleteVertex`; the mutation is rejected
(`none`) when the address has no vertex, otherwise the vertex is removed from its ring. -/
def QgsAbstractGeometry.deleteVertex {F : Type} (g : QgsAbstractGeometry F) (id : QgsVertexId) :
    Option (QgsAbstractGeometry F) :=
  if id.isValid g then
    match getAt g.parts id.part with
    | some rings =>
      match getAt rings id.ring with
      | some r =>
        some ⟨setAt g.parts id.part
          (setAt rings id.ring ⟨r.vertices.eraseIdx id.vertex.toNat, r.closed⟩)⟩
      | none => none
    | none => none
  else none

/-! ## Error records, change records, feature pools -/

/-- Modelled from the spec: the status of a defect record (`QgsGeometryCheckError::Status`). -/
inductive Status where
  | StatusPending
  | StatusFixFailed
  | StatusFixed
  | StatusObsolete
deriving DecidableEq, Repr

/-- Modelled from the spec: the defect record (`QgsGeometryCheckError`): source feature,
location, vertex address, measured value, status and resolution message. -/
structure QgsGeometryCheckError (F : Type) where
  layerId : String
  featureId : Int
  location : QgsPoint F
  vidx : QgsVertexId
  value : F
  status : Status
  resolutionMessage : String
deriving DecidableEq

/-- Modelled from the spec: the repair method selector `DeleteNode` ("Delete node with
small angle", first entry of `getResolutionMethods`); the enumerator is declared in the
header of the check. -/
def DeleteNode : Int := 0

/-- Modelled from the spec: the repair method selector `NoChange` ("No action", second
entry of `getResolutionMethods`); the enumerator is declared in the header of the check. -/
def NoChange : Int := 1

/-- Translation of `QgsGeometryAngleCheck::getResolutionMethods`. -/
def getResolutionMethods : List String :=
  ["Delete node with small angle", "No action"]

/-- Modelled from the spec: `QgsGeometryCheckError::setObsolete`. -/
def QgsGeometryCheckError.setObsolete {F : Type} (e : QgsGeometryCheckError F) :
    QgsGeometryCheckError F :=
  { e with status := Status.StatusObsolete }

/-- Modelled from the spec: `QgsGeometryCheckError::setFixed( method )`, which records the
name of the method as resolution message. -/
def QgsGeometryCheckError.setFixed {F : Type} (e : QgsGeometryCheckError F) (method : Int) :
    QgsGeometryCheckError F :=
  { e with status := Status.StatusFixed,
           resolutionMessage := (getAt getResolutionMethods method).getD "" }

/-- Modelled from the spec: `QgsGeometryCheckError::setFixFailed( reason )`. -/
def QgsGeometryCheckError.setFixFailed {F : Type} (e : QgsGeometryCheckError F)
    (reason : String) : QgsGeometryCheckError F :=
  { e with status := Status.StatusFixFailed, resolutionMessage := reason }

/-- Modelled from the spec: what a change record is about (`ChangeWhat`). -/
inductive ChangeWhat where
  | ChangeFeature
  | ChangePart
  | ChangeRing
  | ChangeNode
deriving DecidableEq, Repr

/-- Modelled from the spec: the kind of edit of a change record (`ChangeType`). -/
inductive ChangeType where
  | ChangeAdded
  | ChangeRemoved
  | ChangeChanged
deriving DecidableEq, Repr

/-- Modelled from the spec: one change record, `Change( what, type, vidx )`. -/
structure Change where
  what : ChangeWhat
  type : ChangeType
  vidx : QgsVertexId
deriving DecidableEq, Repr

/-- Modelled from the spec: the change accumulator, a map from layer id to a map from
feature id to a sequence of change records (an absent entry is the empty sequence). -/
abbrev Changes := String → Int → List Change

/-- The statement `changes[layerId][featureId].append( change )`. -/
def Changes.append (changes : Changes) (layerId : String) (featureId : Int) (c : Change) :
    Changes :=
  fun l f => if l = layerId ∧ f = featureId then changes l f ++ [c] else changes l f

/-- Modelled from the spec: the feature pools of the context, by layer id and feature id;
`get` finds the geometry of a feature or reports that the feature is gone. -/
abbrev FeaturePools (F : Type) := String → Int → Option (QgsAbstractGeometry F)

/-- Modelled from the spec: `QgsFeaturePool::updateFeature`, which stores the geometry of
the feature back into its pool. -/
def FeaturePools.updateFeature {F : Type} (pools : FeaturePools F) (layerId : String)
    (featureId : Int) (g : QgsAbstractGeometry F) : FeaturePools F :=
  fun l f => if l = layerId ∧ f = featureId then some g else pools l f

/-- Modelled from the spec: one item of the `LayerFeatures` iteration, a feature of a layer
with its geometry. -/
structure LayerFeature (F : Type) where
  layerId : String
  featureId : Int
  geometry : QgsAbstractGeometry F

/-- The configuration read by the check: `mMinAngle` (degrees) and `mContext->tolerance`. -/
structure QgsGeometryAngleCheck (F : Type) where
  mMinAngle : F
  tolerance : F

/-! ## The shared angle computation -/

/-- The angle computation shared by lines 43-55 of `collectErrors` and lines 96-107 of
`fixError`: the two normalised vectors from `p2` to its neighbours (a zero-length vector
throws, here `none`) and `acos( v21 * v23 ) / M_PI * 180.0`. -/
def angleAt {F : Type} [LinearOrderedField F] (lib : LibM F) (p1 p2 p3 : QgsPoint F) :
    Option F :=
  match (QgsVector.mk (p1.x - p2.x) (p1.y - p2.y)).normalized lib with
  | none => none
  | some v21 =>
    match (QgsVector.mk (p3.x - p2.x) (p3.y - p2.y)).normalized lib with
    | none => none
    | some v23 => some (lib.acos (v21.dot v23) / lib.pi * 180)

/-! ## Scanner: `QgsGeometryAngleCheck::collectErrors` -/

/-- Index sequence of a C++ loop `for ( int i = lo; i < hi; ++i )`. -/
def forRange (lo hi : Int) : List Int :=
  (List.range (hi - lo).toNat).map (fun (k : Nat) => lo + (k : Int))

/-- The value of the C++ expression `!closed` used as an `int`. -/
def notAsInt (closed : Bool) : Int :=
  if closed then 0 else 1

/-- Vertex indices visited for a ring of `nVerts` vertices (lines 34-38): none when
`nVerts < 3`, otherwise `!closed`, ..., `nVerts - !closed - 1`. -/
def examinedIndices (nVerts : Int) (closed : Bool) : List Int :=
  if nVerts < 3 then [] else forRange (notAsInt closed) (nVerts - notAsInt closed)

/-- Body of the vertex loop (lines 40-59): looks up the vertex and its two neighbours,
skips the vertex on a zero-length vector, and appends an error when the angle is below
`mMinAngle`. -/
def checkVertex {F : Type} [LinearOrderedField F] (lib : LibM F) (chk : QgsGeometryAngleCheck F)
    (layerFeature : LayerFeature F) (iPart iRing nVerts : Int)
    (errors : List (QgsGeometryCheckError F)) (iVert : Int) : List (QgsGeometryCheckError F) :=
  let geom := layerFeature.geometry
  let p1 := geom.vertexAt ⟨iPart, iRing, (iVert - 1 + nVerts).tmod nVerts⟩
  let p2 := geom.vertexAt ⟨iPart, iRing, iVert⟩
  let p3 := geom.vertexAt ⟨iPart, iRing, (iVert + 1).tmod nVerts⟩
  match angleAt lib p1 p2 p3 with
  | none => errors
  | some angle =>
    if angle < chk.mMinAngle then
      errors ++ [⟨layerFeature.layerId, layerFeature.featureId, p2, ⟨iPart, iRing, iVert⟩, angle,
        Status.StatusPending, ""⟩]
    else errors

/-- Body of the ring loop (lines 31-60). -/
def checkRing {F : Type} [LinearOrderedField F] (lib : LibM F) (chk : QgsGeometryAngleCheck F)
    (layerFeature : LayerFeature F) (iPart : Int)
    (errors : List (QgsGeometryCheckError F)) (iRing : Int) : List (QgsGeometryCheckError F) :=
  let size := polyLineSize layerFeature.geometry iPart iRing
  (examinedIndices size.1 size.2).foldl
    (checkVertex lib chk layerFeature iPart iRing size.1) errors

/-- Body of the part loop (lines 29-61). -/
def checkPart {F : Type} [LinearOrderedField F] (lib : LibM F) (chk : QgsGeometryAngleCheck F)
    (layerFeature : LayerFeature F)
    (errors : List (QgsGeometryCheckError F)) (iPart : Int) : List (QgsGeometryCheckError F) :=
  (forRange 0 (layerFeature.geometry.ringCount iPart)).foldl
    (checkRing lib chk layerFeature iPart) errors

/-- Body of the feature loop (lines 26-62). -/
def checkFeature {F : Type} [LinearOrderedField F] (lib : LibM F) (chk : QgsGeometryAngleCheck F)
    (errors : List (QgsGeometryCheckError F)) (layerFeature : LayerFeature F) :
    List (QgsGeometryCheckError F) :=
  (forRange 0 layerFeature.geometry.partCount).foldl (checkPart lib chk layerFeature) errors

/-- Translation of `QgsGeometryAngleCheck::collectErrors`: the errors appended to `errors`
while iterating the features that `LayerFeatures` yields, in that order. -/
def collectErrors {F : Type} [LinearOrderedField F] (lib : LibM F) (chk : QgsGeometryAngleCheck F)
    (layerFeatures : List (LayerFeature F)) (errors : List (QgsGeometryCheckError F)) :
    List (QgsGeometryCheckError F) :=
  layerFeatures.foldl (checkFeature lib chk) errors

/-! ## Fixer: `QgsGeometryAngleCheck::fixError` -/

/-- Effects of one `fixError` call on its collaborators: every `deleteVertex` call on the
fetched geometry with its result, and every `updateFeature` call with the stored geometry. -/
inductive Effect (F : Type) where
  | deleteVertexCall (vidx : QgsVertexId) (ok : Bool)
  | updateFeatureCall (layerId : String) (featureId : Int) (g : QgsAbstractGeometry F)
deriving DecidableEq

/-- What one `fixError` call leaves behind: the error record, the change accumulator, the
feature pools and the effects in the order they happened. -/
structure FixOutcome (F : Type) where
  error : QgsGeometryCheckError F
  changes : Changes
  featurePools : FeaturePools F
  effects : List (Effect F)

/-- The `DeleteNode` branch of `fixError` (lines 121-142). -/
def fixDeleteNode {F : Type} [LinearOrderedField F] (chk : QgsGeometryAngleCheck F)
    (featurePools : FeaturePools F) (error : QgsGeometryCheckError F) (method : Int)
    (changes : Changes) (geometry : QgsAbstractGeometry F) (n : Int) (p1 p3 : QgsPoint F) :
    FixOutcome F :=
  let vidx := error.vidx
  if !canDeleteVertex geometry vidx.part vidx.ring then
    ⟨error.setFixFailed "Resulting geometry is degenerate", changes, featurePools, []⟩
  else
    match geometry.deleteVertex error.vidx with
    | none =>
      ⟨error.setFixFailed "Failed to delete vertex", changes, featurePools,
        [Effect.deleteVertexCall error.vidx false]⟩
    | some geometry1 =>
      let changes1 := changes.append error.layerId error.featureId
        ⟨ChangeWhat.ChangeNode, ChangeType.ChangeRemoved, vidx⟩
      if sqrDistance2D p1 p3 < chk.tolerance ∧ canDeleteVertex geometry1 vidx.part vidx.ring then
        match geometry1.deleteVertex error.vidx with
        | some geometry2 =>
          let changes2 := changes1.append error.layerId error.featureId
            ⟨ChangeWhat.ChangeNode, ChangeType.ChangeRemoved,
              ⟨vidx.part, vidx.ring, (vidx.vertex + 1).tmod n⟩⟩
          ⟨error.setFixed method, changes2,
            featurePools.updateFeature error.layerId error.featureId geometry2,
            [Effect.deleteVertexCall error.vidx true, Effect.deleteVertexCall error.vidx true,
              Effect.updateFeatureCall error.layerId error.featureId geometry2]⟩
        | none =>
          ⟨error.setFixed method, changes1,
            featurePools.updateFeature error.layerId error.featureId geometry1,
            [Effect.deleteVertexCall error.vidx true, Effect.deleteVertexCall error.vidx false,
              Effect.updateFeatureCall error.layerId error.featureId geometry1]⟩
      else
        ⟨error.setFixed method, changes1,
          featurePools.updateFeature error.layerId error.featureId geometry1,
          [Effect.deleteVertexCall error.vidx true,
            Effect.updateFeatureCall error.layerId error.featureId geometry1]⟩

/-- Translation of `QgsGeometryAngleCheck::fixError`. -/
def fixError {F : Type} [LinearOrderedField F] (lib : LibM F) (chk : QgsGeometryAngleCheck F)
    (featurePools : FeaturePools F) (error : QgsGeometryCheckError F) (method : Int)
    (changes : Changes) : FixOutcome F :=
  match featurePools error.layerId error.featureId with
  | none => ⟨error.setObsolete, changes, featurePools, []⟩
  | some geometry =>
    let vidx := error.vidx
    -- Check if point still exists
    if !vidx.isValid geometry then ⟨error.setObsolete, changes, featurePools, []⟩
    else
      -- Check if error still applies
      let n := (polyLineSize geometry vidx.part vidx.ring).1
      if n = 0 then ⟨error.setObsolete, changes, featurePools, []⟩
      else
        let p1 := geometry.vertexAt ⟨vidx.part, vidx.ring, (vidx.vertex - 1 + n).tmod n⟩
        let p2 := geometry.vertexAt vidx
        let p3 := geometry.vertexAt ⟨vidx.part, vidx.ring, (vidx.vertex + 1).tmod n⟩
        match angleAt lib p1 p2 p3 with
        | none => ⟨error.setObsolete, changes, featurePools, []⟩
        | some angle =>
          if angle ≥ chk.mMinAngle then ⟨error.setObsolete, changes, featurePools, []⟩
          -- Fix error
          else if method = NoChange then ⟨error.setFixed method, changes, featurePools, []⟩
          else if method = DeleteNode then
            fixDeleteNode chk featurePools error method changes geometry n p1 p3
          else ⟨error.setFixFailed "Unknown method", changes, featurePools, []⟩

/-- The previous neighbour `p1` of an addressed vertex as `fixError` (line 93) looks it up,
with the C++ remainder; `collectErrors` (line 40) uses the same expression. -/
def neighbourP1 {F : Type} [LinearOrderedField F] (geometry : QgsAbstractGeometry F)
    (vidx : QgsVertexId) : QgsPoint F :=
  geometry.vertexAt ⟨vidx.part, vidx.ring,
    (vidx.vertex - 1 + (polyLineSize geometry vidx.part vidx.ring).1).tmod
      (polyLineSize geometry vidx.part vidx.ring).1⟩

/-- The next neighbour `p3` of an addressed vertex as `fixError` (line 95) looks it up, with
the C++ remainder; `collectErrors` (line 42) uses the same expression. -/
def neighbourP3 {F : Type} [LinearOrderedField F] (geometry : QgsAbstractGeometry F)
    (vidx : QgsVertexId) : QgsPoint F :=
  geometry.vertexAt ⟨vidx.part, vidx.ring,
    (vidx.vertex + 1).tmod (polyLineSize geometry vidx.part vidx.ring).1⟩

/-- The angle that `fixError` recomputes at the stored vertex address (lines 87-107). -/
def recomputedAngle {F : Type} [LinearOrderedField F] (lib : LibM F)
    (geometry : QgsAbstractGeometry F) (vidx : QgsVertexId) : Option F :=
  angleAt lib (neighbourP1 geometry vidx) (geometry.vertexAt vidx) (neighbourP3 geometry vidx)

/-- The error passes the re-validation of `fixError` (lines 70-112) on the fetched
geometry: the feature is found, the vertex address is valid, the ring is not empty, no
adjacent vector has zero length and the recomputed angle is below `mMinAngle`. -/
def passesRevalidation {F : Type} [LinearOrderedField F] (lib : LibM F)
    (chk : QgsGeometryAngleCheck F) (featurePools : FeaturePools F)
    (error : QgsGeometryCheckError F) (geometry : QgsAbstractGeometry F) : Prop :=
  featurePools error.layerId error.featureId = some geometry ∧
  error.vidx.isValid geometry = true ∧
  (polyLineSize geometry error.vidx.part error.vidx.ring).1 ≠ 0 ∧
  ∃ angle, recomputedAngle lib geometry error.vidx = some angle ∧ angle < chk.mMinAngle

/-! ## Specification-level descriptions, compared with the translations above -/

/-- Specification wording: every vertex address of a geometry, in part order, then ring
order, then vertex order. -/
def vertexAddresses {F : Type} (g : QgsAbstractGeometry F) : List QgsVertexId :=
  (forRange 0 g.partCount).flatMap fun iPart =>
    (forRange 0 (g.ringCount iPart)).flatMap fun iRing =>
      (forRange 0 (polyLineSize g iPart iRing).1).map fun iVert => ⟨iPart, iRing, iVert⟩

/-- Specification wording: the checkable range of a ring of `n` vertices is every index
for a closed ring and `[1, n - 2]` for an open ring. -/
def inCheckableRange (n : Int) (closed : Bool) (i : Int) : Prop :=
  if closed then 0 ≤ i ∧ i < n else 1 ≤ i ∧ i ≤ n - 2

instance (n : Int) (closed : Bool) (i : Int) : Decidable (inCheckableRange n closed i) := by
  unfold inCheckableRange; exact inferInstance

/-- Specification wording: the previous neighbour of vertex `i` in a ring of length `n`,
at index `(i - 1 + n) mod n`. -/
def prevVertex {F : Type} [LinearOrderedField F] (g : QgsAbstractGeometry F) (id : QgsVertexId) :
    QgsPoint F :=
  let n := (polyLineSize g id.part id.ring).1
  g.vertexAt ⟨id.part, id.ring, (id.vertex - 1 + n) % n⟩

/-- Specification wording: the next neighbour of vertex `i` in a ring of length `n`, at
index `(i + 1) mod n`. -/
def nextVertex {F : Type} [LinearOrderedField F] (g : QgsAbstractGeometry F) (id : QgsVertexId) :
    QgsPoint F :=
  let n := (polyLineSize g id.part id.ring).1
  g.vertexAt ⟨id.part, id.ring, (id.vertex + 1) % n⟩

/-- Specification wording: the vector from `p` to `q` is non-zero, judged on `x` and `y`. -/
def nonZeroVector {F : Type} (p q : QgsPoint F) : Prop :=
  q.x ≠ p.x ∨ q.y ≠ p.y

instance {F : Type} [DecidableEq F] (p q : QgsPoint F) : Decidable (nonZeroVector p q) := by
  unfold nonZeroVector; exact inferInstance

/-- Specification wording: the angle at `p2`, the arccos of the dot product of the two
normalised vectors to the neighbours, in degrees. -/
def measuredAngle {F : Type} [LinearOrderedField F] (lib : LibM F) (p1 p2 p3 : QgsPoint F) : F :=
  let v21 : QgsVector F := ⟨p1.x - p2.x, p1.y - p2.y⟩
  let v23 : QgsVector F := ⟨p3.x - p2.x, p3.y - p2.y⟩
  let n21 : QgsVector F := ⟨v21.x / v21.length lib, v21.y / v21.length lib⟩
  let n23 : QgsVector F := ⟨v23.x / v23.length lib, v23.y / v23.length lib⟩
  lib.acos (n21.dot n23) / lib.pi * 180

/-- Specification wording: the angle measured at an addressed vertex of a geometry. -/
def angleOfVertex {F : Type} [LinearOrderedField F] (lib : LibM F) (g : QgsAbstractGeometry F)
    (id : QgsVertexId) : F :=
  measuredAngle lib (prevVertex g id) (g.vertexAt id) (nextVertex g id)

/-- Specification wording: a vertex is a defect when its ring has at least 3 vertices, its
index is in the checkable range, both vectors to its neighbours are non-zero and the
angle is strictly less than the threshold. -/
def isDefect {F : Type} [LinearOrderedField F] (lib : LibM F) (chk : QgsGeometryAngleCheck F)
    (g : QgsAbstractGeometry F) (id : QgsVertexId) : Prop :=
  3 ≤ (polyLineSize g id.part id.ring).1 ∧
  inCheckableRange (polyLineSize g id.part id.ring).1 (polyLineSize g id.part id.ring).2
    id.vertex ∧
  nonZeroVector (g.vertexAt id) (prevVertex g id) ∧
  nonZeroVector (g.vertexAt id) (nextVertex g id) ∧
  angleOfVertex lib g id < chk.mMinAngle

instance {F : Type} [LinearOrderedField F] (lib : LibM F) (chk : QgsGeometryAngleCheck F)
    (g : QgsAbstractGeometry F) (id : QgsVertexId) : Decidable (isDefect lib chk g id) := by
  unfold isDefect; exact inferInstance

/-- Specification wording: the defect record of a vertex carries the feature, the
location of the vertex itself, its address and the measured angle. -/
def defectRecord {F : Type} [LinearOrderedField F] (lib : LibM F) (lf : LayerFeature F)
    (id : QgsVertexId) : QgsGeometryCheckError F :=
  ⟨lf.layerId, lf.featureId, lf.geometry.vertexAt id, id, angleOfVertex lib lf.geometry id,
    Status.StatusPending, ""⟩

/-- Specification wording: the defects of a feature collection, one per defect vertex, in
feature, part, ring, vertex order. -/
def expectedDefects {F : Type} [LinearOrderedField F] (lib : LibM F)
    (chk : QgsGeometryAngleCheck F) (layerFeatures : List (LayerFeature F)) :
    List (QgsGeometryCheckError F) :=
  layerFeatures.flatMap fun lf =>
    ((vertexAddresses lf.geometry).filter fun id => decide (isDefect lib chk lf.geometry id)).map
      (defectRecord lib lf)

/-- Lexicographic order of vertex addresses: part, then ring, then vertex. -/
def QgsVertexId.lexLt (a b : QgsVertexId) : Prop :=
  a.part < b.part ∨ (a.part = b.part ∧ (a.ring < b.ring ∨ (a.ring = b.ring ∧ a.vertex < b.vertex)))

/-- The library law that `sqrt` vanishes exactly at zero on non-negative arguments. -/
def SqrtZeroIff {F : Type} [LinearOrderedField F] (lib : LibM F) : Prop :=
  ∀ s : F, 0 ≤ s → (lib.sqrt s = 0 ↔ s = 0)

/-- Specification wording: the dot product of the two normalised vectors from `p2` to its
neighbours `p1` and `p3`. -/
def normalisedDot {F : Type} [LinearOrderedField F] (lib : LibM F) (p1 p2 p3 : QgsPoint F) : F :=
  let v21 : QgsVector F := ⟨p1.x - p2.x, p1.y - p2.y⟩
  let v23 : QgsVector F := ⟨p3.x - p2.x, p3.y - p2.y⟩
  let n21 : QgsVector F := ⟨v21.x / v21.length lib, v21.y / v21.length lib⟩
  let n23 : QgsVector F := ⟨v23.x / v23.length lib, v23.y / v23.length lib⟩
  n21.dot n23

/-- Specification wording: a value clamped to the interval [-1, 1]. -/
def clampUnit {F : Type} [LinearOrderedField F] (x : F) : F :=
  max (-1) (min 1 x)

/-- Specification wording: the angle at `p2` as the arccos of the dot product of the two
normalised vectors, with the dot product clamped to [-1, 1], in degrees. -/
def clampedAngle {F : Type} [LinearOrderedField F] (lib : LibM F) (p1 p2 p3 : QgsPoint F) : F :=
  let v21 : QgsVector F := ⟨p1.x - p2.x, p1.y - p2.y⟩
  let v23 : QgsVector F := ⟨p3.x - p2.x, p3.y - p2.y⟩
  let n21 : QgsVector F := ⟨v21.x / v21.length lib, v21.y / v21.length lib⟩
  let n23 : QgsVector F := ⟨v23.x / v23.length lib, v23.y / v23.length lib⟩
  lib.acos (clampUnit (n21.dot n23)) / lib.pi * 180

/-- The laws of an exact math library: `sqrt` is the non-negative square root, `acos` maps
[-1, 1] into [0, pi], and `pi` is positive. -/
def ExactLibM {F : Type} [LinearOrderedField F] (lib : LibM F) : Prop :=
  (∀ s : F, 0 ≤ s → 0 ≤ lib.sqrt s ∧ lib.sqrt s * lib.sqrt s = s) ∧
  (∀ x : F, -1 ≤ x → x ≤ 1 → 0 ≤ lib.acos x ∧ lib.acos x ≤ lib.pi) ∧
  0 < lib.pi

/-! ## The same translation over machine arithmetic

The definitions above compute in an exact ordered field.  The C++ type `double` is not
one: its operations round, `acos` answers an argument outside [-1, 1] with a NaN, and every
ordered comparison with a NaN is false, so that `angle < mMinAngle` and
`angle >= mMinAngle` can both fail.  The definitions of this section translate the same
source lines over an arbitrary arithmetic `Arith D`, of which no law is assumed;
`exactArith` recovers the definitions above and `doubleArith` is IEEE 754 binary64. -/

/-- The operations on `double` that the check uses: the constants `0.0`, `180.0` and
`M_PI`, the four arithmetic operators, `sqrt`, `acos`, the comparisons `<` and `>=`, and
the test `== 0.0`. -/
structure Arith (D : Type) where
  zero : D
  oneEighty : D
  pi : D
  add : D → D → D
  sub : D → D → D
  mul : D → D → D
  div : D → D → D
  sqrt : D → D
  acos : D → D
  lt : D → D → Bool
  ge : D → D → Bool
  eqZero : D → Bool

/-- Modelled from the spec: `QgsVector::length` over machine arithmetic. -/
def Machine.length {D : Type} (ar : Arith D) (v : QgsVector D) : D :=
  ar.sqrt (ar.add (ar.mul v.x v.x) (ar.mul v.y v.y))

/-- Modelled from the spec: `QgsVector::normalized` over machine arithmetic; it throws
(`none`) when the computed length compares equal to `0.0`. -/
def Machine.normalized {D : Type} (ar : Arith D) (v : QgsVector D) : Option (QgsVector D) :=
  if ar.eqZero (Machine.length ar v) = true then none
  else some ⟨ar.div v.x (Machine.length ar v), ar.div v.y (Machine.length ar v)⟩

/-- Modelled from the spec: `QgsVector::operator*`, the dot product, over machine
arithmetic. -/
def Machine.dot {D : Type} (ar : Arith D) (v w : QgsVector D) : D :=
  ar.add (ar.mul v.x w.x) (ar.mul v.y w.y)

/-- Modelled from the spec: `QgsGeometryUtils::sqrDistance2D` over machine arithmetic. -/
def Machine.sqrDistance2D {D : Type} (ar : Arith D) (p q : QgsPoint D) : D :=
  ar.add (ar.mul (ar.sub p.x q.x) (ar.sub p.x q.x)) (ar.mul (ar.sub p.y q.y) (ar.sub p.y q.y))

/-- Modelled from the spec: `QgsAbstractGeometry::vertexAt` for coordinates of any type;
an address without a vertex yields the default point. -/
def Machine.vertexAt {D : Type} (ar : Arith D) (g : QgsAbstractGeometry D) (id : QgsVertexId) :
    QgsPoint D :=
  match g.ringAt id.part id.ring with
  | some r => (getAt r.vertices id.vertex).getD ⟨ar.zero, ar.zero, ar.zero⟩
  | none => ⟨ar.zero, ar.zero, ar.zero⟩

/-- The angle computation of lines 43-55 and 96-107 over machine arithmetic: a vector
whose computed length is zero throws (`none`); otherwise the result is
`acos( v21 * v23 ) / M_PI * 180.0`, which may be a NaN. -/
def Machine.angleAt {D : Type} (ar : Arith D) (p1 p2 p3 : QgsPoint D) : Option D :=
  match Machine.normalized ar ⟨ar.sub p1.x p2.x, ar.sub p1.y p2.y⟩ with
  | none => none
  | some v21 =>
    match Machine.normalized ar ⟨ar.sub p3.x p2.x, ar.sub p3.y p2.y⟩ with
    | none => none
    | some v23 => some (ar.mul (ar.div (ar.acos (Machine.dot ar v21 v23)) ar.pi) ar.oneEighty)

/-- Body of the vertex loop (lines 40-59) over machine arithmetic. -/
def Machine.checkVertex {D : Type} (ar : Arith D) (chk : QgsGeometryAngleCheck D)
    (layerFeature : LayerFeature D) (iPart iRing nVerts : Int)
    (errors : List (QgsGeometryCheckError D)) (iVert : Int) : List (QgsGeometryCheckError D) :=
  let geom := layerFeature.geometry
  let p1 := Machine.vertexAt ar geom ⟨iPart, iRing, (iVert - 1 + nVerts).tmod nVerts⟩
  let p2 := Machine.vertexAt ar geom ⟨iPart, iRing, iVert⟩
  let p3 := Machine.vertexAt ar geom ⟨iPart, iRing, (iVert + 1).tmod nVerts⟩
  match Machine.angleAt ar p1 p2 p3 with
  | none => errors
  | some angle =>
    if ar.lt angle chk.mMinAngle = true then
      errors ++ [⟨layerFeature.layerId, layerFeature.featureId, p2, ⟨iPart, iRing, iVert⟩, angle,
        Status.StatusPending, ""⟩]
    else errors

/-- Body of the ring loop (lines 31-60) over machine arithmetic. -/
def Machine.checkRing {D : Type} (ar : Arith D) (chk : QgsGeometryAngleCheck D)
    (layerFeature : LayerFeature D) (iPart : Int)
    (errors : List (QgsGeometryCheckError D)) (iRing : Int) : List (QgsGeometryCheckError D) :=
  let size := polyLineSize layerFeature.geometry iPart iRing
  (examinedIndices size.1 size.2).foldl
    (Machine.checkVertex ar chk layerFeature iPart iRing size.1) errors

/-- Body of the part loop (lines 29-61) over machine arithmetic. -/
def Machine.checkPart {D : Type} (ar : Arith D) (chk : QgsGeometryAngleCheck D)
    (layerFeature : LayerFeature D)
    (errors : List (QgsGeometryCheckError D)) (iPart : Int) : List (QgsGeometryCheckError D) :=
  (forRange 0 (layerFeature.geometry.ringCount iPart)).foldl
    (Machine.checkRing ar chk layerFeature iPart) errors

/-- Body of the feature loop (lines 26-62) over machine arithmetic. -/
def Machine.checkFeature {D : Type} (ar : Arith D) (chk : QgsGeometryAngleCheck D)
    (errors : List (QgsGeometryCheckError D)) (layerFeature : LayerFeature D) :
    List (QgsGeometryCheckError D) :=
  (forRange 0 layerFeature.geometry.partCount).foldl (Machine.checkPart ar chk layerFeature)
    errors

/-- Translation of `QgsGeometryAngleCheck::collectErrors` over machine arithmetic. -/
def Machine.collectErrors {D : Type} (ar : Arith D) (chk : QgsGeometryAngleCheck D)
    (layerFeatures : List (LayerFeature D)) (errors : List (QgsGeometryCheckError D)) :
    List (QgsGeometryCheckError D) :=
  layerFeatures.foldl (Machine.checkFeature ar chk) errors

/-- The `DeleteNode` branch of `fixError` (lines 121-142) over machine arithmetic. -/
def Machine.fixDeleteNode {D : Type} (ar : Arith D) (chk : QgsGeometryAngleCheck D)
    (featurePools : FeaturePools D) (error : QgsGeometryCheckError D) (method : Int)
    (changes : Changes) (geometry : QgsAbstractGeometry D) (n : Int) (p1 p3 : QgsPoint D) :
    FixOutcome D :=
  let vidx := error.vidx
  if !canDeleteVertex geometry vidx.part vidx.ring then
    ⟨error.setFixFailed "Resulting geometry is degenerate", changes, featurePools, []⟩
  else
    match geometry.deleteVertex error.vidx with
    | none =>
      ⟨error.setFixFailed "Failed to delete vertex", changes, featurePools,
        [Effect.deleteVertexCall error.vidx false]⟩
    | some geometry1 =>
      let changes1 := changes.append error.layerId error.featureId
        ⟨ChangeWhat.ChangeNode, ChangeType.ChangeRemoved, vidx⟩
      if ar.lt (Machine.sqrDistance2D ar p1 p3) chk.tolerance = true ∧
          canDeleteVertex geometry1 vidx.part vidx.ring = true then
        match geometry1.deleteVertex error.vidx with
        | some geometry2 =>
          let changes2 := changes1.append error.layerId error.featureId
            ⟨ChangeWhat.ChangeNode, ChangeType.ChangeRemoved,
              ⟨vidx.part, vidx.ring, (vidx.vertex + 1).tmod n⟩⟩
          ⟨error.setFixed method, changes2,
            featurePools.updateFeature error.layerId error.featureId geometry2,
            [Effect.deleteVertexCall error.vidx true, Effect.deleteVertexCall error.vidx true,
              Effect.updateFeatureCall error.layerId error.featureId geometry2]⟩
        | none =>
          ⟨error.setFixed method, changes1,
            featurePools.updateFeature error.layerId error.featureId geometry1,
            [Effect.deleteVertexCall error.vidx true, Effect.deleteVertexCall error.vidx false,
              Effect.updateFeatureCall error.layerId error.featureId geometry1]⟩
      else
        ⟨error.setFixed method, changes1,
          featurePools.updateFeature error.layerId error.featureId geometry1,
          [Effect.deleteVertexCall error.vidx true,
            Effect.updateFeatureCall error.layerId error.featureId geometry1]⟩

/-- Translation of `QgsGeometryAngleCheck::fixError` over machine arithmetic. -/
def Machine.fixError {D : Type} (ar : Arith D) (chk : QgsGeometryAngleCheck D)
    (featurePools : FeaturePools D) (error : QgsGeometryCheckError D) (method : Int)
    (changes : Changes) : FixOutcome D :=
  match featurePools error.layerId error.featureId with
  | none => ⟨error.setObsolete, changes, featurePools, []⟩
  | some geometry =>
    let vidx := error.vidx
    -- Check if point still exists
    if !vidx.isValid geometry then ⟨error.setObsolete, changes, featurePools, []⟩
    else
      -- Check if error still applies
      let n := (polyLineSize geometry vidx.part vidx.ring).1
      if n = 0 then ⟨error.setObsolete, changes, featurePools, []⟩
      else
        let p1 := Machine.vertexAt ar geometry ⟨vidx.part, vidx.ring, (vidx.vertex - 1 + n).tmod n⟩
        let p2 := Machine.vertexAt ar geometry vidx
        let p3 := Machine.vertexAt ar geometry ⟨vidx.part, vidx.ring, (vidx.vertex + 1).tmod n⟩
        match Machine.angleAt ar p1 p2 p3 with
        | none => ⟨error.setObsolete, changes, featurePools, []⟩
        | some angle =>
          if ar.ge angle chk.mMinAngle = true then ⟨error.setObsolete, changes, featurePools, []⟩
          -- Fix error
          else if method = NoChange then ⟨error.setFixed method, changes, featurePools, []⟩
          else if method = DeleteNode then
            Machine.fixDeleteNode ar chk featurePools error method changes geometry n p1 p3
          else ⟨error.setFixFailed "Unknown method", changes, featurePools, []⟩

/-- The angle that `fixError` recomputes at the stored vertex address (lines 87-107), over
machine arithmetic. -/
def Machine.recomputedAngle {D : Type} (ar : Arith D) (geometry : QgsAbstractGeometry D)
    (vidx : QgsVertexId) : Option D :=
  Machine.angleAt ar
    (Machine.vertexAt ar geometry ⟨vidx.part, vidx.ring,
      (vidx.vertex - 1 + (polyLineSize geometry vidx.part vidx.ring).1).tmod
        (polyLineSize geometry vidx.part vidx.ring).1⟩)
    (Machine.vertexAt ar geometry vidx)
    (Machine.vertexAt ar geometry ⟨vidx.part, vidx.ring,
      (vidx.vertex + 1).tmod (polyLineSize geometry vidx.part vidx.ring).1⟩)

/-- Exact arithmetic in an ordered field with a math library, as an `Arith`. -/
def exactArith {F : Type} [LinearOrderedField F] (lib : LibM F) : Arith F where
  zero := 0
  oneEighty := 180
  pi := lib.pi
  add := fun a b => a + b
  sub := fun a b => a - b
  mul := fun a b => a * b
  div := fun a b => a / b
  sqrt := lib.sqrt
  acos := lib.acos
  lt := fun a b => decide (a < b)
  ge := fun a b => decide (a ≥ b)
  eqZero := fun a => decide (a = 0)

/-! ## IEEE 754 binary64

The C++ type `double` as the check uses it.  A finite value is carried as the rational
number it denotes; every arithmetic operation and `sqrt` return the exact result rounded
once (to nearest, ties to even), each operation on its own: no fused multiply-add and no
wider intermediate precision.  The two zeros are one value and NaNs are not told apart,
which no comparison of the check can observe.  `acos` is a NaN outside [-1, 1]; inside,
its value is whatever the C library returns, a parameter of `doubleArith`.  `isqrt_eq` and
`ilog2_eq` relate the two helper loops to `Nat.sqrt` and `Nat.log2`. -/

/-- A value of the C++ type `double`: a finite number, carried as the rational it denotes
(the two zeros are one value), an infinity with its sign, or a NaN. -/
inductive Double where
  | finite (q : ℚ)
  | infinite (negative : Bool)
  | nan
deriving DecidableEq

/-- The quotient `n / d` of two natural numbers rounded to the nearest natural number, a
tie going to the even one. -/
def roundNearestEven (n d : Nat) : Nat :=
  if 2 * (n % d) < d then n / d
  else if d < 2 * (n % d) then n / d + 1
  else if n / d % 2 = 0 then n / d else n / d + 1

/-- Loop of `ilog2`. -/
def ilog2Loop : Nat → Nat → Nat
  | 0, _ => 0
  | fuel + 1, n => if n < 2 then 0 else ilog2Loop fuel (n / 2) + 1

/-- The binary logarithm of a natural number, rounded down (`Nat.log2`, by a recursion
that evaluates on large numbers). -/
def ilog2 (n : Nat) : Nat :=
  ilog2Loop n n

/-- Loop of `isqrt`: bisection that keeps `lo * lo ≤ n < hi * hi`. -/
def isqrtLoop (n : Nat) : Nat → Nat → Nat → Nat
  | 0, lo, _ => lo
  | fuel + 1, lo, hi =>
    if hi ≤ lo + 1 then lo
    else if (lo + hi) / 2 * ((lo + hi) / 2) ≤ n then isqrtLoop n fuel ((lo + hi) / 2) hi
    else isqrtLoop n fuel lo ((lo + hi) / 2)

/-- The square root of a natural number, rounded down (`Nat.sqrt`, by a recursion that
evaluates on large numbers). -/
def isqrt (n : Nat) : Nat :=
  isqrtLoop n (n + 2) 0 (n + 1)

/-- The binary logarithm of the positive rational `n / d`, rounded down. -/
def floorLog2 (n d : Nat) : Int :=
  let k : Int := (ilog2 n : Int) - (ilog2 d : Int)
  if d * 2 ^ k.toNat ≤ n * 2 ^ (-k).toNat then k else k - 1

/-- Rounding of a real (here rational) result to binary64: to the nearest number with 53
significant bits and an exponent of at least -1022 (so the unit in the last place is at
least 2^-1074), a tie going to the even significand; a result of magnitude 2^1024 or more
is an infinity. -/
def Double.round (q : ℚ) : Double :=
  if q = 0 then Double.finite 0
  else
    let s : Int := max (floorLog2 q.num.natAbs q.den) (-1022) - 52
    let m : Nat := roundNearestEven (q.num.natAbs * 2 ^ (-s).toNat) (q.den * 2 ^ s.toNat)
    let magnitude : ℚ := mkRat ((m * 2 ^ s.toNat : Nat) : Int) (2 ^ (-s).toNat)
    if (2 : ℚ) ^ 1024 ≤ magnitude then Double.infinite (decide (q < 0))
    else Double.finite (if q < 0 then -magnitude else magnitude)

/-- The square root of a non-negative rational rounded to binary64 (to nearest, a tie
going to the even significand). -/
def Double.roundSqrt (q : ℚ) : Double :=
  if q = 0 then Double.finite 0
  else
    let s : Int := Int.fdiv (floorLog2 q.num.natAbs q.den) 2 - 52
    let n : Nat := q.num.natAbs * 2 ^ (-(2 * s)).toNat
    let d : Nat := q.den * 2 ^ (2 * s).toNat
    let f : Nat := isqrt (n / d)
    let m : Nat :=
      if 4 * n < (2 * f + 1) * (2 * f + 1) * d then f
      else if (2 * f + 1) * (2 * f + 1) * d < 4 * n then f + 1
      else if f % 2 = 0 then f else f + 1
    Double.finite (mkRat ((m * 2 ^ s.toNat : Nat) : Int) (2 ^ (-s).toNat))

/-- The operator `+` of `double`. -/
def Double.add : Double → Double → Double
  | .finite a, .finite b => Double.round (a + b)
  | .finite _, .infinite t => .infinite t
  | .infinite s, .finite _ => .infinite s
  | .infinite s, .infinite t => if s = t then .infinite s else .nan
  | _, _ => .nan

/-- The operator `-` of `double`. -/
def Double.sub : Double → Double → Double
  | .finite a, .finite b => Double.round (a - b)
  | .finite _, .infinite t => .infinite (!t)
  | .infinite s, .finite _ => .infinite s
  | .infinite s, .infinite t => if s = t then .nan else .infinite s
  | _, _ => .nan

/-- The operator `*` of `double`. -/
def Double.mul : Double → Double → Double
  | .finite a, .finite b => Double.round (a * b)
  | .finite a, .infinite t => if a = 0 then .nan else .infinite (xor (decide (a < 0)) t)
  | .infinite s, .finite b => if b = 0 then .nan else .infinite (xor s (decide (b < 0)))
  | .infinite s, .infinite t => .infinite (xor s t)
  | _, _ => .nan

/-- The operator `/` of `double`; a non-zero number divided by zero is the infinity with
the sign of the dividend (the zero divisor being taken as positive). -/
def Double.div : Double → Double → Double
  | .finite a, .finite b =>
    if b = 0 then (if a = 0 then .nan else .infinite (decide (a < 0))) else Double.round (a / b)
  | .finite _, .infinite _ => .finite 0
  | .infinite s, .finite b => .infinite (xor s (decide (b < 0)))
  | _, _ => .nan

/-- The function `sqrt` of the C math library, which IEEE 754 requires to round correctly. -/
def Double.sqrt : Double → Double
  | .finite q => if q < 0 then .nan else Double.roundSqrt q
  | .infinite false => .infinite false
  | _ => .nan

/-- The function `acos` of the C math library: a NaN for an argument outside [-1, 1]
(a domain error) and for a NaN; inside [-1, 1] the value that the library `libm` returns,
about which nothing is assumed. -/
def Double.acos (libm : ℚ → Double) : Double → Double
  | .finite q => if -1 ≤ q ∧ q ≤ 1 then libm q else .nan
  | _ => .nan

/-- The comparison `<` of `double`: false as soon as one side is a NaN. -/
def Double.lt : Double → Double → Bool
  | .finite a, .finite b => decide (a < b)
  | .finite _, .infinite t => !t
  | .infinite s, .finite _ => s
  | .infinite s, .infinite t => s && !t
  | _, _ => false

/-- The comparison `>=` of `double`: false as soon as one side is a NaN. -/
def Double.ge : Double → Double → Bool
  | .finite a, .finite b => decide (a ≥ b)
  | .finite _, .infinite t => t
  | .infinite s, .finite _ => !s
  | .infinite s, .infinite t => !s || t
  | _, _ => false

/-- The test `x == 0.0` of `double`. -/
def Double.eqZero : Double → Bool
  | .finite q => decide (q = 0)
  | _ => false

/-- The arithmetic of `double` with the math library `libm` behind `acos`; `M_PI` is the
binary64 number nearest to pi. -/
def doubleArith (libm : ℚ → Double) : Arith Double where
  zero := Double.finite 0
  oneEighty := Double.finite 180
  pi := Double.finite (884279719003555 / 281474976710656)
  add := Double.add
  sub := Double.sub
  mul := Double.mul
  div := Double.div
  sqrt := Double.sqrt
  acos := Double.acos libm
  lt := Double.lt
  ge := Double.ge
  eqZero := Double.eqZero

/-- A point with rational coordinates as a point of `double`s, each coordinate rounded. -/
def QgsPoint.toDouble (p : QgsPoint ℚ) : QgsPoint Double :=
  ⟨Double.round p.x, Double.round p.y, Double.round p.z⟩

/-- A ring with rational coordinates as a ring of `double`s. -/
def Ring.toDouble (r : Ring ℚ) : Ring Double :=
  ⟨r.vertices.map QgsPoint.toDouble, r.closed⟩

/-! ## Concrete geometries used as test inputs -/

/-- A geometry with one part that has one ring. -/
def singleRing {F : Type} (r : Ring F) : QgsAbstractGeometry F :=
  ⟨[[r]]⟩

/-- The ring of the concrete scenario of the specification: closed, with vertices
A(0,0), B(10,0), C(10,0.0001), D(0,10). -/
def scenarioRing (F : Type) [LinearOrderedField F] : Ring F :=
  ⟨[⟨0, 0, 0⟩, ⟨10, 0, 0⟩, ⟨10, 1 / 10000, 0⟩, ⟨0, 10, 0⟩], true⟩

/-- A closed ring with a spike at index 1: the vectors from (10,0) to (0,0) and to (5,0)
point the same way. -/
def spikeRing (F : Type) [LinearOrderedField F] : Ring F :=
  ⟨[⟨0, 0, 0⟩, ⟨10, 0, 0⟩, ⟨5, 0, 0⟩, ⟨5, 5, 0⟩], true⟩

/-- An open ring with spikes at index 1 and index 2; removing vertex 1 leaves a spike at
index 1. -/
def zigzagLine (F : Type) [LinearOrderedField F] : Ring F :=
  ⟨[⟨7, 0, 0⟩, ⟨10, 0, 0⟩, ⟨5, 0, 0⟩, ⟨8, 0, 0⟩], false⟩

/-- A closed ring with a spike at index 1 whose neighbours (0,0) and (0.5,0) are closer
than a tolerance of 1. -/
def needleRing (F : Type) [LinearOrderedField F] : Ring F :=
  ⟨[⟨0, 0, 0⟩, ⟨10, 0, 0⟩, ⟨1 / 2, 0, 0⟩, ⟨5, 5, 0⟩, ⟨0, 5, 0⟩], true⟩

/-- A closed ring in which vertex 1 and vertex 2 coincide at (10,0), one of them being a
3D point. -/
def doubledRing (F : Type) [LinearOrderedField F] : Ring F :=
  ⟨[⟨0, 0, 0⟩, ⟨10, 0, 0⟩, ⟨10, 0, 3⟩, ⟨0, 10, 0⟩], true⟩

/-- The closed ring `spikeRing` after its vertex 1 has been removed. -/
def spikeRingCut (F : Type) [LinearOrderedField F] : Ring F :=
  ⟨[⟨0, 0, 0⟩, ⟨5, 0, 0⟩, ⟨5, 5, 0⟩], true⟩

/-- The closed ring `needleRing` after its vertex 1 has been removed. -/
def needleRingCut (F : Type) [LinearOrderedField F] : Ring F :=
  ⟨[⟨0, 0, 0⟩, ⟨1 / 2, 0, 0⟩, ⟨5, 5, 0⟩, ⟨0, 5, 0⟩], true⟩

/-- The closed ring `needleRingCut` after its vertex 1 has been removed in turn. -/
def needleRingCutTwice (F : Type) [LinearOrderedField F] : Ring F :=
  ⟨[⟨0, 0, 0⟩, ⟨5, 5, 0⟩, ⟨0, 5, 0⟩], true⟩

/-- A closed ring of 3 vertices (a triangle) with a spike at index 1. -/
def triangleRing (F : Type) [LinearOrderedField F] : Ring F :=
  ⟨[⟨0, 0, 0⟩, ⟨10, 0, 0⟩, ⟨5, 0, 0⟩], true⟩

/-- An open ring of 3 vertices whose first vertex (10,0) sees its wrapped-around previous
neighbour (5,0) and its next neighbour (0,0) in the same direction. -/
def hookLine (F : Type) [LinearOrderedField F] : Ring F :=
  ⟨[⟨10, 0, 0⟩, ⟨0, 0, 0⟩, ⟨5, 0, 0⟩], false⟩

/-- The open ring `hookLine` after its first vertex has been removed. -/
def hookLineCut (F : Type) [LinearOrderedField F] : Ring F :=
  ⟨[⟨0, 0, 0⟩, ⟨5, 0, 0⟩], false⟩

/-- An open ring of 2 vertices. -/
def shortLine (F : Type) [LinearOrderedField F] : Ring F :=
  ⟨[⟨10, 0, 0⟩, ⟨0, 0, 0⟩], false⟩

/-- Feature pools with one layer "layer" holding one feature 7 with the given geometry. -/
def singleFeaturePool {F : Type} (g : QgsAbstractGeometry F) : FeaturePools F :=
  fun l f => if l = "layer" ∧ f = 7 then some g else none

/-- A pending error of feature 7 of layer "layer" at the given vertex address. -/
def pendingError {F : Type} [LinearOrderedField F] (location : QgsPoint F) (vidx : QgsVertexId)
    (value : F) : QgsGeometryCheckError F :=
  ⟨"layer", 7, location, vidx, value, Status.StatusPending, ""⟩

/-- The empty change accumulator. -/
def noChanges : Changes :=
  fun _ _ => []

/-- An open ring whose vertex 1, (0,0), sees its neighbours (12,5) and (24,10) in the same
direction: a spike of 0 degrees. -/
def collinearSpikeLine (F : Type) [LinearOrderedField F] : Ring F :=
  ⟨[⟨12, 5, 0⟩, ⟨0, 0, 0⟩, ⟨24, 10, 0⟩], false⟩

/-- An open ring whose vertex 1, (0,0), lies on the straight segment from (-12,-5) to
(12,5): an angle of 180 degrees. -/
def straightLine (F : Type) [LinearOrderedField F] : Ring F :=
  ⟨[⟨-12, -5, 0⟩, ⟨0, 0, 0⟩, ⟨12, 5, 0⟩], false⟩

/-- The open ring `straightLine` after its vertex 1 has been removed. -/
def straightLineCut (F : Type) [LinearOrderedField F] : Ring F :=
  ⟨[⟨-12, -5, 0⟩, ⟨12, 5, 0⟩], false⟩

/-- An open ring whose vertex 1, (0,0), sees its neighbours (2^-600,0) and (2^-599,0) in
the same direction; the squares of these coordinates are below the least positive
`double`. -/
def tinySpikeLine (F : Type) [LinearOrderedField F] : Ring F :=
  ⟨[⟨1 / 2 ^ 600, 0, 0⟩, ⟨0, 0, 0⟩, ⟨1 / 2 ^ 599, 0, 0⟩], false⟩

/-- An open ring with a spike at its last index 4, whose wrapped-around next neighbour
(0,0) and previous neighbour (0.5,0) are closer than a tolerance of 1. -/
def lastNeedleLine (F : Type) [LinearOrderedField F] : Ring F :=
  ⟨[⟨0, 0, 0⟩, ⟨0, 5, 0⟩, ⟨5, 5, 0⟩, ⟨1 / 2, 0, 0⟩, ⟨10, 0, 0⟩], false⟩

/-- The open ring `lastNeedleLine` after its vertex 4 has been removed. -/
def lastNeedleLineCut (F : Type) [LinearOrderedField F] : Ring F :=
  ⟨[⟨0, 0, 0⟩, ⟨0, 5, 0⟩, ⟨5, 5, 0⟩, ⟨1 / 2, 0, 0⟩], false⟩

/-- A pending error of feature 7 of layer "layer" at the given vertex address, over
`double`, with location (0,0) and a stored angle of 0 degrees. -/
def pendingDouble (vidx : QgsVertexId) : QgsGeometryCheckError Double :=
  ⟨"layer", 7, ⟨Double.finite 0, Double.finite 0, Double.finite 0⟩, vidx, Double.finite 0,
    Status.StatusPending, ""⟩

/-! ## Auxiliary facts -/

theorem mem_forRange (lo hi i : Int) : i ∈ forRange lo hi ↔ lo ≤ i ∧ i < hi := by
  unfold forRange
  simp only [List.mem_map, List.mem_range]
  constructor
  · rintro ⟨k, hk, rfl⟩
    omega
  · rintro ⟨h1, h2⟩
    exact ⟨(i - lo).toNat, by omega, by omega⟩

theorem forRange_sorted (lo hi : Int) : (forRange lo hi).Pairwise (· < ·) := by
  unfold forRange
  rw [List.pairwise_map]
  exact (List.pairwise_lt_range _).imp (fun h => by omega)

theorem sorted_ext {l₁ l₂ : List Int} (h₁ : l₁.Pairwise (· < ·)) (h₂ : l₂.Pairwise (· < ·))
    (h : ∀ i, i ∈ l₁ ↔ i ∈ l₂) : l₁ = l₂ :=
  List.eq_of_perm_of_sorted ((List.perm_ext_iff_of_nodup h₁.nodup h₂.nodup).2 h) h₁ h₂

theorem foldl_append_flatMap {α β : Type} (f : List β → α → List β) (g : α → List β)
    (hf : ∀ acc x, f acc x = acc ++ g x) (l : List α) (init : List β) :
    l.foldl f init = init ++ l.flatMap g := by
  induction l generalizing init with
  | nil => simp
  | cons a t ih => simp [List.foldl_cons, ih, hf, List.append_assoc]

theorem flatMap_ite_eq_map_filter {α β : Type} (l : List α) (p : α → Prop) [DecidablePred p]
    (r : α → β) :
    (l.flatMap fun a => if p a then [r a] else []) = (l.filter fun a => decide (p a)).map r := by
  induction l with
  | nil => simp
  | cons a t ih =>
    by_cases h : p a <;> simp [List.flatMap_cons, List.filter_cons, h, ih]

theorem mem_examinedIndices (n : Int) (closed : Bool) (i : Int) :
    i ∈ examinedIndices n closed ↔ 3 ≤ n ∧ inCheckableRange n closed i := by
  unfold examinedIndices inCheckableRange notAsInt
  by_cases h : n < 3
  · simp [h]
  · cases closed <;> simp [h, mem_forRange] <;> omega

theorem examinedIndices_sorted (n : Int) (closed : Bool) :
    (examinedIndices n closed).Pairwise (· < ·) := by
  unfold examinedIndices
  split
  · exact List.Pairwise.nil
  · exact forRange_sorted _ _

theorem examinedIndices_eq_filter (n : Int) (closed : Bool) :
    examinedIndices n closed =
      (forRange 0 n).filter fun i => decide (3 ≤ n ∧ inCheckableRange n closed i) := by
  apply sorted_ext (examinedIndices_sorted n closed) ((forRange_sorted 0 n).filter _)
  intro i
  rw [mem_examinedIndices]
  simp only [List.mem_filter, mem_forRange, decide_eq_true_eq]
  unfold inCheckableRange
  cases closed
  · simp
    omega
  · simp

theorem flatMap_congr_mem {α β : Type} (l : List α) (f g : α → List β)
    (h : ∀ a ∈ l, f a = g a) : l.flatMap f = l.flatMap g := by
  induction l with
  | nil => simp
  | cons a t ih =>
    simp only [List.flatMap_cons]
    rw [h a (List.mem_cons_self _ _), ih (fun b hb => h b (List.mem_cons_of_mem _ hb))]

theorem normalized_eq_none_iff {F : Type} [LinearOrderedField F] (lib : LibM F)
    (hsqrt : SqrtZeroIff lib) (dx dy : F) :
    (QgsVector.mk dx dy).normalized lib = none ↔ dx = 0 ∧ dy = 0 := by
  unfold QgsVector.normalized QgsVector.length
  have h0 : (0 : F) ≤ dx * dx + dy * dy := add_nonneg (mul_self_nonneg _) (mul_self_nonneg _)
  simp only [ite_eq_left_iff, reduceCtorEq, imp_false, not_not]
  rw [hsqrt _ h0]
  exact mul_self_add_mul_self_eq_zero

theorem normalized_of_ne_none {F : Type} [LinearOrderedField F] (lib : LibM F) (v : QgsVector F)
    (h : v.normalized lib ≠ none) :
    v.normalized lib = some ⟨v.x / v.length lib, v.y / v.length lib⟩ := by
  unfold QgsVector.normalized at h ⊢
  by_cases hl : v.length lib = 0
  · simp [hl] at h
  · simp [hl]

theorem angleAt_eq {F : Type} [LinearOrderedField F] (lib : LibM F) (hsqrt : SqrtZeroIff lib)
    (p1 p2 p3 : QgsPoint F) :
    angleAt lib p1 p2 p3 =
      if nonZeroVector p2 p1 ∧ nonZeroVector p2 p3 then some (measuredAngle lib p1 p2 p3)
      else none := by
  unfold angleAt nonZeroVector
  by_cases h1 : p1.x - p2.x = 0 ∧ p1.y - p2.y = 0
  · have hn := (normalized_eq_none_iff lib hsqrt _ _).2 h1
    have hx : p1.x = p2.x := sub_eq_zero.1 h1.1
    have hy : p1.y = p2.y := sub_eq_zero.1 h1.2
    rw [hn]
    simp [hx, hy]
  · have hn1 : (QgsVector.mk (p1.x - p2.x) (p1.y - p2.y)).normalized lib ≠ none :=
      fun hc => h1 ((normalized_eq_none_iff lib hsqrt _ _).1 hc)
    rw [normalized_of_ne_none lib _ hn1]
    have h1' : p1.x ≠ p2.x ∨ p1.y ≠ p2.y := by
      by_contra hc
      push_neg at hc
      exact h1 ⟨sub_eq_zero.2 hc.1, sub_eq_zero.2 hc.2⟩
    by_cases h3 : p3.x - p2.x = 0 ∧ p3.y - p2.y = 0
    · have hn := (normalized_eq_none_iff lib hsqrt _ _).2 h3
      have hx : p3.x = p2.x := sub_eq_zero.1 h3.1
      have hy : p3.y = p2.y := sub_eq_zero.1 h3.2
      rw [hn]
      simp [hx, hy]
    · have hn3 : (QgsVector.mk (p3.x - p2.x) (p3.y - p2.y)).normalized lib ≠ none :=
        fun hc => h3 ((normalized_eq_none_iff lib hsqrt _ _).1 hc)
      rw [normalized_of_ne_none lib _ hn3]
      have h3' : p3.x ≠ p2.x ∨ p3.y ≠ p2.y := by
        by_contra hc
        push_neg at hc
        exact h3 ⟨sub_eq_zero.2 hc.1, sub_eq_zero.2 hc.2⟩
      simp only [h1', h3', and_self, if_true]
      rfl

theorem checkVertex_append {F : Type} [LinearOrderedField F] (lib : LibM F)
    (chk : QgsGeometryAngleCheck F) (lf : LayerFeature F) (iPart iRing nVerts : Int)
    (errors : List (QgsGeometryCheckError F)) (iVert : Int) :
    checkVertex lib chk lf iPart iRing nVerts errors iVert =
      errors ++ checkVertex lib chk lf iPart iRing nVerts [] iVert := by
  unfold checkVertex
  simp only
  split
  · simp
  · split <;> simp

theorem checkVertex_spec {F : Type} [LinearOrderedField F] (lib : LibM F)
    (hsqrt : SqrtZeroIff lib) (chk : QgsGeometryAngleCheck F) (lf : LayerFeature F)
    (iPart iRing iVert : Int)
    (h0 : 0 ≤ iVert) (hn : iVert < (polyLineSize lf.geometry iPart iRing).1) :
    checkVertex lib chk lf iPart iRing (polyLineSize lf.geometry iPart iRing).1 [] iVert =
      if nonZeroVector (lf.geometry.vertexAt ⟨iPart, iRing, iVert⟩)
            (prevVertex lf.geometry ⟨iPart, iRing, iVert⟩) ∧
          nonZeroVector (lf.geometry.vertexAt ⟨iPart, iRing, iVert⟩)
            (nextVertex lf.geometry ⟨iPart, iRing, iVert⟩) ∧
          angleOfVertex lib lf.geometry ⟨iPart, iRing, iVert⟩ < chk.mMinAngle
      then [defectRecord lib lf ⟨iPart, iRing, iVert⟩] else [] := by
  have e1 : (iVert - 1 + (polyLineSize lf.geometry iPart iRing).1).tmod
      (polyLineSize lf.geometry iPart iRing).1 =
      (iVert - 1 + (polyLineSize lf.geometry iPart iRing).1) %
        (polyLineSize lf.geometry iPart iRing).1 :=
    Int.tmod_eq_emod (by omega) (by omega)
  have e2 : (iVert + 1).tmod (polyLineSize lf.geometry iPart iRing).1 =
      (iVert + 1) % (polyLineSize lf.geometry iPart iRing).1 :=
    Int.tmod_eq_emod (by omega) (by omega)
  unfold checkVertex
  simp only [e1, e2, angleAt_eq lib hsqrt]
  unfold defectRecord angleOfVertex prevVertex nextVertex
  simp only
  split_ifs <;> simp_all

theorem checkRing_eq {F : Type} [LinearOrderedField F] (lib : LibM F) (hsqrt : SqrtZeroIff lib)
    (chk : QgsGeometryAngleCheck F) (lf : LayerFeature F) (iPart : Int)
    (errors : List (QgsGeometryCheckError F)) (iRing : Int) :
    checkRing lib chk lf iPart errors iRing =
      errors ++
        (((forRange 0 (polyLineSize lf.geometry iPart iRing).1).map
            fun iVert => QgsVertexId.mk iPart iRing iVert).filter
          fun id => decide (isDefect lib chk lf.geometry id)).map (defectRecord lib lf) := by
  unfold checkRing
  simp only
  rw [foldl_append_flatMap _ (fun i => checkVertex lib chk lf iPart iRing
    (polyLineSize lf.geometry iPart iRing).1 [] i) (checkVertex_append lib chk lf iPart iRing _)]
  congr 1
  have hv : ∀ i ∈ examinedIndices (polyLineSize lf.geometry iPart iRing).1
      (polyLineSize lf.geometry iPart iRing).2,
      checkVertex lib chk lf iPart iRing (polyLineSize lf.geometry iPart iRing).1 [] i =
        if nonZeroVector (lf.geometry.vertexAt ⟨iPart, iRing, i⟩)
              (prevVertex lf.geometry ⟨iPart, iRing, i⟩) ∧
            nonZeroVector (lf.geometry.vertexAt ⟨iPart, iRing, i⟩)
              (nextVertex lf.geometry ⟨iPart, iRing, i⟩) ∧
            angleOfVertex lib lf.geometry ⟨iPart, iRing, i⟩ < chk.mMinAngle
        then [defectRecord lib lf ⟨iPart, iRing, i⟩] else [] := by
    intro i hi
    rw [mem_examinedIndices] at hi
    apply checkVertex_spec lib hsqrt
    · rcases hi with ⟨_, hr⟩
      unfold inCheckableRange at hr
      split at hr <;> omega
    · rcases hi with ⟨_, hr⟩
      unfold inCheckableRange at hr
      split at hr <;> omega
  rw [flatMap_congr_mem _ _ _ hv,
    flatMap_ite_eq_map_filter _ _ (fun i => defectRecord lib lf ⟨iPart, iRing, i⟩),
    examinedIndices_eq_filter, List.filter_filter, List.filter_map, List.map_map]
  congr 1
  apply List.filter_congr
  intro i _
  simp only [Function.comp, isDefect, Bool.decide_and, Bool.and_assoc]
  cases decide (3 ≤ (polyLineSize lf.geometry iPart iRing).1) <;>
  cases decide (inCheckableRange (polyLineSize lf.geometry iPart iRing).1
      (polyLineSize lf.geometry iPart iRing).2 i) <;>
  simp

theorem checkPart_eq {F : Type} [LinearOrderedField F] (lib : LibM F) (hsqrt : SqrtZeroIff lib)
    (chk : QgsGeometryAngleCheck F) (lf : LayerFeature F)
    (errors : List (QgsGeometryCheckError F)) (iPart : Int) :
    checkPart lib chk lf errors iPart =
      errors ++
        (((forRange 0 (lf.geometry.ringCount iPart)).flatMap fun iRing =>
            (forRange 0 (polyLineSize lf.geometry iPart iRing).1).map
              fun iVert => QgsVertexId.mk iPart iRing iVert).filter
          fun id => decide (isDefect lib chk lf.geometry id)).map (defectRecord lib lf) := by
  unfold checkPart
  rw [foldl_append_flatMap _ _ (fun acc r => checkRing_eq lib hsqrt chk lf iPart acc r)]
  simp only [List.filter_flatMap, List.map_flatMap]

theorem checkFeature_eq {F : Type} [LinearOrderedField F] (lib : LibM F)
    (hsqrt : SqrtZeroIff lib) (chk : QgsGeometryAngleCheck F)
    (errors : List (QgsGeometryCheckError F)) (lf : LayerFeature F) :
    checkFeature lib chk errors lf =
      errors ++
        ((vertexAddresses lf.geometry).filter
          fun id => decide (isDefect lib chk lf.geometry id)).map (defectRecord lib lf) := by
  unfold checkFeature vertexAddresses
  rw [foldl_append_flatMap _ _ (fun acc p => checkPart_eq lib hsqrt chk lf acc p)]
  simp only [List.filter_flatMap, List.map_flatMap]

theorem collectErrors_eq {F : Type} [LinearOrderedField F] (lib : LibM F)
    (hsqrt : SqrtZeroIff lib) (chk : QgsGeometryAngleCheck F)
    (layerFeatures : List (LayerFeature F)) (errors : List (QgsGeometryCheckError F)) :
    collectErrors lib chk layerFeatures errors = errors ++ expectedDefects lib chk layerFeatures := by
  unfold collectErrors expectedDefects
  exact foldl_append_flatMap _ _ (fun acc lf => checkFeature_eq lib hsqrt chk acc lf) _ _

theorem vertexAddresses_sorted {F : Type} (g : QgsAbstractGeometry F) :
    (vertexAddresses g).Pairwise QgsVertexId.lexLt := by
  unfold vertexAddresses
  rw [List.pairwise_flatMap]
  refine ⟨fun p _ => ?_, ?_⟩
  · rw [List.pairwise_flatMap]
    refine ⟨fun r _ => ?_, ?_⟩
    · rw [List.pairwise_map]
      exact (forRange_sorted _ _).imp (fun h => Or.inr ⟨rfl, Or.inr ⟨rfl, h⟩⟩)
    · refine (forRange_sorted _ _).imp ?_
      intro r1 r2 hr a ha b hb
      simp only [List.mem_map] at ha hb
      obtain ⟨_, _, rfl⟩ := ha
      obtain ⟨_, _, rfl⟩ := hb
      exact Or.inr ⟨rfl, Or.inl hr⟩
  · refine (forRange_sorted _ _).imp ?_
    intro p1 p2 hp a ha b hb
    simp only [List.mem_flatMap, List.mem_map] at ha hb
    obtain ⟨_, _, _, _, rfl⟩ := ha
    obtain ⟨_, _, _, _, rfl⟩ := hb
    exact Or.inl hp

theorem mem_foldl_append {α β : Type} (f : List β → α → List β)
    (hf : ∀ acc x, f acc x = acc ++ f [] x) (l : List α) (init : List β) (b : β) :
    b ∈ l.foldl f init ↔ b ∈ init ∨ ∃ a ∈ l, b ∈ f [] a := by
  rw [foldl_append_flatMap f (fun x => f [] x) hf]
  simp [List.mem_append, List.mem_flatMap]

theorem checkRing_append {F : Type} [LinearOrderedField F] (lib : LibM F)
    (chk : QgsGeometryAngleCheck F) (lf : LayerFeature F) (iPart : Int)
    (errors : List (QgsGeometryCheckError F)) (iRing : Int) :
    checkRing lib chk lf iPart errors iRing = errors ++ checkRing lib chk lf iPart [] iRing := by
  unfold checkRing
  simp only
  rw [foldl_append_flatMap _ _ (checkVertex_append lib chk lf iPart iRing _),
    foldl_append_flatMap _ _ (checkVertex_append lib chk lf iPart iRing _)]
  simp

theorem checkPart_append {F : Type} [LinearOrderedField F] (lib : LibM F)
    (chk : QgsGeometryAngleCheck F) (lf : LayerFeature F)
    (errors : List (QgsGeometryCheckError F)) (iPart : Int) :
    checkPart lib chk lf errors iPart = errors ++ checkPart lib chk lf [] iPart := by
  unfold checkPart
  rw [foldl_append_flatMap _ _ (checkRing_append lib chk lf iPart),
    foldl_append_flatMap _ _ (checkRing_append lib chk lf iPart)]
  simp

theorem checkFeature_append {F : Type} [LinearOrderedField F] (lib : LibM F)
    (chk : QgsGeometryAngleCheck F) (errors : List (QgsGeometryCheckError F))
    (lf : LayerFeature F) :
    checkFeature lib chk errors lf = errors ++ checkFeature lib chk [] lf := by
  unfold checkFeature
  rw [foldl_append_flatMap _ _ (checkPart_append lib chk lf),
    foldl_append_flatMap _ _ (checkPart_append lib chk lf)]
  simp

/-- Every error that `collectErrors` appends comes from one run of the vertex loop body, on
an examined index of a ring of a part of one of the features. -/
theorem mem_collectErrors {F : Type} [LinearOrderedField F] (lib : LibM F)
    (chk : QgsGeometryAngleCheck F) (layerFeatures : List (LayerFeature F))
    (errors : List (QgsGeometryCheckError F)) (e : QgsGeometryCheckError F) :
    e ∈ collectErrors lib chk layerFeatures errors ↔
      e ∈ errors ∨ ∃ lf ∈ layerFeatures, ∃ iPart ∈ forRange 0 lf.geometry.partCount,
        ∃ iRing ∈ forRange 0 (lf.geometry.ringCount iPart),
        ∃ iVert ∈ examinedIndices (polyLineSize lf.geometry iPart iRing).1
          (polyLineSize lf.geometry iPart iRing).2,
        e ∈ checkVertex lib chk lf iPart iRing (polyLineSize lf.geometry iPart iRing).1 []
          iVert := by
  unfold collectErrors
  rw [mem_foldl_append _ (checkFeature_append lib chk)]
  apply or_congr_right
  apply exists_congr
  intro lf
  apply and_congr_right
  intro _
  unfold checkFeature
  rw [mem_foldl_append _ (checkPart_append lib chk lf)]
  simp only [List.not_mem_nil, false_or]
  apply exists_congr
  intro iPart
  apply and_congr_right
  intro _
  unfold checkPart
  rw [mem_foldl_append _ (checkRing_append lib chk lf iPart)]
  simp only [List.not_mem_nil, false_or]
  apply exists_congr
  intro iRing
  apply and_congr_right
  intro _
  unfold checkRing
  simp only
  rw [mem_foldl_append _ (checkVertex_append lib chk lf iPart iRing _)]
  simp only [List.not_mem_nil, false_or]

/-- What the vertex loop body appends: nothing, or one pending error that carries the
feature, the location of the vertex, its address and the angle found below `mMinAngle`. -/
theorem mem_checkVertex {F : Type} [LinearOrderedField F] (lib : LibM F)
    (chk : QgsGeometryAngleCheck F) (lf : LayerFeature F) (iPart iRing nVerts iVert : Int)
    (e : QgsGeometryCheckError F) :
    e ∈ checkVertex lib chk lf iPart iRing nVerts [] iVert ↔
      ∃ angle, angleAt lib
          (lf.geometry.vertexAt ⟨iPart, iRing, (iVert - 1 + nVerts).tmod nVerts⟩)
          (lf.geometry.vertexAt ⟨iPart, iRing, iVert⟩)
          (lf.geometry.vertexAt ⟨iPart, iRing, (iVert + 1).tmod nVerts⟩) = some angle ∧
        angle < chk.mMinAngle ∧
        e = ⟨lf.layerId, lf.featureId, lf.geometry.vertexAt ⟨iPart, iRing, iVert⟩,
          ⟨iPart, iRing, iVert⟩, angle, Status.StatusPending, ""⟩ := by
  unfold checkVertex
  simp only
  split
  · rename_i h
    simp [h]
  · rename_i a h
    by_cases hlt : a < chk.mMinAngle
    · simp only [hlt, if_true, List.nil_append, List.mem_singleton, h, Option.some.injEq]
      constructor
      · intro he
        exact ⟨a, rfl, hlt, he⟩
      · rintro ⟨b, rfl, _, he⟩
        exact he
    · simp only [hlt, if_false, List.not_mem_nil, h, Option.some.injEq, false_iff]
      rintro ⟨b, rfl, hb, _⟩
      exact hlt hb

/-! ## The real-number math library -/

theorem real_sqrtZeroIff : SqrtZeroIff (LibM.mk Real.sqrt Real.arccos Real.pi) := by
  intro s hs
  exact Real.sqrt_eq_zero hs

/-! ## The scanner in exact arithmetic -/

/-- In exact arithmetic, with a square root that vanishes at zero only: for every feature
collection and every threshold, the errors `collectErrors` returns are exactly the records
of the defect vertices (ring of at least 3 vertices, index in the checkable range, both
neighbour vectors non-zero, angle strictly below the threshold), each carrying the location
of the vertex and the measured angle, in feature, part, ring, vertex order; within a
feature the reported addresses strictly increase, so no vertex is reported twice.  In
`double` a NaN angle or an underflowing length breaks this. -/
theorem collectErrors_exact {F : Type} [LinearOrderedField F] (lib : LibM F)
    (hsqrt : SqrtZeroIff lib) (chk : QgsGeometryAngleCheck F)
    (layerFeatures : List (LayerFeature F)) :
    collectErrors lib chk layerFeatures [] = expectedDefects lib chk layerFeatures ∧
    ∀ lf : LayerFeature F,
      ((collectErrors lib chk [lf] []).map fun e => e.vidx).Pairwise QgsVertexId.lexLt := by
  refine ⟨by simpa using collectErrors_eq lib hsqrt chk layerFeatures [], ?_⟩
  intro lf
  rw [collectErrors_eq lib hsqrt]
  unfold expectedDefects
  simp only [List.nil_append, List.flatMap_cons, List.flatMap_nil, List.append_nil, List.map_map]
  have hid : ((fun e : QgsGeometryCheckError F => e.vidx) ∘ defectRecord lib lf) = id := by
    funext id
    rfl
  rw [hid, List.map_id]
  exact (vertexAddresses_sorted lf.geometry).filter _

/-- The statement of `collectErrors_exact` on the scenario ring with the real-number math
library. -/
theorem collectErrors_exact_witness :
    SqrtZeroIff (LibM.mk Real.sqrt Real.arccos Real.pi) ∧
    (collectErrors (LibM.mk Real.sqrt Real.arccos Real.pi) ⟨5, 1⟩
        [⟨"layer", 7, singleRing (scenarioRing ℝ)⟩] [] =
      expectedDefects (LibM.mk Real.sqrt Real.arccos Real.pi) ⟨5, 1⟩
        [⟨"layer", 7, singleRing (scenarioRing ℝ)⟩] ∧
    ∀ lf : LayerFeature ℝ,
      ((collectErrors (LibM.mk Real.sqrt Real.arccos Real.pi) ⟨5, 1⟩ [lf] []).map
        fun e => e.vidx).Pairwise QgsVertexId.lexLt) :=
  ⟨real_sqrtZeroIff, collectErrors_exact _ real_sqrtZeroIff _ _⟩

/-! ## C2: the vertex indices the scanner examines -/

theorem fixError_stale {F : Type} [LinearOrderedField F] (lib : LibM F)
    (chk : QgsGeometryAngleCheck F) (featurePools : FeaturePools F)
    (error : QgsGeometryCheckError F) (method : Int) (changes : Changes)
    (h : featurePools error.layerId error.featureId = none ∨
      ∃ geometry, featurePools error.layerId error.featureId = some geometry ∧
        (error.vidx.isValid geometry = false ∨
         (polyLineSize geometry error.vidx.part error.vidx.ring).1 = 0 ∨
         angleAt lib
            (geometry.vertexAt ⟨error.vidx.part, error.vidx.ring,
              (error.vidx.vertex - 1 + (polyLineSize geometry error.vidx.part error.vidx.ring).1).tmod
                (polyLineSize geometry error.vidx.part error.vidx.ring).1⟩)
            (geometry.vertexAt error.vidx)
            (geometry.vertexAt ⟨error.vidx.part, error.vidx.ring,
              (error.vidx.vertex + 1).tmod
                (polyLineSize geometry error.vidx.part error.vidx.ring).1⟩) = none ∨
         ∃ angle, angleAt lib
            (geometry.vertexAt ⟨error.vidx.part, error.vidx.ring,
              (error.vidx.vertex - 1 + (polyLineSize geometry error.vidx.part error.vidx.ring).1).tmod
                (polyLineSize geometry error.vidx.part error.vidx.ring).1⟩)
            (geometry.vertexAt error.vidx)
            (geometry.vertexAt ⟨error.vidx.part, error.vidx.ring,
              (error.vidx.vertex + 1).tmod
                (polyLineSize geometry error.vidx.part error.vidx.ring).1⟩) = some angle ∧
            ¬ angle < chk.mMinAngle)) :
    fixError lib chk featurePools error method changes =
      ⟨error.setObsolete, changes, featurePools, []⟩ := by
  unfold fixError
  rcases h with h | ⟨geometry, hg, h⟩
  · simp [h]
  · simp only [hg]
    by_cases hv : error.vidx.isValid geometry = true
    · simp only [hv, Bool.not_true, Bool.false_eq_true, if_false]
      by_cases hn : (polyLineSize geometry error.vidx.part error.vidx.ring).1 = 0
      · simp [hn]
      · simp only [hn, if_false]
        rcases h with h | h | h | ⟨a, ha, hlt⟩
        · simp [hv] at h
        · exact absurd h hn
        · simp [h]
        · simp only [ha, ge_iff_le]
          rw [if_pos (not_lt.1 hlt)]
    · simp [hv]

/-! ## Evaluation on concrete real inputs -/

theorem real_normalized_left (dx : ℝ) (h : dx < 0) :
    (QgsVector.mk dx 0).normalized (LibM.mk Real.sqrt Real.arccos Real.pi) = some ⟨-1, 0⟩ := by
  have hl : Real.sqrt (dx * dx + 0 * 0) = -dx := by
    rw [mul_zero, add_zero, Real.sqrt_mul_self_eq_abs, abs_of_neg h]
  unfold QgsVector.normalized QgsVector.length
  simp only [hl]
  have hne : -dx ≠ 0 := by linarith
  rw [if_neg hne]
  congr 2
  · field_simp
  · simp

/-- With the real-number library the angle at a vertex whose two neighbours lie strictly to
its left on the same horizontal line is 0 degrees. -/
theorem real_angleAt_spike (p1 p2 p3 : QgsPoint ℝ) (hy1 : p1.y = p2.y) (hy3 : p3.y = p2.y)
    (h1 : p1.x < p2.x) (h3 : p3.x < p2.x) :
    angleAt (LibM.mk Real.sqrt Real.arccos Real.pi) p1 p2 p3 = some 0 := by
  unfold angleAt
  rw [hy1, hy3, sub_self, real_normalized_left _ (by linarith),
    real_normalized_left _ (by linarith)]
  simp [QgsVector.dot]

/-- With the real-number library the angle at a vertex whose two non-zero neighbour vectors
have a dot product that is not positive is at least 90 degrees. -/
theorem real_angleAt_obtuse (p1 p2 p3 : QgsPoint ℝ)
    (h1 : nonZeroVector p2 p1) (h3 : nonZeroVector p2 p3)
    (hdot : (p1.x - p2.x) * (p3.x - p2.x) + (p1.y - p2.y) * (p3.y - p2.y) ≤ 0) :
    ∃ a, angleAt (LibM.mk Real.sqrt Real.arccos Real.pi) p1 p2 p3 = some a ∧ 90 ≤ a := by
  rw [angleAt_eq _ real_sqrtZeroIff, if_pos ⟨h1, h3⟩]
  refine ⟨_, rfl, ?_⟩
  unfold measuredAngle QgsVector.dot QgsVector.length
  simp only
  have hs1 : 0 < Real.sqrt ((p1.x - p2.x) * (p1.x - p2.x) + (p1.y - p2.y) * (p1.y - p2.y)) := by
    apply Real.sqrt_pos.2
    rcases h1 with h | h
    · have := mul_self_pos.2 (sub_ne_zero.2 h)
      nlinarith [mul_self_nonneg (p1.y - p2.y)]
    · have := mul_self_pos.2 (sub_ne_zero.2 h)
      nlinarith [mul_self_nonneg (p1.x - p2.x)]
  have hs3 : 0 < Real.sqrt ((p3.x - p2.x) * (p3.x - p2.x) + (p3.y - p2.y) * (p3.y - p2.y)) := by
    apply Real.sqrt_pos.2
    rcases h3 with h | h
    · have := mul_self_pos.2 (sub_ne_zero.2 h)
      nlinarith [mul_self_nonneg (p3.y - p2.y)]
    · have := mul_self_pos.2 (sub_ne_zero.2 h)
      nlinarith [mul_self_nonneg (p3.x - p2.x)]
  set s1 := Real.sqrt ((p1.x - p2.x) * (p1.x - p2.x) + (p1.y - p2.y) * (p1.y - p2.y))
  set s3 := Real.sqrt ((p3.x - p2.x) * (p3.x - p2.x) + (p3.y - p2.y) * (p3.y - p2.y))
  have hd : (p1.x - p2.x) / s1 * ((p3.x - p2.x) / s3) + (p1.y - p2.y) / s1 * ((p3.y - p2.y) / s3)
      ≤ 0 := by
    have e : (p1.x - p2.x) / s1 * ((p3.x - p2.x) / s3) +
        (p1.y - p2.y) / s1 * ((p3.y - p2.y) / s3) =
        ((p1.x - p2.x) * (p3.x - p2.x) + (p1.y - p2.y) * (p3.y - p2.y)) / (s1 * s3) := by
      field_simp
    rw [e]
    exact div_nonpos_of_nonpos_of_nonneg hdot (le_of_lt (mul_pos hs1 hs3))
  have hacos : Real.pi / 2 ≤ Real.arccos ((p1.x - p2.x) / s1 * ((p3.x - p2.x) / s3) +
      (p1.y - p2.y) / s1 * ((p3.y - p2.y) / s3)) :=
    not_lt.1 (mt Real.arccos_lt_pi_div_two.1 (not_lt.2 hd))
  have hpi := Real.pi_pos
  have h90 : (90 : ℝ) = Real.pi / 2 / Real.pi * 180 := by
    field_simp
    ring
  rw [h90]
  gcongr

/-- With the real-number library the angle at a vertex whose two non-zero neighbour vectors
are orthogonal is 90 degrees. -/
theorem real_angleAt_right (p1 p2 p3 : QgsPoint ℝ)
    (h1 : nonZeroVector p2 p1) (h3 : nonZeroVector p2 p3)
    (hdot : (p1.x - p2.x) * (p3.x - p2.x) + (p1.y - p2.y) * (p3.y - p2.y) = 0) :
    angleAt (LibM.mk Real.sqrt Real.arccos Real.pi) p1 p2 p3 = some 90 := by
  rw [angleAt_eq _ real_sqrtZeroIff, if_pos ⟨h1, h3⟩]
  congr 1
  unfold measuredAngle QgsVector.dot QgsVector.length
  simp only
  have e : (p1.x - p2.x) / Real.sqrt ((p1.x - p2.x) * (p1.x - p2.x) + (p1.y - p2.y) * (p1.y - p2.y)) *
      ((p3.x - p2.x) / Real.sqrt ((p3.x - p2.x) * (p3.x - p2.x) + (p3.y - p2.y) * (p3.y - p2.y))) +
      (p1.y - p2.y) / Real.sqrt ((p1.x - p2.x) * (p1.x - p2.x) + (p1.y - p2.y) * (p1.y - p2.y)) *
      ((p3.y - p2.y) / Real.sqrt ((p3.x - p2.x) * (p3.x - p2.x) + (p3.y - p2.y) * (p3.y - p2.y))) =
      ((p1.x - p2.x) * (p3.x - p2.x) + (p1.y - p2.y) * (p3.y - p2.y)) /
        (Real.sqrt ((p1.x - p2.x) * (p1.x - p2.x) + (p1.y - p2.y) * (p1.y - p2.y)) *
          Real.sqrt ((p3.x - p2.x) * (p3.x - p2.x) + (p3.y - p2.y) * (p3.y - p2.y))) := by
    rw [div_mul_div_comm, div_mul_div_comm, ← add_div]
  rw [e, hdot, zero_div, Real.arccos_zero]
  have hpi := Real.pi_pos
  field_simp
  ring

/-! ## C3: an angle equal to the threshold is not a defect -/

/-- C3: when the angle measured at a vertex equals `mMinAngle`, the vertex loop body of the
scanner appends no error for it, and the fixer, recomputing that angle for a reported
error, marks the error obsolete and changes nothing else; every error the scanner returns
carries an angle strictly below `mMinAngle`. -/
theorem angle_equal_threshold_not_defect {F : Type} [LinearOrderedField F] (lib : LibM F)
    (chk : QgsGeometryAngleCheck F) :
    (∀ (lf : LayerFeature F) (iPart iRing nVerts iVert : Int)
        (errors : List (QgsGeometryCheckError F)),
      angleAt lib
          (lf.geometry.vertexAt ⟨iPart, iRing, (iVert - 1 + nVerts).tmod nVerts⟩)
          (lf.geometry.vertexAt ⟨iPart, iRing, iVert⟩)
          (lf.geometry.vertexAt ⟨iPart, iRing, (iVert + 1).tmod nVerts⟩) = some chk.mMinAngle →
      checkVertex lib chk lf iPart iRing nVerts errors iVert = errors) ∧
    (∀ (featurePools : FeaturePools F) (error : QgsGeometryCheckError F) (method : Int)
        (changes : Changes) (geometry : QgsAbstractGeometry F),
      featurePools error.layerId error.featureId = some geometry →
      angleAt lib
          (geometry.vertexAt ⟨error.vidx.part, error.vidx.ring,
            (error.vidx.vertex - 1 + (polyLineSize geometry error.vidx.part error.vidx.ring).1).tmod
              (polyLineSize geometry error.vidx.part error.vidx.ring).1⟩)
          (geometry.vertexAt error.vidx)
          (geometry.vertexAt ⟨error.vidx.part, error.vidx.ring,
            (error.vidx.vertex + 1).tmod
              (polyLineSize geometry error.vidx.part error.vidx.ring).1⟩) = some chk.mMinAngle →
      fixError lib chk featurePools error method changes =
        ⟨error.setObsolete, changes, featurePools, []⟩) ∧
    (∀ (layerFeatures : List (LayerFeature F)) (e : QgsGeometryCheckError F),
      e ∈ collectErrors lib chk layerFeatures [] → e.value < chk.mMinAngle) := by
  refine ⟨?_, ?_, ?_⟩
  · intro lf iPart iRing nVerts iVert errors h
    unfold checkVertex
    simp only [h, lt_irrefl, if_false]
  · intro featurePools error method changes geometry hg h
    exact fixError_stale lib chk featurePools error method changes
      (Or.inr ⟨geometry, hg, Or.inr (Or.inr (Or.inr ⟨_, h, lt_irrefl _⟩))⟩)
  · intro layerFeatures e he
    rw [mem_collectErrors] at he
    rcases he with he | ⟨lf, _, iPart, _, iRing, _, iVert, _, hmem⟩
    · simp at he
    · rw [mem_checkVertex] at hmem
      obtain ⟨a, _, hlt, rfl⟩ := hmem
      exact hlt

/-- Witness of C3: vertex A of the scenario ring has a right angle; with a threshold of
exactly 90 degrees the scanner skips it and the fixer marks an error there obsolete. -/
theorem angle_equal_threshold_not_defect_witness :
    checkVertex (LibM.mk Real.sqrt Real.arccos Real.pi) ⟨90, 1⟩
        ⟨"layer", 7, singleRing (scenarioRing ℝ)⟩ 0 0 4 [] 0 = [] ∧
    fixError (LibM.mk Real.sqrt Real.arccos Real.pi) ⟨90, 1⟩
        (singleFeaturePool (singleRing (scenarioRing ℝ)))
        (pendingError ⟨0, 0, 0⟩ ⟨0, 0, 0⟩ 90) DeleteNode noChanges =
      ⟨(pendingError ⟨0, 0, 0⟩ ⟨0, 0, 0⟩ 90).setObsolete, noChanges,
        singleFeaturePool (singleRing (scenarioRing ℝ)), []⟩ := by
  have hA : angleAt (LibM.mk Real.sqrt Real.arccos Real.pi)
      (⟨0, 10, 0⟩ : QgsPoint ℝ) ⟨0, 0, 0⟩ ⟨10, 0, 0⟩ = some 90 :=
    real_angleAt_right _ _ _ (Or.inr (by norm_num)) (Or.inl (by norm_num)) (by norm_num)
  exact ⟨(angle_equal_threshold_not_defect _ ⟨90, 1⟩).1
      ⟨"layer", 7, singleRing (scenarioRing ℝ)⟩ 0 0 4 0 [] hA,
    (angle_equal_threshold_not_defect _ ⟨90, 1⟩).2.1
      (singleFeaturePool (singleRing (scenarioRing ℝ))) (pendingError ⟨0, 0, 0⟩ ⟨0, 0, 0⟩ 90)
      DeleteNode noChanges (singleRing (scenarioRing ℝ)) rfl hA⟩

/-! ## C4: a vertex that coincides with a neighbour is never reported -/

theorem normalized_zero {F : Type} [LinearOrderedField F] (lib : LibM F) (h0 : lib.sqrt 0 = 0) :
    (QgsVector.mk (0 : F) 0).normalized lib = none := by
  unfold QgsVector.normalized QgsVector.length
  simp [h0]

theorem angleAt_coincident {F : Type} [LinearOrderedField F] (lib : LibM F)
    (h0 : lib.sqrt 0 = 0) (p1 p2 p3 : QgsPoint F)
    (hc : (p1.x = p2.x ∧ p1.y = p2.y) ∨ (p3.x = p2.x ∧ p3.y = p2.y)) :
    angleAt lib p1 p2 p3 = none := by
  unfold angleAt
  rcases hc with ⟨hx, hy⟩ | ⟨hx, hy⟩
  · rw [hx, hy, sub_self, sub_self, normalized_zero lib h0]
  · rw [hx, hy, sub_self, sub_self, normalized_zero lib h0]
    cases (QgsVector.mk (p1.x - p2.x) (p1.y - p2.y)).normalized lib <;> rfl

/-- C4: whatever the threshold, when the vertex has the same `x` and `y` as its previous or
its next neighbour, the vertex loop body appends no error, and the loop goes on with the
remaining vertices from the same error list; hence no error the scanner returns sits at a
vertex that coincides in `x` and `y` with one of its two neighbours. -/
theorem coincident_vertex_skipped {F : Type} [LinearOrderedField F] (lib : LibM F)
    (h0 : lib.sqrt 0 = 0) (chk : QgsGeometryAngleCheck F) (lf : LayerFeature F)
    (iPart iRing nVerts iVert : Int) (errors : List (QgsGeometryCheckError F))
    (rest : List Int)
    (hc : ((lf.geometry.vertexAt ⟨iPart, iRing, (iVert - 1 + nVerts).tmod nVerts⟩).x =
          (lf.geometry.vertexAt ⟨iPart, iRing, iVert⟩).x ∧
        (lf.geometry.vertexAt ⟨iPart, iRing, (iVert - 1 + nVerts).tmod nVerts⟩).y =
          (lf.geometry.vertexAt ⟨iPart, iRing, iVert⟩).y) ∨
      ((lf.geometry.vertexAt ⟨iPart, iRing, (iVert + 1).tmod nVerts⟩).x =
          (lf.geometry.vertexAt ⟨iPart, iRing, iVert⟩).x ∧
        (lf.geometry.vertexAt ⟨iPart, iRing, (iVert + 1).tmod nVerts⟩).y =
          (lf.geometry.vertexAt ⟨iPart, iRing, iVert⟩).y)) :
    checkVertex lib chk lf iPart iRing nVerts errors iVert = errors ∧
    (iVert :: rest).foldl (checkVertex lib chk lf iPart iRing nVerts) errors =
      rest.foldl (checkVertex lib chk lf iPart iRing nVerts) errors ∧
    (∀ (layerFeatures : List (LayerFeature F)) (e : QgsGeometryCheckError F),
      e ∈ collectErrors lib chk layerFeatures [] →
      ∃ lf1 ∈ layerFeatures, e.layerId = lf1.layerId ∧ e.featureId = lf1.featureId ∧
        nonZeroVector (lf1.geometry.vertexAt e.vidx) (neighbourP1 lf1.geometry e.vidx) ∧
        nonZeroVector (lf1.geometry.vertexAt e.vidx) (neighbourP3 lf1.geometry e.vidx)) := by
  have hskip : checkVertex lib chk lf iPart iRing nVerts errors iVert = errors := by
    unfold checkVertex
    simp only
    rw [angleAt_coincident lib h0 _ _ _ hc]
  refine ⟨hskip, by rw [List.foldl_cons, hskip], ?_⟩
  intro layerFeatures e he
  rw [mem_collectErrors] at he
  rcases he with he | ⟨lf1, hlf1, jPart, _, jRing, _, jVert, _, hmem⟩
  · simp at he
  · rw [mem_checkVertex] at hmem
    obtain ⟨a, ha, _, rfl⟩ := hmem
    refine ⟨lf1, hlf1, rfl, rfl, ?_, ?_⟩
    · unfold nonZeroVector neighbourP1
      by_contra hcon
      push_neg at hcon
      rw [angleAt_coincident lib h0 _ _ _ (Or.inl hcon)] at ha
      exact Option.noConfusion ha
    · unfold nonZeroVector neighbourP3
      by_contra hcon
      push_neg at hcon
      rw [angleAt_coincident lib h0 _ _ _ (Or.inr hcon)] at ha
      exact Option.noConfusion ha

/-- Witness of C4: vertex 1 of the doubled ring coincides in `x` and `y` with vertex 2; with
a threshold of 1000 degrees the scanner still appends nothing for it. -/
theorem coincident_vertex_skipped_witness :
    Real.sqrt 0 = 0 ∧
    checkVertex (LibM.mk Real.sqrt Real.arccos Real.pi) ⟨1000, 1⟩
        ⟨"layer", 7, singleRing (doubledRing ℝ)⟩ 0 0 4 [] 1 = [] ∧
    [1, 2, 3].foldl (checkVertex (LibM.mk Real.sqrt Real.arccos Real.pi) ⟨1000, 1⟩
        ⟨"layer", 7, singleRing (doubledRing ℝ)⟩ 0 0 4) [] =
      [2, 3].foldl (checkVertex (LibM.mk Real.sqrt Real.arccos Real.pi) ⟨1000, 1⟩
        ⟨"layer", 7, singleRing (doubledRing ℝ)⟩ 0 0 4) [] :=
  ⟨Real.sqrt_zero,
    (coincident_vertex_skipped (LibM.mk Real.sqrt Real.arccos Real.pi) Real.sqrt_zero ⟨1000, 1⟩
      ⟨"layer", 7, singleRing (doubledRing ℝ)⟩ 0 0 4 1 [] [2, 3] (Or.inr ⟨rfl, rfl⟩)).1,
    (coincident_vertex_skipped (LibM.mk Real.sqrt Real.arccos Real.pi) Real.sqrt_zero ⟨1000, 1⟩
      ⟨"layer", 7, singleRing (doubledRing ℝ)⟩ 0 0 4 1 [] [2, 3] (Or.inr ⟨rfl, rfl⟩)).2.1⟩

/-! ## C5: the concrete scenario of the specification -/

theorem angleAt_congr {F : Type} [LinearOrderedField F] (lib : LibM F)
    {p1 p2 p3 q1 q2 q3 : QgsPoint F} (h1 : p1 = q1) (h2 : p2 = q2) (h3 : p3 = q3) :
    angleAt lib p1 p2 p3 = angleAt lib q1 q2 q3 := by
  rw [h1, h2, h3]

theorem scenario_angle_at_C :
    ∃ a, angleAt (LibM.mk Real.sqrt Real.arccos Real.pi)
      (⟨10, 0, 0⟩ : QgsPoint ℝ) ⟨10, 1 / 10000, 0⟩ ⟨0, 10, 0⟩ = some a ∧ 90 ≤ a :=
  real_angleAt_obtuse _ _ _ (Or.inr (by norm_num)) (Or.inl (by norm_num)) (by norm_num)

theorem scenario_no_error_at_C (tolerance : ℝ) (layerId : String) (featureId : Int)
    (e : QgsGeometryCheckError ℝ)
    (he : e ∈ collectErrors (LibM.mk Real.sqrt Real.arccos Real.pi) ⟨5, tolerance⟩
      [⟨layerId, featureId, singleRing (scenarioRing ℝ)⟩] [])
    (hv : e.vidx = ⟨0, 0, 2⟩) : False := by
  rw [mem_collectErrors] at he
  rcases he with he | ⟨lf, hlf, iPart, _, iRing, _, iVert, _, hmem⟩
  · simp at he
  · simp only [List.mem_singleton] at hlf
    subst hlf
    rw [mem_checkVertex] at hmem
    obtain ⟨a, ha, hlt, rfl⟩ := hmem
    simp only [QgsVertexId.mk.injEq] at hv
    obtain ⟨rfl, rfl, rfl⟩ := hv
    obtain ⟨b, hb, hb90⟩ := scenario_angle_at_C
    have e1 : (singleRing (scenarioRing ℝ)).vertexAt ⟨0, 0,
        ((2 : Int) - 1 + (polyLineSize (singleRing (scenarioRing ℝ)) 0 0).1).tmod
          (polyLineSize (singleRing (scenarioRing ℝ)) 0 0).1⟩ = ⟨10, 0, 0⟩ := rfl
    have e2 : (singleRing (scenarioRing ℝ)).vertexAt ⟨0, 0, 2⟩ = ⟨10, 1 / 10000, 0⟩ := rfl
    have e3 : (singleRing (scenarioRing ℝ)).vertexAt ⟨0, 0,
        ((2 : Int) + 1).tmod (polyLineSize (singleRing (scenarioRing ℝ)) 0 0).1⟩ =
          ⟨0, 10, 0⟩ := rfl
    have ha' : angleAt _ (⟨10, 0, 0⟩ : QgsPoint ℝ) ⟨10, 1 / 10000, 0⟩ ⟨0, 10, 0⟩ = some a :=
      (angleAt_congr _ e1 e2 e3).symm.trans ha
    have hab : some a = some b := ha'.symm.trans hb
    simp only [Option.some.injEq] at hab
    simp only at hlt
    linarith

/-- With the real-number library the angle at a vertex is more than 45 degrees when twice
the squared dot product of its two non-zero neighbour vectors is less than the product of
their squared lengths. -/
theorem real_angleAt_gt_45 (p1 p2 p3 : QgsPoint ℝ)
    (h1 : nonZeroVector p2 p1) (h3 : nonZeroVector p2 p3)
    (hdot : 2 * ((p1.x - p2.x) * (p3.x - p2.x) + (p1.y - p2.y) * (p3.y - p2.y)) ^ 2 <
      ((p1.x - p2.x) * (p1.x - p2.x) + (p1.y - p2.y) * (p1.y - p2.y)) *
        ((p3.x - p2.x) * (p3.x - p2.x) + (p3.y - p2.y) * (p3.y - p2.y))) :
    ∃ a, angleAt (LibM.mk Real.sqrt Real.arccos Real.pi) p1 p2 p3 = some a ∧ 45 < a := by
  rw [angleAt_eq _ real_sqrtZeroIff, if_pos ⟨h1, h3⟩]
  refine ⟨_, rfl, ?_⟩
  unfold measuredAngle QgsVector.dot QgsVector.length
  simp only
  have hq1 : 0 < (p1.x - p2.x) * (p1.x - p2.x) + (p1.y - p2.y) * (p1.y - p2.y) := by
    rcases h1 with h | h
    · have := mul_self_pos.2 (sub_ne_zero.2 h)
      nlinarith [mul_self_nonneg (p1.y - p2.y)]
    · have := mul_self_pos.2 (sub_ne_zero.2 h)
      nlinarith [mul_self_nonneg (p1.x - p2.x)]
  have hq3 : 0 < (p3.x - p2.x) * (p3.x - p2.x) + (p3.y - p2.y) * (p3.y - p2.y) := by
    rcases h3 with h | h
    · have := mul_self_pos.2 (sub_ne_zero.2 h)
      nlinarith [mul_self_nonneg (p3.y - p2.y)]
    · have := mul_self_pos.2 (sub_ne_zero.2 h)
      nlinarith [mul_self_nonneg (p3.x - p2.x)]
  have hs1 := Real.sqrt_pos.2 hq1
  have hs3 := Real.sqrt_pos.2 hq3
  have hm1 := Real.mul_self_sqrt (le_of_lt hq1)
  have hm3 := Real.mul_self_sqrt (le_of_lt hq3)
  set q1 := (p1.x - p2.x) * (p1.x - p2.x) + (p1.y - p2.y) * (p1.y - p2.y)
  set q3 := (p3.x - p2.x) * (p3.x - p2.x) + (p3.y - p2.y) * (p3.y - p2.y)
  set s1 := Real.sqrt q1
  set s3 := Real.sqrt q3
  set dot := (p1.x - p2.x) * (p3.x - p2.x) + (p1.y - p2.y) * (p3.y - p2.y)
  have e : (p1.x - p2.x) / s1 * ((p3.x - p2.x) / s3) + (p1.y - p2.y) / s1 * ((p3.y - p2.y) / s3) =
      dot / (s1 * s3) := by
    rw [div_mul_div_comm, div_mul_div_comm, ← add_div]
  rw [e]
  have hlt : dot / (s1 * s3) < Real.sqrt 2 / 2 := by
    by_contra hge
    push_neg at hge
    have h2 : (0 : ℝ) < Real.sqrt 2 := Real.sqrt_pos.2 (by norm_num)
    have h22 : Real.sqrt 2 * Real.sqrt 2 = 2 := Real.mul_self_sqrt (by norm_num)
    have hpos : 0 < s1 * s3 := mul_pos hs1 hs3
    have hge' : Real.sqrt 2 / 2 * (s1 * s3) ≤ dot := (le_div_iff₀ hpos).1 hge
    have hdpos : 0 < dot := lt_of_lt_of_le (by positivity) hge'
    have hsq : (Real.sqrt 2 / 2 * (s1 * s3)) ^ 2 ≤ dot ^ 2 :=
      pow_le_pow_left₀ (by positivity) hge' 2
    have hexp : (Real.sqrt 2 / 2 * (s1 * s3)) ^ 2 = q1 * q3 / 2 := by
      have : (Real.sqrt 2 / 2 * (s1 * s3)) ^ 2 =
          (Real.sqrt 2 * Real.sqrt 2) * (s1 * s1) * (s3 * s3) / 4 := by ring
      rw [this, h22, hm1, hm3]
      ring
    rw [hexp] at hsq
    clear_value dot s1 s3 q1 q3
    linarith
  have hacos : Real.pi / 4 < Real.arccos (dot / (s1 * s3)) :=
    not_le.1 (mt Real.arccos_le_pi_div_four.1 (not_le.2 hlt))
  have hpi := Real.pi_pos
  have h45 : (45 : ℝ) = Real.pi / 4 / Real.pi * 180 := by
    field_simp
    ring
  rw [h45]
  gcongr

theorem scenario_no_errors (tolerance : ℝ) (layerId : String) (featureId : Int) :
    collectErrors (LibM.mk Real.sqrt Real.arccos Real.pi) ⟨5, tolerance⟩
      [⟨layerId, featureId, singleRing (scenarioRing ℝ)⟩] [] = [] := by
  rw [List.eq_nil_iff_forall_not_mem]
  intro e he
  rw [mem_collectErrors] at he
  rcases he with he | ⟨lf, hlf, iPart, hP, iRing, hR, iVert, hV, hmem⟩
  · simp at he
  · simp only [List.mem_singleton] at hlf
    subst hlf
    rw [mem_checkVertex] at hmem
    obtain ⟨a, ha, hlt, _⟩ := hmem
    simp only at hlt
    rw [mem_forRange] at hP
    have hpc : (singleRing (scenarioRing ℝ)).partCount = 1 := rfl
    simp only [hpc] at hP
    have hP0 : iPart = 0 := by omega
    subst hP0
    rw [mem_forRange] at hR
    have hrc : (singleRing (scenarioRing ℝ)).ringCount 0 = 1 := rfl
    simp only [hrc] at hR
    have hR0 : iRing = 0 := by omega
    subst hR0
    rw [mem_examinedIndices] at hV
    have hsz : polyLineSize (singleRing (scenarioRing ℝ)) 0 0 = ((4 : Int), true) := rfl
    have hV' := hV.2
    simp only [hsz, inCheckableRange, if_true] at hV'
    obtain ⟨hv0, hv4⟩ := hV'
    have hcases : iVert = 0 ∨ iVert = 1 ∨ iVert = 2 ∨ iVert = 3 := by omega
    have key : ∃ b, angleAt (LibM.mk Real.sqrt Real.arccos Real.pi)
        ((singleRing (scenarioRing ℝ)).vertexAt ⟨0, 0,
          (iVert - 1 + (polyLineSize (singleRing (scenarioRing ℝ)) 0 0).1).tmod
            (polyLineSize (singleRing (scenarioRing ℝ)) 0 0).1⟩)
        ((singleRing (scenarioRing ℝ)).vertexAt ⟨0, 0, iVert⟩)
        ((singleRing (scenarioRing ℝ)).vertexAt ⟨0, 0,
          (iVert + 1).tmod (polyLineSize (singleRing (scenarioRing ℝ)) 0 0).1⟩) = some b ∧
        45 < b := by
      rcases hcases with rfl | rfl | rfl | rfl
      · have e1 : (singleRing (scenarioRing ℝ)).vertexAt ⟨0, 0,
            ((0 : Int) - 1 + (polyLineSize (singleRing (scenarioRing ℝ)) 0 0).1).tmod
              (polyLineSize (singleRing (scenarioRing ℝ)) 0 0).1⟩ = ⟨0, 10, 0⟩ := rfl
        have e2 : (singleRing (scenarioRing ℝ)).vertexAt ⟨0, 0, 0⟩ = ⟨0, 0, 0⟩ := rfl
        have e3 : (singleRing (scenarioRing ℝ)).vertexAt ⟨0, 0,
            ((0 : Int) + 1).tmod (polyLineSize (singleRing (scenarioRing ℝ)) 0 0).1⟩ =
              ⟨10, 0, 0⟩ := rfl
        rw [angleAt_congr _ e1 e2 e3]
        exact real_angleAt_gt_45 _ _ _ (Or.inr (by norm_num)) (Or.inl (by norm_num))
          (by norm_num)
      · have e1 : (singleRing (scenarioRing ℝ)).vertexAt ⟨0, 0,
            ((1 : Int) - 1 + (polyLineSize (singleRing (scenarioRing ℝ)) 0 0).1).tmod
              (polyLineSize (singleRing (scenarioRing ℝ)) 0 0).1⟩ = ⟨0, 0, 0⟩ := rfl
        have e2 : (singleRing (scenarioRing ℝ)).vertexAt ⟨0, 0, 1⟩ = ⟨10, 0, 0⟩ := rfl
        have e3 : (singleRing (scenarioRing ℝ)).vertexAt ⟨0, 0,
            ((1 : Int) + 1).tmod (polyLineSize (singleRing (scenarioRing ℝ)) 0 0).1⟩ =
              ⟨10, 1 / 10000, 0⟩ := rfl
        rw [angleAt_congr _ e1 e2 e3]
        exact real_angleAt_gt_45 _ _ _ (Or.inl (by norm_num)) (Or.inr (by norm_num))
          (by norm_num)
      · have e1 : (singleRing (scenarioRing ℝ)).vertexAt ⟨0, 0,
            ((2 : Int) - 1 + (polyLineSize (singleRing (scenarioRing ℝ)) 0 0).1).tmod
              (polyLineSize (singleRing (scenarioRing ℝ)) 0 0).1⟩ = ⟨10, 0, 0⟩ := rfl
        have e2 : (singleRing (scenarioRing ℝ)).vertexAt ⟨0, 0, 2⟩ = ⟨10, 1 / 10000, 0⟩ := rfl
        have e3 : (singleRing (scenarioRing ℝ)).vertexAt ⟨0, 0,
            ((2 : Int) + 1).tmod (polyLineSize (singleRing (scenarioRing ℝ)) 0 0).1⟩ =
              ⟨0, 10, 0⟩ := rfl
        rw [angleAt_congr _ e1 e2 e3]
        exact real_angleAt_gt_45 _ _ _ (Or.inr (by norm_num)) (Or.inl (by norm_num))
          (by norm_num)
      · have e1 : (singleRing (scenarioRing ℝ)).vertexAt ⟨0, 0,
            ((3 : Int) - 1 + (polyLineSize (singleRing (scenarioRing ℝ)) 0 0).1).tmod
              (polyLineSize (singleRing (scenarioRing ℝ)) 0 0).1⟩ = ⟨10, 1 / 10000, 0⟩ := rfl
        have e2 : (singleRing (scenarioRing ℝ)).vertexAt ⟨0, 0, 3⟩ = ⟨0, 10, 0⟩ := rfl
        have e3 : (singleRing (scenarioRing ℝ)).vertexAt ⟨0, 0,
            ((3 : Int) + 1).tmod (polyLineSize (singleRing (scenarioRing ℝ)) 0 0).1⟩ =
              ⟨0, 0, 0⟩ := rfl
        rw [angleAt_congr _ e1 e2 e3]
        exact real_angleAt_gt_45 _ _ _ (Or.inl (by norm_num)) (Or.inr (by norm_num))
          (by norm_num)
    obtain ⟨b, hb, hb45⟩ := key
    have hab : some a = some b := ha.symm.trans hb
    simp only [Option.some.injEq] at hab
    linarith

/-- C5, refuted as stated: on the closed ring A(0,0), B(10,0), C(10,0.0001), D(0,10) with
a threshold of 5 degrees, `collectErrors` reports no error at vertex C (index 2). -/
theorem scenario_defect_at_C_refuted :
    ¬ ∃ e ∈ collectErrors (LibM.mk Real.sqrt Real.arccos Real.pi) ⟨5, 1⟩
        [⟨"layer", 7, singleRing (scenarioRing ℝ)⟩] [],
      e.vidx = ⟨0, 0, 2⟩ := by
  rintro ⟨e, he, hv⟩
  exact scenario_no_error_at_C 1 "layer" 7 e he hv

/-- C5, amended: on the closed ring A(0,0), B(10,0), C(10,0.0001), D(0,10) with a threshold
of 5 degrees, `collectErrors` reports no error at vertex C (index 2), because the angle
between the vectors C->B and C->D is at least 90 degrees; it reports no error at any
other vertex of the ring either. -/
theorem scenario_no_defect_at_C (tolerance : ℝ) (layerId : String) (featureId : Int) :
    (¬ ∃ e ∈ collectErrors (LibM.mk Real.sqrt Real.arccos Real.pi) ⟨5, tolerance⟩
        [⟨layerId, featureId, singleRing (scenarioRing ℝ)⟩] [],
      e.vidx = ⟨0, 0, 2⟩) ∧
    (∃ a, angleAt (LibM.mk Real.sqrt Real.arccos Real.pi)
      ((singleRing (scenarioRing ℝ)).vertexAt ⟨0, 0, 1⟩)
      ((singleRing (scenarioRing ℝ)).vertexAt ⟨0, 0, 2⟩)
      ((singleRing (scenarioRing ℝ)).vertexAt ⟨0, 0, 3⟩) = some a ∧ 90 ≤ a) ∧
    collectErrors (LibM.mk Real.sqrt Real.arccos Real.pi) ⟨5, tolerance⟩
      [⟨layerId, featureId, singleRing (scenarioRing ℝ)⟩] [] = [] := by
  refine ⟨?_, scenario_angle_at_C, scenario_no_errors tolerance layerId featureId⟩
  rintro ⟨e, he, hv⟩
  exact scenario_no_error_at_C tolerance layerId featureId e he hv

/-! ## The fixer after a successful re-validation -/

theorem fixError_of_passes {F : Type} [LinearOrderedField F] (lib : LibM F)
    (chk : QgsGeometryAngleCheck F) (featurePools : FeaturePools F)
    (error : QgsGeometryCheckError F) (method : Int) (changes : Changes)
    (geometry : QgsAbstractGeometry F)
    (h : passesRevalidation lib chk featurePools error geometry) :
    fixError lib chk featurePools error method changes =
      if method = NoChange then ⟨error.setFixed method, changes, featurePools, []⟩
      else if method = DeleteNode then
        fixDeleteNode chk featurePools error method changes geometry
          (polyLineSize geometry error.vidx.part error.vidx.ring).1
          (neighbourP1 geometry error.vidx) (neighbourP3 geometry error.vidx)
      else ⟨error.setFixFailed "Unknown method", changes, featurePools, []⟩ := by
  obtain ⟨hg, hv, hn, a, ha, hlt⟩ := h
  unfold recomputedAngle neighbourP1 neighbourP3 at ha
  unfold fixError
  simp only [hg, hv, Bool.not_true, Bool.false_eq_true, if_false, hn, ha, ge_iff_le,
    not_le.2 hlt]
  rfl

theorem fixDeleteNode_single {F : Type} [LinearOrderedField F] (chk : QgsGeometryAngleCheck F)
    (featurePools : FeaturePools F) (error : QgsGeometryCheckError F) (method : Int)
    (changes : Changes) (geometry geometry1 : QgsAbstractGeometry F) (n : Int)
    (p1 p3 : QgsPoint F)
    (hcan : canDeleteVertex geometry error.vidx.part error.vidx.ring = true)
    (hdel : geometry.deleteVertex error.vidx = some geometry1)
    (hno : ¬ (sqrDistance2D p1 p3 < chk.tolerance ∧
      canDeleteVertex geometry1 error.vidx.part error.vidx.ring = true)) :
    fixDeleteNode chk featurePools error method changes geometry n p1 p3 =
      ⟨error.setFixed method,
        changes.append error.layerId error.featureId
          ⟨ChangeWhat.ChangeNode, ChangeType.ChangeRemoved, error.vidx⟩,
        featurePools.updateFeature error.layerId error.featureId geometry1,
        [Effect.deleteVertexCall error.vidx true,
          Effect.updateFeatureCall error.layerId error.featureId geometry1]⟩ := by
  unfold fixDeleteNode
  simp only [hcan, Bool.not_true, Bool.false_eq_true, if_false, hdel]
  rw [if_neg hno]

theorem fixDeleteNode_double {F : Type} [LinearOrderedField F] (chk : QgsGeometryAngleCheck F)
    (featurePools : FeaturePools F) (error : QgsGeometryCheckError F) (method : Int)
    (changes : Changes) (geometry geometry1 geometry2 : QgsAbstractGeometry F) (n : Int)
    (p1 p3 : QgsPoint F)
    (hcan : canDeleteVertex geometry error.vidx.part error.vidx.ring = true)
    (hdel : geometry.deleteVertex error.vidx = some geometry1)
    (hnear : sqrDistance2D p1 p3 < chk.tolerance)
    (hcan1 : canDeleteVertex geometry1 error.vidx.part error.vidx.ring = true)
    (hdel1 : geometry1.deleteVertex error.vidx = some geometry2) :
    fixDeleteNode chk featurePools error method changes geometry n p1 p3 =
      ⟨error.setFixed method,
        (changes.append error.layerId error.featureId
          ⟨ChangeWhat.ChangeNode, ChangeType.ChangeRemoved, error.vidx⟩).append
          error.layerId error.featureId
          ⟨ChangeWhat.ChangeNode, ChangeType.ChangeRemoved,
            ⟨error.vidx.part, error.vidx.ring, (error.vidx.vertex + 1).tmod n⟩⟩,
        featurePools.updateFeature error.layerId error.featureId geometry2,
        [Effect.deleteVertexCall error.vidx true, Effect.deleteVertexCall error.vidx true,
          Effect.updateFeatureCall error.layerId error.featureId geometry2]⟩ := by
  unfold fixDeleteNode
  simp only [hcan, Bool.not_true, Bool.false_eq_true, if_false, hdel]
  rw [if_pos ⟨hnear, hcan1⟩]
  simp only [hdel1]

theorem fixDeleteNode_second_rejected {F : Type} [LinearOrderedField F]
    (chk : QgsGeometryAngleCheck F)
    (featurePools : FeaturePools F) (error : QgsGeometryCheckError F) (method : Int)
    (changes : Changes) (geometry geometry1 : QgsAbstractGeometry F) (n : Int)
    (p1 p3 : QgsPoint F)
    (hcan : canDeleteVertex geometry error.vidx.part error.vidx.ring = true)
    (hdel : geometry.deleteVertex error.vidx = some geometry1)
    (hnear : sqrDistance2D p1 p3 < chk.tolerance)
    (hcan1 : canDeleteVertex geometry1 error.vidx.part error.vidx.ring = true)
    (hdel1 : geometry1.deleteVertex error.vidx = none) :
    fixDeleteNode chk featurePools error method changes geometry n p1 p3 =
      ⟨error.setFixed method,
        changes.append error.layerId error.featureId
          ⟨ChangeWhat.ChangeNode, ChangeType.ChangeRemoved, error.vidx⟩,
        featurePools.updateFeature error.layerId error.featureId geometry1,
        [Effect.deleteVertexCall error.vidx true, Effect.deleteVertexCall error.vidx false,
          Effect.updateFeatureCall error.layerId error.featureId geometry1]⟩ := by
  unfold fixDeleteNode
  simp only [hcan, Bool.not_true, Bool.false_eq_true, if_false, hdel]
  rw [if_pos ⟨hnear, hcan1⟩]
  simp only [hdel1]

/-! ## Failed re-validations in exact arithmetic -/

theorem angleAt_of_length_zero {F : Type} [LinearOrderedField F] (lib : LibM F)
    (p1 p2 p3 : QgsPoint F)
    (h : (QgsVector.mk (p1.x - p2.x) (p1.y - p2.y)).length lib = 0 ∨
      (QgsVector.mk (p3.x - p2.x) (p3.y - p2.y)).length lib = 0) :
    angleAt lib p1 p2 p3 = none := by
  unfold angleAt QgsVector.normalized
  rcases h with h | h
  · simp [h]
  · simp only [h, if_true]
    split <;> rfl

/-- In exact arithmetic, where "not below" and `>=` are the same: for every error record,
method and change accumulator, if the feature cannot be fetched, or the stored vertex
address is invalid for the fetched geometry, or the ring length is 0, or a vector from the
vertex to a neighbour has length zero, or the recomputed angle is not below `mMinAngle`,
then `fixError` marks the record obsolete, leaves the change accumulator and the feature
pools as they were and calls neither `deleteVertex` nor `updateFeature`.  In `double` the
last case fails for an angle that is a NaN. -/
theorem fixError_obsolete_when_stale {F : Type} [LinearOrderedField F] (lib : LibM F)
    (chk : QgsGeometryAngleCheck F) (featurePools : FeaturePools F)
    (error : QgsGeometryCheckError F) (method : Int) (changes : Changes)
    (h : featurePools error.layerId error.featureId = none ∨
      ∃ geometry, featurePools error.layerId error.featureId = some geometry ∧
        (error.vidx.isValid geometry = false ∨
         (polyLineSize geometry error.vidx.part error.vidx.ring).1 = 0 ∨
         (QgsVector.mk ((neighbourP1 geometry error.vidx).x - (geometry.vertexAt error.vidx).x)
            ((neighbourP1 geometry error.vidx).y - (geometry.vertexAt error.vidx).y)).length lib = 0 ∨
         (QgsVector.mk ((neighbourP3 geometry error.vidx).x - (geometry.vertexAt error.vidx).x)
            ((neighbourP3 geometry error.vidx).y - (geometry.vertexAt error.vidx).y)).length lib = 0 ∨
         ∃ angle, recomputedAngle lib geometry error.vidx = some angle ∧
            ¬ angle < chk.mMinAngle)) :
    (fixError lib chk featurePools error method changes).error = error.setObsolete ∧
    (fixError lib chk featurePools error method changes).error.status = Status.StatusObsolete ∧
    (fixError lib chk featurePools error method changes).changes = changes ∧
    (fixError lib chk featurePools error method changes).featurePools = featurePools ∧
    (fixError lib chk featurePools error method changes).effects = [] := by
  have hstale : fixError lib chk featurePools error method changes =
      ⟨error.setObsolete, changes, featurePools, []⟩ := by
    apply fixError_stale
    rcases h with h | ⟨geometry, hg, h⟩
    · exact Or.inl h
    · refine Or.inr ⟨geometry, hg, ?_⟩
      rcases h with h | h | h | h | ⟨a, ha, hlt⟩
      · exact Or.inl h
      · exact Or.inr (Or.inl h)
      · exact Or.inr (Or.inr (Or.inl (angleAt_of_length_zero lib _ _ _ (Or.inl h))))
      · exact Or.inr (Or.inr (Or.inl (angleAt_of_length_zero lib _ _ _ (Or.inr h))))
      · exact Or.inr (Or.inr (Or.inr ⟨a, ha, hlt⟩))
  rw [hstale]
  exact ⟨rfl, rfl, rfl, rfl, rfl⟩

/-- The statement of `fixError_obsolete_when_stale` for an error stored for vertex C of the
scenario ring, whose angle is not below 5 degrees: `fixError` with the delete-vertex method
marks it obsolete. -/
theorem fixError_obsolete_when_stale_witness :
    (fixError (LibM.mk Real.sqrt Real.arccos Real.pi) ⟨5, 1⟩
        (singleFeaturePool (singleRing (scenarioRing ℝ)))
        (pendingError ⟨10, 1 / 10000, 0⟩ ⟨0, 0, 2⟩ 0) DeleteNode noChanges).error =
      (pendingError ⟨10, 1 / 10000, 0⟩ ⟨0, 0, 2⟩ 0).setObsolete ∧
    (fixError (LibM.mk Real.sqrt Real.arccos Real.pi) ⟨5, 1⟩
        (singleFeaturePool (singleRing (scenarioRing ℝ)))
        (pendingError ⟨10, 1 / 10000, 0⟩ ⟨0, 0, 2⟩ 0) DeleteNode noChanges).error.status =
      Status.StatusObsolete ∧
    (fixError (LibM.mk Real.sqrt Real.arccos Real.pi) ⟨5, 1⟩
        (singleFeaturePool (singleRing (scenarioRing ℝ)))
        (pendingError ⟨10, 1 / 10000, 0⟩ ⟨0, 0, 2⟩ 0) DeleteNode noChanges).changes = noChanges ∧
    (fixError (LibM.mk Real.sqrt Real.arccos Real.pi) ⟨5, 1⟩
        (singleFeaturePool (singleRing (scenarioRing ℝ)))
        (pendingError ⟨10, 1 / 10000, 0⟩ ⟨0, 0, 2⟩ 0) DeleteNode noChanges).featurePools =
      singleFeaturePool (singleRing (scenarioRing ℝ)) ∧
    (fixError (LibM.mk Real.sqrt Real.arccos Real.pi) ⟨5, 1⟩
        (singleFeaturePool (singleRing (scenarioRing ℝ)))
        (pendingError ⟨10, 1 / 10000, 0⟩ ⟨0, 0, 2⟩ 0) DeleteNode noChanges).effects = [] := by
  obtain ⟨a, ha, h90⟩ := scenario_angle_at_C
  have e1 : neighbourP1 (singleRing (scenarioRing ℝ)) ⟨0, 0, 2⟩ = ⟨10, 0, 0⟩ := rfl
  have e2 : (singleRing (scenarioRing ℝ)).vertexAt ⟨0, 0, 2⟩ = ⟨10, 1 / 10000, 0⟩ := rfl
  have e3 : neighbourP3 (singleRing (scenarioRing ℝ)) ⟨0, 0, 2⟩ = ⟨0, 10, 0⟩ := rfl
  have hr : recomputedAngle (LibM.mk Real.sqrt Real.arccos Real.pi)
      (singleRing (scenarioRing ℝ)) ⟨0, 0, 2⟩ = some a :=
    (angleAt_congr _ e1 e2 e3).trans ha
  have hnot : ¬ a < 5 := not_lt.2 (by linarith)
  exact fixError_obsolete_when_stale _ ⟨5, 1⟩ (singleFeaturePool (singleRing (scenarioRing ℝ)))
    (pendingError ⟨10, 1 / 10000, 0⟩ ⟨0, 0, 2⟩ 0) DeleteNode noChanges
    (Or.inr ⟨singleRing (scenarioRing ℝ), rfl, Or.inr (Or.inr (Or.inr (Or.inr ⟨a, hr, hnot⟩)))⟩)

/-! ## Facts about the modelled vertex deletion -/

theorem getAt_eq_some_iff {α : Type} (l : List α) (i : Int) (a : α) :
    getAt l i = some a ↔ 0 ≤ i ∧ l[i.toNat]? = some a := by
  unfold getAt
  by_cases h : i < 0
  · simp [h]
  · simp [h]
    omega

theorem getAt_setAt_self {α : Type} (l : List α) (i : Int) (a b : α) (h : getAt l i = some b) :
    getAt (setAt l i a) i = some a := by
  rw [getAt_eq_some_iff] at h
  obtain ⟨h0, hb⟩ := h
  have hlt : i.toNat < l.length := by
    rw [List.getElem?_eq_some] at hb
    exact hb.1
  unfold getAt setAt
  simp [not_lt.2 h0, hlt]

theorem getAt_setAt_ne {α : Type} (l : List α) (i j : Int) (a : α) (h : i ≠ j) :
    getAt (setAt l i a) j = getAt l j := by
  unfold getAt setAt
  by_cases hi : i < 0
  · simp [hi]
  · by_cases hj : j < 0
    · simp [hj]
    · have hne : i.toNat ≠ j.toNat := by omega
      simp [hi, hj, List.getElem?_set_ne hne]

/-- A successful `deleteVertex` addressed an existing vertex and leaves its ring without
that vertex, with the closedness of the ring unchanged. -/
theorem deleteVertex_ring {F : Type} (g g1 : QgsAbstractGeometry F) (id : QgsVertexId)
    (h : g.deleteVertex id = some g1) :
    ∃ r, g.ringAt id.part id.ring = some r ∧ 0 ≤ id.vertex ∧
      id.vertex < (r.vertices.length : Int) ∧
      g1.ringAt id.part id.ring = some ⟨r.vertices.eraseIdx id.vertex.toNat, r.closed⟩ := by
  unfold QgsAbstractGeometry.deleteVertex at h
  by_cases hv : id.isValid g = true
  · simp only [hv, if_true] at h
    cases hp : getAt g.parts id.part with
    | none => simp [hp] at h
    | some rings =>
      simp only [hp] at h
      cases hr : getAt rings id.ring with
      | none => simp [hr] at h
      | some r =>
        simp only [hr, Option.some.injEq] at h
        subst h
        unfold QgsVertexId.isValid at hv
        simp only [Bool.and_eq_true, decide_eq_true_eq] at hv
        have hsize : polyLineSize g id.part id.ring = ((r.vertices.length : Int), r.closed) := by
          unfold polyLineSize QgsAbstractGeometry.ringAt
          simp [hp, hr]
        rw [hsize] at hv
        refine ⟨r, ?_, hv.1.2, hv.2, ?_⟩
        · unfold QgsAbstractGeometry.ringAt
          simp [hp, hr]
        · unfold QgsAbstractGeometry.ringAt
          simp only [getAt_setAt_self _ _ _ _ hp, getAt_setAt_self _ _ _ _ hr]
  · simp [hv] at h

/-- A successful `deleteVertex` leaves every other ring of the geometry as it was. -/
theorem deleteVertex_other_ring {F : Type} (g g1 : QgsAbstractGeometry F) (id : QgsVertexId)
    (h : g.deleteVertex id = some g1) (iPart iRing : Int)
    (hne : iPart ≠ id.part ∨ iRing ≠ id.ring) :
    g1.ringAt iPart iRing = g.ringAt iPart iRing := by
  unfold QgsAbstractGeometry.deleteVertex at h
  by_cases hv : id.isValid g = true
  · simp only [hv, if_true] at h
    cases hp : getAt g.parts id.part with
    | none => simp [hp] at h
    | some rings =>
      simp only [hp] at h
      cases hr : getAt rings id.ring with
      | none => simp [hr] at h
      | some r =>
        simp only [hr, Option.some.injEq] at h
        subst h
        unfold QgsAbstractGeometry.ringAt
        by_cases hpe : iPart = id.part
        · subst hpe
          have hre : id.ring ≠ iRing := by
            rcases hne with h1 | h1
            · exact absurd rfl h1
            · exact fun hc => h1 hc.symm
          simp only [getAt_setAt_self _ _ _ _ hp, hp, getAt_setAt_ne _ _ _ _ hre]
        · simp only [getAt_setAt_ne _ _ _ _ (fun hc => hpe hc.symm)]
  · simp [hv] at h

/-! ## C7: fixing a record whose vertex was deleted in the meantime -/

theorem real_normalized_right (dx : ℝ) (h : 0 < dx) :
    (QgsVector.mk dx 0).normalized (LibM.mk Real.sqrt Real.arccos Real.pi) = some ⟨1, 0⟩ := by
  have hl : Real.sqrt (dx * dx + 0 * 0) = dx := by
    rw [mul_zero, add_zero, Real.sqrt_mul_self_eq_abs, abs_of_pos h]
  unfold QgsVector.normalized QgsVector.length
  simp only [hl]
  have hne : dx ≠ 0 := by linarith
  rw [if_neg hne]
  congr 2
  · field_simp
  · simp

/-- With the real-number library the angle at a vertex whose two neighbours lie strictly to
its right on the same horizontal line is 0 degrees. -/
theorem real_angleAt_spike_right (p1 p2 p3 : QgsPoint ℝ) (hy1 : p1.y = p2.y)
    (hy3 : p3.y = p2.y) (h1 : p2.x < p1.x) (h3 : p2.x < p3.x) :
    angleAt (LibM.mk Real.sqrt Real.arccos Real.pi) p1 p2 p3 = some 0 := by
  unfold angleAt
  rw [hy1, hy3, sub_self, real_normalized_right _ (by linarith),
    real_normalized_right _ (by linarith)]
  simp [QgsVector.dot]

theorem fixDeleteNode_status {F : Type} [LinearOrderedField F] (chk : QgsGeometryAngleCheck F)
    (featurePools : FeaturePools F) (error : QgsGeometryCheckError F) (method : Int)
    (changes : Changes) (geometry : QgsAbstractGeometry F) (n : Int) (p1 p3 : QgsPoint F) :
    (fixDeleteNode chk featurePools error method changes geometry n p1 p3).error.status =
        Status.StatusFixed ∨
    (fixDeleteNode chk featurePools error method changes geometry n p1 p3).error.status =
        Status.StatusFixFailed := by
  unfold fixDeleteNode
  simp only
  split
  · exact Or.inr rfl
  · split
    · exact Or.inr rfl
    · split
      · split
        · exact Or.inl rfl
        · exact Or.inl rfl
      · exact Or.inl rfl

theorem fixError_status_of_passes {F : Type} [LinearOrderedField F] (lib : LibM F)
    (chk : QgsGeometryAngleCheck F) (featurePools : FeaturePools F)
    (error : QgsGeometryCheckError F) (method : Int) (changes : Changes)
    (geometry : QgsAbstractGeometry F)
    (h : passesRevalidation lib chk featurePools error geometry) :
    (fixError lib chk featurePools error method changes).error.status = Status.StatusFixed ∨
    (fixError lib chk featurePools error method changes).error.status =
        Status.StatusFixFailed := by
  rw [fixError_of_passes lib chk featurePools error method changes geometry h]
  split
  · exact Or.inl rfl
  · split
    · exact fixDeleteNode_status _ _ _ _ _ _ _ _ _
    · exact Or.inr rfl

theorem fixError_obsolete_iff {F : Type} [LinearOrderedField F] (lib : LibM F)
    (chk : QgsGeometryAngleCheck F) (featurePools : FeaturePools F)
    (error : QgsGeometryCheckError F) (method : Int) (changes : Changes)
    (geometry : QgsAbstractGeometry F)
    (hpool : featurePools error.layerId error.featureId = some geometry) :
    (fixError lib chk featurePools error method changes).error.status = Status.StatusObsolete ↔
      ¬ passesRevalidation lib chk featurePools error geometry := by
  constructor
  · intro hs hp
    rcases fixError_status_of_passes lib chk featurePools error method changes geometry hp
      with h | h
    · rw [h] at hs
      exact Status.noConfusion hs
    · rw [h] at hs
      exact Status.noConfusion hs
  · intro hnp
    have hstale : fixError lib chk featurePools error method changes =
        ⟨error.setObsolete, changes, featurePools, []⟩ := by
      apply fixError_stale
      refine Or.inr ⟨geometry, hpool, ?_⟩
      by_cases hv : error.vidx.isValid geometry = true
      · by_cases hn : (polyLineSize geometry error.vidx.part error.vidx.ring).1 = 0
        · exact Or.inr (Or.inl hn)
        · cases ha : recomputedAngle lib geometry error.vidx with
          | none => exact Or.inr (Or.inr (Or.inl ha))
          | some a =>
            refine Or.inr (Or.inr (Or.inr ⟨a, ha, ?_⟩))
            intro hlt
            exact hnp ⟨hpool, hv, hn, a, ha, hlt⟩
      · exact Or.inl (by simpa using hv)
    rw [hstale]
    rfl

/-- C8: for an error that passes the re-validation, whose ring allows a deletion and whose
`deleteVertex` call succeeds, when the squared distance of the original neighbours `p1` and
`p3` is not below the tolerance, `fixError` with `DeleteNode` calls `deleteVertex` once, at
the stored address, so the ring becomes the original ring without that vertex and every
other ring stays as it was; it appends exactly one change record (node, removed, the stored
address) for the feature of the error, stores the new geometry with `updateFeature` and
marks the record fixed. -/
theorem fixError_delete_single {F : Type} [LinearOrderedField F] (lib : LibM F)
    (chk : QgsGeometryAngleCheck F) (featurePools : FeaturePools F)
    (error : QgsGeometryCheckError F) (changes : Changes)
    (geometry geometry1 : QgsAbstractGeometry F)
    (hpass : passesRevalidation lib chk featurePools error geometry)
    (hcan : canDeleteVertex geometry error.vidx.part error.vidx.ring = true)
    (hdel : geometry.deleteVertex error.vidx = some geometry1)
    (hfar : ¬ sqrDistance2D (neighbourP1 geometry error.vidx) (neighbourP3 geometry error.vidx) <
      chk.tolerance) :
    fixError lib chk featurePools error DeleteNode changes =
      ⟨error.setFixed DeleteNode,
        changes.append error.layerId error.featureId
          ⟨ChangeWhat.ChangeNode, ChangeType.ChangeRemoved, error.vidx⟩,
        featurePools.updateFeature error.layerId error.featureId geometry1,
        [Effect.deleteVertexCall error.vidx true,
          Effect.updateFeatureCall error.layerId error.featureId geometry1]⟩ ∧
    (fixError lib chk featurePools error DeleteNode changes).error.status = Status.StatusFixed ∧
    (fixError lib chk featurePools error DeleteNode changes).changes error.layerId
        error.featureId =
      changes error.layerId error.featureId ++
        [⟨ChangeWhat.ChangeNode, ChangeType.ChangeRemoved, error.vidx⟩] ∧
    (fixError lib chk featurePools error DeleteNode changes).featurePools error.layerId
        error.featureId = some geometry1 ∧
    (∃ r, geometry.ringAt error.vidx.part error.vidx.ring = some r ∧
      geometry1.ringAt error.vidx.part error.vidx.ring =
        some ⟨r.vertices.eraseIdx error.vidx.vertex.toNat, r.closed⟩) ∧
    (∀ iPart iRing : Int, (iPart ≠ error.vidx.part ∨ iRing ≠ error.vidx.ring) →
      geometry1.ringAt iPart iRing = geometry.ringAt iPart iRing) := by
  have hfix : fixError lib chk featurePools error DeleteNode changes =
      ⟨error.setFixed DeleteNode,
        changes.append error.layerId error.featureId
          ⟨ChangeWhat.ChangeNode, ChangeType.ChangeRemoved, error.vidx⟩,
        featurePools.updateFeature error.layerId error.featureId geometry1,
        [Effect.deleteVertexCall error.vidx true,
          Effect.updateFeatureCall error.layerId error.featureId geometry1]⟩ := by
    rw [fixError_of_passes lib chk featurePools error DeleteNode changes geometry hpass]
    rw [if_neg (by decide), if_pos rfl]
    exact fixDeleteNode_single chk featurePools error DeleteNode changes geometry geometry1 _ _ _
      hcan hdel (fun hc => hfar hc.1)
  obtain ⟨r, hr, _, _, hr1⟩ := deleteVertex_ring geometry geometry1 error.vidx hdel
  refine ⟨hfix, ?_, ?_, ?_, ⟨r, hr, hr1⟩,
    fun iPart iRing hne => deleteVertex_other_ring geometry geometry1 error.vidx hdel iPart iRing hne⟩
  · rw [hfix]
    rfl
  · rw [hfix]
    simp [Changes.append]
  · rw [hfix]
    simp [FeaturePools.updateFeature]

theorem spike_passes :
    passesRevalidation (LibM.mk Real.sqrt Real.arccos Real.pi) ⟨5, 1⟩
      (singleFeaturePool (singleRing (spikeRing ℝ))) (pendingError ⟨10, 0, 0⟩ ⟨0, 0, 1⟩ 0)
      (singleRing (spikeRing ℝ)) := by
  have e1 : neighbourP1 (singleRing (spikeRing ℝ)) ⟨0, 0, 1⟩ = ⟨0, 0, 0⟩ := rfl
  have e2 : (singleRing (spikeRing ℝ)).vertexAt ⟨0, 0, 1⟩ = ⟨10, 0, 0⟩ := rfl
  have e3 : neighbourP3 (singleRing (spikeRing ℝ)) ⟨0, 0, 1⟩ = ⟨5, 0, 0⟩ := rfl
  exact ⟨rfl, rfl, by decide, 0, (angleAt_congr _ e1 e2 e3).trans
    (real_angleAt_spike _ _ _ rfl rfl (by norm_num) (by norm_num)), by norm_num⟩

/-- Witness of C8: the spike at vertex 1 of the closed ring (0,0), (10,0), (5,0), (5,5) is
removed, which leaves the ring (0,0), (5,0), (5,5), with one change record. -/
theorem fixError_delete_single_witness :
    fixError (LibM.mk Real.sqrt Real.arccos Real.pi) ⟨5, 1⟩
        (singleFeaturePool (singleRing (spikeRing ℝ))) (pendingError ⟨10, 0, 0⟩ ⟨0, 0, 1⟩ 0)
        DeleteNode noChanges =
      ⟨(pendingError ⟨10, 0, 0⟩ ⟨0, 0, 1⟩ 0).setFixed DeleteNode,
        noChanges.append "layer" 7 ⟨ChangeWhat.ChangeNode, ChangeType.ChangeRemoved, ⟨0, 0, 1⟩⟩,
        (singleFeaturePool (singleRing (spikeRing ℝ))).updateFeature "layer" 7
          (singleRing (spikeRingCut ℝ)),
        [Effect.deleteVertexCall ⟨0, 0, 1⟩ true,
          Effect.updateFeatureCall "layer" 7 (singleRing (spikeRingCut ℝ))]⟩ := by
  have e1 : neighbourP1 (singleRing (spikeRing ℝ)) ⟨0, 0, 1⟩ = ⟨0, 0, 0⟩ := rfl
  have e3 : neighbourP3 (singleRing (spikeRing ℝ)) ⟨0, 0, 1⟩ = ⟨5, 0, 0⟩ := rfl
  have hfar : ¬ sqrDistance2D (neighbourP1 (singleRing (spikeRing ℝ)) ⟨0, 0, 1⟩)
      (neighbourP3 (singleRing (spikeRing ℝ)) ⟨0, 0, 1⟩) < (1 : ℝ) := by
    rw [e1, e3]
    norm_num [sqrDistance2D]
  exact (fixError_delete_single _ ⟨5, 1⟩ (singleFeaturePool (singleRing (spikeRing ℝ)))
    (pendingError ⟨10, 0, 0⟩ ⟨0, 0, 1⟩ 0) noChanges (singleRing (spikeRing ℝ))
    (singleRing (spikeRingCut ℝ)) spike_passes rfl rfl hfar).1

/-! ## The duplicate clean-up after a deletion -/

theorem needle_passes :
    passesRevalidation (LibM.mk Real.sqrt Real.arccos Real.pi) ⟨5, 1⟩
      (singleFeaturePool (singleRing (needleRing ℝ))) (pendingError ⟨10, 0, 0⟩ ⟨0, 0, 1⟩ 0)
      (singleRing (needleRing ℝ)) := by
  have e1 : neighbourP1 (singleRing (needleRing ℝ)) ⟨0, 0, 1⟩ = ⟨0, 0, 0⟩ := rfl
  have e2 : (singleRing (needleRing ℝ)).vertexAt ⟨0, 0, 1⟩ = ⟨10, 0, 0⟩ := rfl
  have e3 : neighbourP3 (singleRing (needleRing ℝ)) ⟨0, 0, 1⟩ = ⟨1 / 2, 0, 0⟩ := rfl
  exact ⟨rfl, rfl, by decide, 0, (angleAt_congr _ e1 e2 e3).trans
    (real_angleAt_spike _ _ _ rfl rfl (by norm_num) (by norm_num)), by norm_num⟩

theorem needle_near :
    sqrDistance2D (neighbourP1 (singleRing (needleRing ℝ)) ⟨0, 0, 1⟩)
      (neighbourP3 (singleRing (needleRing ℝ)) ⟨0, 0, 1⟩) < (1 : ℝ) := by
  have e1 : neighbourP1 (singleRing (needleRing ℝ)) ⟨0, 0, 1⟩ = ⟨0, 0, 0⟩ := rfl
  have e3 : neighbourP3 (singleRing (needleRing ℝ)) ⟨0, 0, 1⟩ = ⟨1 / 2, 0, 0⟩ := rfl
  rw [e1, e3]
  norm_num [sqrDistance2D]

/-- The path of line 135 on which the second `deleteVertex` call succeeds: for an error
that passes the re-validation and whose first deletion succeeds, if the original
neighbours `p1` and `p3` are within the tolerance, the ring is still deletable and the
second `deleteVertex` call at the stored address succeeds as well, then `fixError` with
`DeleteNode` appends exactly two change records (the stored address first, then the
duplicate), the ring ends with one vertex fewer than after the first deletion, the
geometry after both deletions is stored and the record is marked fixed. -/
theorem fixError_delete_double {F : Type} [LinearOrderedField F] (lib : LibM F)
    (chk : QgsGeometryAngleCheck F) (featurePools : FeaturePools F)
    (error : QgsGeometryCheckError F) (changes : Changes)
    (geometry geometry1 geometry2 : QgsAbstractGeometry F)
    (hpass : passesRevalidation lib chk featurePools error geometry)
    (hcan : canDeleteVertex geometry error.vidx.part error.vidx.ring = true)
    (hdel : geometry.deleteVertex error.vidx = some geometry1)
    (hnear : sqrDistance2D (neighbourP1 geometry error.vidx) (neighbourP3 geometry error.vidx) <
      chk.tolerance)
    (hcan1 : canDeleteVertex geometry1 error.vidx.part error.vidx.ring = true)
    (hdel1 : geometry1.deleteVertex error.vidx = some geometry2) :
    (fixError lib chk featurePools error DeleteNode changes).changes error.layerId
        error.featureId =
      changes error.layerId error.featureId ++
        [⟨ChangeWhat.ChangeNode, ChangeType.ChangeRemoved, error.vidx⟩,
         ⟨ChangeWhat.ChangeNode, ChangeType.ChangeRemoved,
          ⟨error.vidx.part, error.vidx.ring,
            (error.vidx.vertex + 1).tmod
              (polyLineSize geometry error.vidx.part error.vidx.ring).1⟩⟩] ∧
    (fixError lib chk featurePools error DeleteNode changes).effects =
      [Effect.deleteVertexCall error.vidx true, Effect.deleteVertexCall error.vidx true,
        Effect.updateFeatureCall error.layerId error.featureId geometry2] ∧
    (fixError lib chk featurePools error DeleteNode changes).featurePools error.layerId
        error.featureId = some geometry2 ∧
    (fixError lib chk featurePools error DeleteNode changes).error.status = Status.StatusFixed ∧
    (polyLineSize geometry2 error.vidx.part error.vidx.ring).1 + 1 =
      (polyLineSize geometry1 error.vidx.part error.vidx.ring).1 := by
  have hfix := fixError_of_passes lib chk featurePools error DeleteNode changes geometry hpass
  rw [if_neg (by decide), if_pos rfl,
    fixDeleteNode_double chk featurePools error DeleteNode changes geometry geometry1 geometry2
      _ _ _ hcan hdel hnear hcan1 hdel1] at hfix
  refine ⟨?_, ?_, ?_, ?_, ?_⟩
  · rw [hfix]
    simp [Changes.append]
  · rw [hfix]
  · rw [hfix]
    simp [FeaturePools.updateFeature]
  · rw [hfix]
    rfl
  · obtain ⟨r, hr, h0, hlt, hr1⟩ := deleteVertex_ring geometry1 geometry2 error.vidx hdel1
    unfold polyLineSize
    rw [hr, hr1]
    simp only
    rw [List.length_eraseIdx_of_lt (by omega)]
    omega

/-- The statement of `fixError_delete_double` for the spike at vertex 1 of the closed ring
(0,0), (10,0), (0.5,0), (5,5), (0,5): the spike and then the duplicate next to (0,0) are
removed. -/
theorem fixError_delete_double_witness :
    (fixError (LibM.mk Real.sqrt Real.arccos Real.pi) ⟨5, 1⟩
        (singleFeaturePool (singleRing (needleRing ℝ)))
        (pendingError ⟨10, 0, 0⟩ ⟨0, 0, 1⟩ 0) DeleteNode noChanges).featurePools "layer" 7 =
      some (singleRing (needleRingCutTwice ℝ)) :=
  (fixError_delete_double _ ⟨5, 1⟩ (singleFeaturePool (singleRing (needleRing ℝ)))
    (pendingError ⟨10, 0, 0⟩ ⟨0, 0, 1⟩ 0) noChanges (singleRing (needleRing ℝ))
    (singleRing (needleRingCut ℝ)) (singleRing (needleRingCutTwice ℝ))
    needle_passes rfl rfl needle_near rfl rfl).2.2.1

/-! ## C10: the address stored in the second change record -/

/-- C10, evaluated at the failing input: for the spike at vertex 1 of the closed ring
(0,0), (10,0), (0.5,0), (5,5), (0,5), `fixError` performs both deletions at the address
(0,0,1), but the second change record stores the address (0,0,2). -/
theorem second_change_record_address :
    (fixError (LibM.mk Real.sqrt Real.arccos Real.pi) ⟨5, 1⟩
        (singleFeaturePool (singleRing (needleRing ℝ)))
        (pendingError ⟨10, 0, 0⟩ ⟨0, 0, 1⟩ 0) DeleteNode noChanges).effects =
      [Effect.deleteVertexCall ⟨0, 0, 1⟩ true, Effect.deleteVertexCall ⟨0, 0, 1⟩ true,
        Effect.updateFeatureCall "layer" 7 (singleRing (needleRingCutTwice ℝ))] ∧
    (fixError (LibM.mk Real.sqrt Real.arccos Real.pi) ⟨5, 1⟩
        (singleFeaturePool (singleRing (needleRing ℝ)))
        (pendingError ⟨10, 0, 0⟩ ⟨0, 0, 1⟩ 0) DeleteNode noChanges).changes "layer" 7 =
      [⟨ChangeWhat.ChangeNode, ChangeType.ChangeRemoved, ⟨0, 0, 1⟩⟩,
       ⟨ChangeWhat.ChangeNode, ChangeType.ChangeRemoved, ⟨0, 0, 2⟩⟩] := by
  have hfix := fixError_of_passes _ _ _ _ DeleteNode noChanges _ needle_passes
  rw [if_neg (by decide), if_pos rfl] at hfix
  replace hfix := hfix.trans
    (fixDeleteNode_double (⟨5, 1⟩ : QgsGeometryAngleCheck ℝ)
      (singleFeaturePool (singleRing (needleRing ℝ))) (pendingError ⟨10, 0, 0⟩ ⟨0, 0, 1⟩ 0)
      DeleteNode noChanges (singleRing (needleRing ℝ)) (singleRing (needleRingCut ℝ))
      (singleRing (needleRingCutTwice ℝ)) _ _ _ rfl rfl needle_near rfl rfl)
  refine ⟨?_, ?_⟩
  · rw [hfix]
    rfl
  · rw [hfix]
    have hn : Int.tmod 2 (polyLineSize (singleRing (needleRing ℝ)) 0 0).1 = 2 := rfl
    simp [Changes.append, noChanges, pendingError, hn]

/-! ## C11: delete-vertex on a ring that must not lose a vertex -/

theorem fixDeleteNode_refused {F : Type} [LinearOrderedField F] (chk : QgsGeometryAngleCheck F)
    (featurePools : FeaturePools F) (error : QgsGeometryCheckError F) (method : Int)
    (changes : Changes) (geometry : QgsAbstractGeometry F) (n : Int) (p1 p3 : QgsPoint F)
    (hcan : canDeleteVertex geometry error.vidx.part error.vidx.ring = false) :
    fixDeleteNode chk featurePools error method changes geometry n p1 p3 =
      ⟨error.setFixFailed "Resulting geometry is degenerate", changes, featurePools, []⟩ := by
  unfold fixDeleteNode
  simp [hcan]

theorem triangle_passes :
    passesRevalidation (LibM.mk Real.sqrt Real.arccos Real.pi) ⟨5, 1⟩
      (singleFeaturePool (singleRing (triangleRing ℝ))) (pendingError ⟨10, 0, 0⟩ ⟨0, 0, 1⟩ 0)
      (singleRing (triangleRing ℝ)) := by
  have e1 : neighbourP1 (singleRing (triangleRing ℝ)) ⟨0, 0, 1⟩ = ⟨0, 0, 0⟩ := rfl
  have e2 : (singleRing (triangleRing ℝ)).vertexAt ⟨0, 0, 1⟩ = ⟨10, 0, 0⟩ := rfl
  have e3 : neighbourP3 (singleRing (triangleRing ℝ)) ⟨0, 0, 1⟩ = ⟨5, 0, 0⟩ := rfl
  exact ⟨rfl, rfl, by decide, 0, (angleAt_congr _ e1 e2 e3).trans
    (real_angleAt_spike _ _ _ rfl rfl (by norm_num) (by norm_num)), by norm_num⟩

/-- C11: for an error that passes the re-validation on a ring for which `canDeleteVertex`
answers no, `fixError` with `DeleteNode` marks the record fix-failed with the reason
"Resulting geometry is degenerate", calls neither `deleteVertex` nor `updateFeature` and
leaves the change accumulator and the feature pools as they were; `canDeleteVertex`
answers no for every closed ring of 3 vertices. -/
theorem fixError_delete_refused {F : Type} [LinearOrderedField F] (lib : LibM F)
    (chk : QgsGeometryAngleCheck F) (featurePools : FeaturePools F)
    (error : QgsGeometryCheckError F) (changes : Changes) (geometry : QgsAbstractGeometry F)
    (hpass : passesRevalidation lib chk featurePools error geometry)
    (hcan : canDeleteVertex geometry error.vidx.part error.vidx.ring = false) :
    fixError lib chk featurePools error DeleteNode changes =
      ⟨error.setFixFailed "Resulting geometry is degenerate", changes, featurePools, []⟩ ∧
    (fixError lib chk featurePools error DeleteNode changes).error.status =
      Status.StatusFixFailed ∧
    (fixError lib chk featurePools error DeleteNode changes).error.resolutionMessage =
      "Resulting geometry is degenerate" ∧
    (fixError lib chk featurePools error DeleteNode changes).effects = [] ∧
    (fixError lib chk featurePools error DeleteNode changes).changes = changes ∧
    (fixError lib chk featurePools error DeleteNode changes).featurePools = featurePools ∧
    (∀ (g : QgsAbstractGeometry F) (iPart iRing : Int) (r : Ring F),
      g.ringAt iPart iRing = some r → r.closed = true → r.vertices.length = 3 →
      canDeleteVertex g iPart iRing = false) := by
  have hfix : fixError lib chk featurePools error DeleteNode changes =
      ⟨error.setFixFailed "Resulting geometry is degenerate", changes, featurePools, []⟩ := by
    rw [fixError_of_passes lib chk featurePools error DeleteNode changes geometry hpass,
      if_neg (by decide), if_pos rfl]
    exact fixDeleteNode_refused chk featurePools error DeleteNode changes geometry _ _ _ hcan
  refine ⟨hfix, ?_, ?_, ?_, ?_, ?_, ?_⟩
  · rw [hfix]
    rfl
  · rw [hfix]
    rfl
  · rw [hfix]
  · rw [hfix]
  · rw [hfix]
  · intro g iPart iRing r hr hclosed hlen
    unfold canDeleteVertex
    rw [hr]
    simp [hclosed, hlen]

/-- Witness of C11: the spike at vertex 1 of the closed triangle (0,0), (10,0), (5,0)
cannot be deleted. -/
theorem fixError_delete_refused_witness :
    canDeleteVertex (singleRing (triangleRing ℝ)) 0 0 = false ∧
    fixError (LibM.mk Real.sqrt Real.arccos Real.pi) ⟨5, 1⟩
        (singleFeaturePool (singleRing (triangleRing ℝ))) (pendingError ⟨10, 0, 0⟩ ⟨0, 0, 1⟩ 0)
        DeleteNode noChanges =
      ⟨(pendingError ⟨10, 0, 0⟩ ⟨0, 0, 1⟩ 0).setFixFailed "Resulting geometry is degenerate",
        noChanges, singleFeaturePool (singleRing (triangleRing ℝ)), []⟩ :=
  ⟨rfl, (fixError_delete_refused _ ⟨5, 1⟩ (singleFeaturePool (singleRing (triangleRing ℝ)))
    (pendingError ⟨10, 0, 0⟩ ⟨0, 0, 1⟩ 0) noChanges (singleRing (triangleRing ℝ))
    triangle_passes rfl).1⟩

/-! ## C12: the no-change method -/

/-- C12: for an error that passes the re-validation, `fixError` with `NoChange` marks the
record fixed with the message of that method ("No action"), calls neither `deleteVertex`
nor `updateFeature` and leaves the change accumulator and the feature pools as they
were. -/
theorem fixError_no_change {F : Type} [LinearOrderedField F] (lib : LibM F)
    (chk : QgsGeometryAngleCheck F) (featurePools : FeaturePools F)
    (error : QgsGeometryCheckError F) (changes : Changes) (geometry : QgsAbstractGeometry F)
    (hpass : passesRevalidation lib chk featurePools error geometry) :
    fixError lib chk featurePools error NoChange changes =
      ⟨error.setFixed NoChange, changes, featurePools, []⟩ ∧
    (fixError lib chk featurePools error NoChange changes).error.status = Status.StatusFixed ∧
    (fixError lib chk featurePools error NoChange changes).error.resolutionMessage =
      "No action" ∧
    (fixError lib chk featurePools error NoChange changes).effects = [] ∧
    (fixError lib chk featurePools error NoChange changes).changes = changes ∧
    (fixError lib chk featurePools error NoChange changes).featurePools = featurePools := by
  have hfix : fixError lib chk featurePools error NoChange changes =
      ⟨error.setFixed NoChange, changes, featurePools, []⟩ := by
    rw [fixError_of_passes lib chk featurePools error NoChange changes geometry hpass,
      if_pos rfl]
  refine ⟨hfix, ?_, ?_, ?_, ?_, ?_⟩
  · rw [hfix]
    rfl
  · rw [hfix]
    rfl
  · rw [hfix]
  · rw [hfix]
  · rw [hfix]

/-- Witness of C12: the spike at vertex 1 of the closed ring (0,0), (10,0), (5,0), (5,5) is
acknowledged with the no-change method. -/
theorem fixError_no_change_witness :
    fixError (LibM.mk Real.sqrt Real.arccos Real.pi) ⟨5, 1⟩
        (singleFeaturePool (singleRing (spikeRing ℝ))) (pendingError ⟨10, 0, 0⟩ ⟨0, 0, 1⟩ 0)
        NoChange noChanges =
      ⟨(pendingError ⟨10, 0, 0⟩ ⟨0, 0, 1⟩ 0).setFixed NoChange, noChanges,
        singleFeaturePool (singleRing (spikeRing ℝ)), []⟩ :=
  (fixError_no_change _ ⟨5, 1⟩ (singleFeaturePool (singleRing (spikeRing ℝ)))
    (pendingError ⟨10, 0, 0⟩ ⟨0, 0, 1⟩ 0) noChanges (singleRing (spikeRing ℝ)) spike_passes).1

/-! ## C13: an unrecognised method -/

/-- C13: for an error that passes the re-validation and a method selector that is neither
`NoChange` nor `DeleteNode`, `fixError` marks the record fix-failed with the reason
"Unknown method", calls neither `deleteVertex` nor `updateFeature` and leaves the change
accumulator and the feature pools as they were. -/
theorem fixError_unknown_method {F : Type} [LinearOrderedField F] (lib : LibM F)
    (chk : QgsGeometryAngleCheck F) (featurePools : FeaturePools F)
    (error : QgsGeometryCheckError F) (method : Int) (changes : Changes)
    (geometry : QgsAbstractGeometry F)
    (hpass : passesRevalidation lib chk featurePools error geometry)
    (hno : method ≠ NoChange) (hdel : method ≠ DeleteNode) :
    fixError lib chk featurePools error method changes =
      ⟨error.setFixFailed "Unknown method", changes, featurePools, []⟩ ∧
    (fixError lib chk featurePools error method changes).error.status =
      Status.StatusFixFailed ∧
    (fixError lib chk featurePools error method changes).error.resolutionMessage =
      "Unknown method" ∧
    (fixError lib chk featurePools error method changes).effects = [] ∧
    (fixError lib chk featurePools error method changes).changes = changes ∧
    (fixError lib chk featurePools error method changes).featurePools = featurePools := by
  have hfix : fixError lib chk featurePools error method changes =
      ⟨error.setFixFailed "Unknown method", changes, featurePools, []⟩ := by
    rw [fixError_of_passes lib chk featurePools error method changes geometry hpass,
      if_neg hno, if_neg hdel]
  refine ⟨hfix, ?_, ?_, ?_, ?_, ?_⟩
  · rw [hfix]
    rfl
  · rw [hfix]
    rfl
  · rw [hfix]
  · rw [hfix]
  · rw [hfix]

/-- Witness of C13: the method selector 2 on the spike of the closed ring (0,0), (10,0),
(5,0), (5,5). -/
theorem fixError_unknown_method_witness :
    (2 : Int) ≠ NoChange ∧ (2 : Int) ≠ DeleteNode ∧
    fixError (LibM.mk Real.sqrt Real.arccos Real.pi) ⟨5, 1⟩
        (singleFeaturePool (singleRing (spikeRing ℝ))) (pendingError ⟨10, 0, 0⟩ ⟨0, 0, 1⟩ 0)
        2 noChanges =
      ⟨(pendingError ⟨10, 0, 0⟩ ⟨0, 0, 1⟩ 0).setFixFailed "Unknown method", noChanges,
        singleFeaturePool (singleRing (spikeRing ℝ)), []⟩ :=
  ⟨by decide, by decide,
    (fixError_unknown_method _ ⟨5, 1⟩ (singleFeaturePool (singleRing (spikeRing ℝ)))
      (pendingError ⟨10, 0, 0⟩ ⟨0, 0, 1⟩ 0) 2 noChanges (singleRing (spikeRing ℝ)) spike_passes
      (by decide) (by decide)).1⟩

/-! ## Every path of the fixer -/

theorem fixDeleteNode_status_indep {F : Type} [LinearOrderedField F]
    (chk : QgsGeometryAngleCheck F)
    (featurePools : FeaturePools F) (error : QgsGeometryCheckError F) (method : Int)
    (changes : Changes) (geometry : QgsAbstractGeometry F) (n : Int) (p1 p3 : QgsPoint F)
    (s : Status) :
    (fixDeleteNode chk featurePools { error with status := s } method changes geometry n p1
      p3).error.status =
    (fixDeleteNode chk featurePools error method changes geometry n p1 p3).error.status := by
  unfold fixDeleteNode
  dsimp only
  split
  · rfl
  · split
    · rfl
    · split
      · split <;> rfl
      · rfl

theorem fixError_status_indep {F : Type} [LinearOrderedField F] (lib : LibM F)
    (chk : QgsGeometryAngleCheck F) (featurePools : FeaturePools F)
    (error : QgsGeometryCheckError F) (method : Int) (changes : Changes) (s : Status) :
    (fixError lib chk featurePools { error with status := s } method changes).error.status =
    (fixError lib chk featurePools error method changes).error.status := by
  unfold fixError
  dsimp only
  split
  · rfl
  · split
    · rfl
    · split
      · rfl
      · split
        · rfl
        · split
          · rfl
          · split
            · rfl
            · split
              · exact fixDeleteNode_status_indep _ _ _ _ _ _ _ _ _ _
              · rfl

theorem fixDeleteNode_cases {F : Type} [LinearOrderedField F] (chk : QgsGeometryAngleCheck F)
    (featurePools : FeaturePools F) (error : QgsGeometryCheckError F) (method : Int)
    (changes : Changes) (geometry : QgsAbstractGeometry F) (n : Int) (p1 p3 : QgsPoint F) :
    ((fixDeleteNode chk featurePools error method changes geometry n p1 p3).error =
        error.setFixFailed "Resulting geometry is degenerate" ∧
      (fixDeleteNode chk featurePools error method changes geometry n p1 p3).changes =
        changes) ∨
    ((fixDeleteNode chk featurePools error method changes geometry n p1 p3).error =
        error.setFixFailed "Failed to delete vertex" ∧
      (fixDeleteNode chk featurePools error method changes geometry n p1 p3).changes =
        changes) ∨
    ((fixDeleteNode chk featurePools error method changes geometry n p1 p3).error =
        error.setFixed method ∧
      (fixDeleteNode chk featurePools error method changes geometry n p1 p3).changes =
        changes.append error.layerId error.featureId
          ⟨ChangeWhat.ChangeNode, ChangeType.ChangeRemoved, error.vidx⟩) ∨
    ((fixDeleteNode chk featurePools error method changes geometry n p1 p3).error =
        error.setFixed method ∧
      (fixDeleteNode chk featurePools error method changes geometry n p1 p3).changes =
        (changes.append error.layerId error.featureId
          ⟨ChangeWhat.ChangeNode, ChangeType.ChangeRemoved, error.vidx⟩).append
          error.layerId error.featureId
          ⟨ChangeWhat.ChangeNode, ChangeType.ChangeRemoved,
            ⟨error.vidx.part, error.vidx.ring, (error.vidx.vertex + 1).tmod n⟩⟩) := by
  unfold fixDeleteNode
  dsimp only
  split
  · exact Or.inl ⟨rfl, rfl⟩
  · split
    · exact Or.inr (Or.inl ⟨rfl, rfl⟩)
    · split
      · split
        · exact Or.inr (Or.inr (Or.inr ⟨rfl, rfl⟩))
        · exact Or.inr (Or.inr (Or.inl ⟨rfl, rfl⟩))
      · exact Or.inr (Or.inr (Or.inl ⟨rfl, rfl⟩))

theorem fixError_cases {F : Type} [LinearOrderedField F] (lib : LibM F)
    (chk : QgsGeometryAngleCheck F) (featurePools : FeaturePools F)
    (error : QgsGeometryCheckError F) (method : Int) (changes : Changes) :
    ((fixError lib chk featurePools error method changes).error = error.setObsolete ∧
      (fixError lib chk featurePools error method changes).changes = changes) ∨
    (method = NoChange ∧
      (fixError lib chk featurePools error method changes).error = error.setFixed method ∧
      (fixError lib chk featurePools error method changes).changes = changes) ∨
    (method = DeleteNode ∧ ∃ (geometry : QgsAbstractGeometry F) (n : Int) (p1 p3 : QgsPoint F),
      fixError lib chk featurePools error method changes =
        fixDeleteNode chk featurePools error method changes geometry n p1 p3) ∨
    (method ≠ NoChange ∧ method ≠ DeleteNode ∧
      (fixError lib chk featurePools error method changes).error =
        error.setFixFailed "Unknown method" ∧
      (fixError lib chk featurePools error method changes).changes = changes) := by
  unfold fixError
  dsimp only
  split
  · exact Or.inl ⟨rfl, rfl⟩
  · split
    · exact Or.inl ⟨rfl, rfl⟩
    · split
      · exact Or.inl ⟨rfl, rfl⟩
      · split
        · exact Or.inl ⟨rfl, rfl⟩
        · split
          · exact Or.inl ⟨rfl, rfl⟩
          · split
            · rename_i hm
              exact Or.inr (Or.inl ⟨hm, rfl, rfl⟩)
            · split
              · rename_i hm
                exact Or.inr (Or.inr (Or.inl ⟨hm, _, _, _, _, rfl⟩))
              · rename_i hn hd
                exact Or.inr (Or.inr (Or.inr ⟨hn, hd, rfl, rfl⟩))

/-! ## C14: every call ends in exactly one of the three statuses -/

/-- C14: for every error record, method, feature pools and change accumulator, the record
that `fixError` leaves behind is the given record after exactly one of `setObsolete`,
`setFixed( method )` or `setFixFailed( reason )` with one of the three reasons of the
source, so its status is obsolete, fixed or fix-failed and never pending; `fixError` is
a total function, so every call returns. -/
theorem fixError_sets_status {F : Type} [LinearOrderedField F] (lib : LibM F)
    (chk : QgsGeometryAngleCheck F) (featurePools : FeaturePools F)
    (error : QgsGeometryCheckError F) (method : Int) (changes : Changes) :
    ((fixError lib chk featurePools error method changes).error = error.setObsolete ∨
      (fixError lib chk featurePools error method changes).error = error.setFixed method ∨
      (fixError lib chk featurePools error method changes).error =
        error.setFixFailed "Resulting geometry is degenerate" ∨
      (fixError lib chk featurePools error method changes).error =
        error.setFixFailed "Failed to delete vertex" ∨
      (fixError lib chk featurePools error method changes).error =
        error.setFixFailed "Unknown method") ∧
    ((fixError lib chk featurePools error method changes).error.status = Status.StatusObsolete ∨
      (fixError lib chk featurePools error method changes).error.status = Status.StatusFixed ∨
      (fixError lib chk featurePools error method changes).error.status =
        Status.StatusFixFailed) ∧
    (fixError lib chk featurePools error method changes).error.status ≠ Status.StatusPending := by
  have hform : (fixError lib chk featurePools error method changes).error = error.setObsolete ∨
      (fixError lib chk featurePools error method changes).error = error.setFixed method ∨
      (fixError lib chk featurePools error method changes).error =
        error.setFixFailed "Resulting geometry is degenerate" ∨
      (fixError lib chk featurePools error method changes).error =
        error.setFixFailed "Failed to delete vertex" ∨
      (fixError lib chk featurePools error method changes).error =
        error.setFixFailed "Unknown method" := by
    rcases fixError_cases lib chk featurePools error method changes with
      ⟨h, _⟩ | ⟨_, h, _⟩ | ⟨_, geometry, n, p1, p3, h⟩ | ⟨_, _, h, _⟩
    · exact Or.inl h
    · exact Or.inr (Or.inl h)
    · rw [h]
      rcases fixDeleteNode_cases chk featurePools error method changes geometry n p1 p3 with
        ⟨h1, _⟩ | ⟨h1, _⟩ | ⟨h1, _⟩ | ⟨h1, _⟩
      · exact Or.inr (Or.inr (Or.inl h1))
      · exact Or.inr (Or.inr (Or.inr (Or.inl h1)))
      · exact Or.inr (Or.inl h1)
      · exact Or.inr (Or.inl h1)
    · exact Or.inr (Or.inr (Or.inr (Or.inr h)))
  have hstatus : (fixError lib chk featurePools error method changes).error.status =
        Status.StatusObsolete ∨
      (fixError lib chk featurePools error method changes).error.status = Status.StatusFixed ∨
      (fixError lib chk featurePools error method changes).error.status =
        Status.StatusFixFailed := by
    rcases hform with h | h | h | h | h
    · exact Or.inl (by rw [h]; rfl)
    · exact Or.inr (Or.inl (by rw [h]; rfl))
    · exact Or.inr (Or.inr (by rw [h]; rfl))
    · exact Or.inr (Or.inr (by rw [h]; rfl))
    · exact Or.inr (Or.inr (by rw [h]; rfl))
  refine ⟨hform, hstatus, ?_⟩
  rcases hstatus with h | h | h <;> rw [h] <;> decide

/-! ## C15: a record that already has a terminal status -/

/-- C15, refuted as stated: a record of the spike at vertex 1 of the closed ring (0,0),
(10,0), (5,0), (5,5) that is already obsolete ends fixed when `fixError` runs on it with
the no-change method. -/
theorem obsolete_record_fixed_again :
    ((pendingError (⟨10, 0, 0⟩ : QgsPoint ℝ) ⟨0, 0, 1⟩ 0).setObsolete).status =
      Status.StatusObsolete ∧
    (fixError (LibM.mk Real.sqrt Real.arccos Real.pi) ⟨5, 1⟩
        (singleFeaturePool (singleRing (spikeRing ℝ)))
        ((pendingError ⟨10, 0, 0⟩ ⟨0, 0, 1⟩ 0).setObsolete) NoChange noChanges).error.status =
      Status.StatusFixed := by
  have hp : passesRevalidation (LibM.mk Real.sqrt Real.arccos Real.pi) ⟨5, 1⟩
      (singleFeaturePool (singleRing (spikeRing ℝ)))
      ((pendingError ⟨10, 0, 0⟩ ⟨0, 0, 1⟩ 0).setObsolete) (singleRing (spikeRing ℝ)) :=
    spike_passes
  refine ⟨rfl, ?_⟩
  rw [fixError_of_passes _ _ _ _ _ _ _ hp]
  rfl

/-- C15, amended: `fixError` does not read the status a record already has: whatever that
status is, the call sets the status that the feature pools, the vertex address, the method
and the configuration determine, and that status is obsolete, fixed or fix-failed, never
pending. -/
theorem fixError_status_ignores_previous {F : Type} [LinearOrderedField F] (lib : LibM F)
    (chk : QgsGeometryAngleCheck F) (featurePools : FeaturePools F)
    (error : QgsGeometryCheckError F) (method : Int) (changes : Changes) (s : Status) :
    (fixError lib chk featurePools { error with status := s } method changes).error.status =
      (fixError lib chk featurePools error method changes).error.status ∧
    (fixError lib chk featurePools { error with status := s } method changes).error.status ≠
      Status.StatusPending := by
  refine ⟨fixError_status_indep lib chk featurePools error method changes s, ?_⟩
  rw [fixError_status_indep lib chk featurePools error method changes s]
  rcases fixError_cases lib chk featurePools error method changes with
    ⟨h, _⟩ | ⟨_, h, _⟩ | ⟨_, geometry, n, p1, p3, h⟩ | ⟨_, _, h, _⟩
  · rw [h]
    exact fun hc => Status.noConfusion hc
  · rw [h]
    exact fun hc => Status.noConfusion hc
  · rw [h]
    rcases fixDeleteNode_status chk featurePools error method changes geometry n p1 p3 with
      h1 | h1
    · rw [h1]
      exact fun hc => Status.noConfusion hc
    · rw [h1]
      exact fun hc => Status.noConfusion hc
  · rw [h]
    exact fun hc => Status.noConfusion hc

/-! ## C20: the frame of the change accumulator -/

/-- C20: after every `fixError` call the change accumulator differs from the one before at
most at the entry of the layer id and feature id of the error record; there the new
sequence is the old one followed by 0, 1 or 2 records, all of them node-removed records of
the ring of the error, and records are added only when the method is `DeleteNode` and the
record ends fixed. -/
theorem fixError_changes_frame {F : Type} [LinearOrderedField F] (lib : LibM F)
    (chk : QgsGeometryAngleCheck F) (featurePools : FeaturePools F)
    (error : QgsGeometryCheckError F) (method : Int) (changes : Changes) :
    (∀ (l : String) (f : Int), ¬ (l = error.layerId ∧ f = error.featureId) →
      (fixError lib chk featurePools error method changes).changes l f = changes l f) ∧
    ∃ added : List Change,
      (fixError lib chk featurePools error method changes).changes error.layerId
          error.featureId = changes error.layerId error.featureId ++ added ∧
      added.length ≤ 2 ∧
      (∀ c ∈ added, c.what = ChangeWhat.ChangeNode ∧ c.type = ChangeType.ChangeRemoved ∧
        c.vidx.part = error.vidx.part ∧ c.vidx.ring = error.vidx.ring) ∧
      (added ≠ [] → method = DeleteNode ∧
        (fixError lib chk featurePools error method changes).error.status =
          Status.StatusFixed) := by
  have hsame : ∀ out : FixOutcome F, out.changes = changes →
      (∀ (l : String) (f : Int), ¬ (l = error.layerId ∧ f = error.featureId) →
        out.changes l f = changes l f) ∧
      ∃ added : List Change,
        out.changes error.layerId error.featureId =
          changes error.layerId error.featureId ++ added ∧
        added.length ≤ 2 ∧
        (∀ c ∈ added, c.what = ChangeWhat.ChangeNode ∧ c.type = ChangeType.ChangeRemoved ∧
          c.vidx.part = error.vidx.part ∧ c.vidx.ring = error.vidx.ring) ∧
        (added ≠ [] → method = DeleteNode ∧ out.error.status = Status.StatusFixed) := by
    intro out h
    rw [h]
    exact ⟨fun _ _ _ => rfl, [], by simp, by simp, by simp, fun hc => absurd rfl hc⟩
  rcases fixError_cases lib chk featurePools error method changes with
    ⟨_, h⟩ | ⟨_, _, h⟩ | ⟨hm, geometry, n, p1, p3, h⟩ | ⟨_, _, _, h⟩
  · exact hsame _ h
  · exact hsame _ h
  · rw [h]
    rcases fixDeleteNode_cases chk featurePools error method changes geometry n p1 p3 with
      ⟨_, h1⟩ | ⟨_, h1⟩ | ⟨he, h1⟩ | ⟨he, h1⟩
    · exact hsame _ h1
    · exact hsame _ h1
    · rw [h1]
      refine ⟨fun l f hne => by simp [Changes.append, hne],
        [⟨ChangeWhat.ChangeNode, ChangeType.ChangeRemoved, error.vidx⟩], by simp [Changes.append],
        by simp, by simp, fun _ => ⟨hm, by rw [he]; rfl⟩⟩
    · rw [h1]
      refine ⟨fun l f hne => by simp [Changes.append, hne],
        [⟨ChangeWhat.ChangeNode, ChangeType.ChangeRemoved, error.vidx⟩,
          ⟨ChangeWhat.ChangeNode, ChangeType.ChangeRemoved,
            ⟨error.vidx.part, error.vidx.ring, (error.vidx.vertex + 1).tmod n⟩⟩],
        by simp [Changes.append], by simp, by simp, fun _ => ⟨hm, by rw [he]; rfl⟩⟩
  · exact hsame _ h

/-! ## C17: the neighbour indices -/

theorem isValid_bounds {F : Type} (g : QgsAbstractGeometry F) (vidx : QgsVertexId)
    (h : vidx.isValid g = true) :
    0 ≤ vidx.part ∧ vidx.part < g.partCount ∧ 0 ≤ vidx.ring ∧
    vidx.ring < g.ringCount vidx.part ∧ 0 ≤ vidx.vertex ∧
    vidx.vertex < (polyLineSize g vidx.part vidx.ring).1 := by
  unfold QgsVertexId.isValid at h
  simp only [Bool.and_eq_true, decide_eq_true_eq] at h
  obtain ⟨⟨⟨⟨⟨a, b⟩, c⟩, d⟩, e⟩, f⟩ := h
  exact ⟨a, b, c, d, e, f⟩

/-- C17: for a ring length `n` and an index `i` with `0 <= i < n`, `n` is not 0 and the two
neighbour indices computed with the C++ remainder lie in `[0, n)`: the previous one is
`i - 1`, or `n - 1` when `i = 0`, and the next one is `i + 1`, or `0` when `i = n - 1`.
The scanner computes them only for examined indices, which satisfy `0 <= i < n`, and the
fixer only after `isValid` has answered yes, which gives `0 <= i < n` as well; for a ring
length of 0 the fixer returns with the record obsolete before any remainder is taken. -/
theorem neighbour_indices_in_range (n i : Int) (h0 : 0 ≤ i) (hn : i < n) :
    n ≠ 0 ∧
    (i - 1 + n).tmod n = (if i = 0 then n - 1 else i - 1) ∧
    (i + 1).tmod n = (if i = n - 1 then 0 else i + 1) ∧
    (0 ≤ (i - 1 + n).tmod n ∧ (i - 1 + n).tmod n < n) ∧
    (0 ≤ (i + 1).tmod n ∧ (i + 1).tmod n < n) ∧
    (∀ (nVerts : Int) (closed : Bool) (j : Int), j ∈ examinedIndices nVerts closed →
      0 ≤ j ∧ j < nVerts ∧ nVerts ≠ 0) ∧
    (∀ (F : Type) [LinearOrderedField F] (g : QgsAbstractGeometry F) (vidx : QgsVertexId),
      vidx.isValid g = true →
      0 ≤ vidx.vertex ∧ vidx.vertex < (polyLineSize g vidx.part vidx.ring).1 ∧
      (polyLineSize g vidx.part vidx.ring).1 ≠ 0) ∧
    (∀ (F : Type) [LinearOrderedField F] (lib : LibM F) (chk : QgsGeometryAngleCheck F)
      (featurePools : FeaturePools F) (error : QgsGeometryCheckError F) (method : Int)
      (changes : Changes) (geometry : QgsAbstractGeometry F),
      featurePools error.layerId error.featureId = some geometry →
      (polyLineSize geometry error.vidx.part error.vidx.ring).1 = 0 →
      fixError lib chk featurePools error method changes =
        ⟨error.setObsolete, changes, featurePools, []⟩) := by
  have hprev : (i - 1 + n).tmod n = (if i = 0 then n - 1 else i - 1) := by
    rw [Int.tmod_eq_emod (by omega) (by omega)]
    by_cases hi : i = 0
    · rw [if_pos hi]
      have e : i - 1 + n = n - 1 := by omega
      rw [e]
      exact Int.emod_eq_of_lt (by omega) (by omega)
    · rw [if_neg hi, Int.add_emod_self]
      exact Int.emod_eq_of_lt (by omega) (by omega)
  have hnext : (i + 1).tmod n = (if i = n - 1 then 0 else i + 1) := by
    rw [Int.tmod_eq_emod (by omega) (by omega)]
    by_cases hi : i = n - 1
    · rw [if_pos hi]
      have e : i + 1 = n := by omega
      rw [e]
      exact Int.emod_self
    · rw [if_neg hi]
      exact Int.emod_eq_of_lt (by omega) (by omega)
  refine ⟨by omega, hprev, hnext, ?_, ?_, ?_, ?_, ?_⟩
  · rw [hprev]
    split <;> omega
  · rw [hnext]
    split <;> omega
  · intro nVerts closed j hj
    rw [mem_examinedIndices] at hj
    obtain ⟨h3, hr⟩ := hj
    unfold inCheckableRange at hr
    split at hr <;> omega
  · intro F _ g vidx hv
    obtain ⟨_, _, _, _, hv0, hvn⟩ := isValid_bounds g vidx hv
    exact ⟨hv0, hvn, by omega⟩
  · intro F _ lib chk featurePools error method changes geometry hg hzero
    exact fixError_stale lib chk featurePools error method changes
      (Or.inr ⟨geometry, hg, Or.inr (Or.inl hzero)⟩)

/-- Witness of C17: index 0 of a ring of 4 vertices has the neighbours 3 and 1. -/
theorem neighbour_indices_in_range_witness :
    ((0 : Int) - 1 + 4).tmod 4 = (if (0 : Int) = 0 then 4 - 1 else 0 - 1) ∧
    ((0 : Int) + 1).tmod 4 = (if (0 : Int) = 4 - 1 then 0 else 0 + 1) :=
  ⟨(neighbour_indices_in_range 4 0 (by decide) (by decide)).2.1,
    (neighbour_indices_in_range 4 0 (by decide) (by decide)).2.2.1⟩

/-! ## C18: the fixer on vertices that the scanner never checks -/

theorem hook_passes :
    passesRevalidation (LibM.mk Real.sqrt Real.arccos Real.pi) ⟨5, 1⟩
      (singleFeaturePool (singleRing (hookLine ℝ))) (pendingError ⟨10, 0, 0⟩ ⟨0, 0, 0⟩ 0)
      (singleRing (hookLine ℝ)) := by
  have e1 : neighbourP1 (singleRing (hookLine ℝ)) ⟨0, 0, 0⟩ = ⟨5, 0, 0⟩ := rfl
  have e2 : (singleRing (hookLine ℝ)).vertexAt ⟨0, 0, 0⟩ = ⟨10, 0, 0⟩ := rfl
  have e3 : neighbourP3 (singleRing (hookLine ℝ)) ⟨0, 0, 0⟩ = ⟨0, 0, 0⟩ := rfl
  exact ⟨rfl, rfl, by decide, 0, (angleAt_congr _ e1 e2 e3).trans
    (real_angleAt_spike _ _ _ rfl rfl (by norm_num) (by norm_num)), by norm_num⟩

theorem shortLine_passes :
    passesRevalidation (LibM.mk Real.sqrt Real.arccos Real.pi) ⟨5, 1⟩
      (singleFeaturePool (singleRing (shortLine ℝ))) (pendingError ⟨10, 0, 0⟩ ⟨0, 0, 0⟩ 0)
      (singleRing (shortLine ℝ)) := by
  have e1 : neighbourP1 (singleRing (shortLine ℝ)) ⟨0, 0, 0⟩ = ⟨0, 0, 0⟩ := rfl
  have e2 : (singleRing (shortLine ℝ)).vertexAt ⟨0, 0, 0⟩ = ⟨10, 0, 0⟩ := rfl
  have e3 : neighbourP3 (singleRing (shortLine ℝ)) ⟨0, 0, 0⟩ = ⟨0, 0, 0⟩ := rfl
  exact ⟨rfl, rfl, by decide, 0, (angleAt_congr _ e1 e2 e3).trans
    (real_angleAt_spike _ _ _ rfl rfl (by norm_num) (by norm_num)), by norm_num⟩

/-- C18, evaluated at the failing inputs: for the first vertex of the open ring (10,0),
(0,0), (5,0), which the scanner never examines, `fixError` takes the last vertex (5,0) as
previous neighbour, finds an angle below the threshold, marks the record fixed with
`NoChange` and deletes the vertex with `DeleteNode`; for the first vertex of the open ring
(10,0), (0,0) of 2 vertices it marks the record fixed with `NoChange`. -/
theorem fixer_repairs_unchecked_vertex :
    polyLineSize (singleRing (hookLine ℝ)) 0 0 = (3, false) ∧
    (0 : Int) ∉ examinedIndices 3 false ∧
    neighbourP1 (singleRing (hookLine ℝ)) ⟨0, 0, 0⟩ = ⟨5, 0, 0⟩ ∧
    (fixError (LibM.mk Real.sqrt Real.arccos Real.pi) ⟨5, 1⟩
        (singleFeaturePool (singleRing (hookLine ℝ))) (pendingError ⟨10, 0, 0⟩ ⟨0, 0, 0⟩ 0)
        NoChange noChanges).error.status = Status.StatusFixed ∧
    fixError (LibM.mk Real.sqrt Real.arccos Real.pi) ⟨5, 1⟩
        (singleFeaturePool (singleRing (hookLine ℝ))) (pendingError ⟨10, 0, 0⟩ ⟨0, 0, 0⟩ 0)
        DeleteNode noChanges =
      ⟨(pendingError ⟨10, 0, 0⟩ ⟨0, 0, 0⟩ 0).setFixed DeleteNode,
        noChanges.append "layer" 7 ⟨ChangeWhat.ChangeNode, ChangeType.ChangeRemoved, ⟨0, 0, 0⟩⟩,
        (singleFeaturePool (singleRing (hookLine ℝ))).updateFeature "layer" 7
          (singleRing (hookLineCut ℝ)),
        [Effect.deleteVertexCall ⟨0, 0, 0⟩ true,
          Effect.updateFeatureCall "layer" 7 (singleRing (hookLineCut ℝ))]⟩ ∧
    polyLineSize (singleRing (shortLine ℝ)) 0 0 = (2, false) ∧
    examinedIndices 2 false = [] ∧
    (fixError (LibM.mk Real.sqrt Real.arccos Real.pi) ⟨5, 1⟩
        (singleFeaturePool (singleRing (shortLine ℝ))) (pendingError ⟨10, 0, 0⟩ ⟨0, 0, 0⟩ 0)
        NoChange noChanges).error.status = Status.StatusFixed := by
  refine ⟨rfl, by decide, rfl, ?_, ?_, rfl, by decide, ?_⟩
  · rw [fixError_of_passes _ _ _ _ _ _ _ hook_passes]
    rfl
  · have e1 : neighbourP1 (singleRing (hookLine ℝ)) ⟨0, 0, 0⟩ = ⟨5, 0, 0⟩ := rfl
    have e3 : neighbourP3 (singleRing (hookLine ℝ)) ⟨0, 0, 0⟩ = ⟨0, 0, 0⟩ := rfl
    have hfar : ¬ (sqrDistance2D (neighbourP1 (singleRing (hookLine ℝ)) ⟨0, 0, 0⟩)
        (neighbourP3 (singleRing (hookLine ℝ)) ⟨0, 0, 0⟩) < (1 : ℝ) ∧
        canDeleteVertex (singleRing (hookLineCut ℝ)) 0 0 = true) := by
      rw [e1, e3]
      norm_num [sqrDistance2D]
    have hfix := fixError_of_passes _ _ _ _ DeleteNode noChanges _ hook_passes
    rw [if_neg (by decide), if_pos rfl] at hfix
    exact hfix.trans
      (fixDeleteNode_single (⟨5, 1⟩ : QgsGeometryAngleCheck ℝ)
        (singleFeaturePool (singleRing (hookLine ℝ))) (pendingError ⟨10, 0, 0⟩ ⟨0, 0, 0⟩ 0)
        DeleteNode noChanges (singleRing (hookLine ℝ)) (singleRing (hookLineCut ℝ))
        _ _ _ rfl rfl hfar)
  · rw [fixError_of_passes _ _ _ _ _ _ _ shortLine_passes]
    rfl

/-! ## C19: scanner and fixer agree on an unmodified geometry -/

theorem isValid_of_scanned {F : Type} (g : QgsAbstractGeometry F) (iPart iRing iVert : Int)
    (hP : iPart ∈ forRange 0 g.partCount) (hR : iRing ∈ forRange 0 (g.ringCount iPart))
    (hV : iVert ∈ examinedIndices (polyLineSize g iPart iRing).1 (polyLineSize g iPart iRing).2) :
    (QgsVertexId.mk iPart iRing iVert).isValid g = true ∧ (polyLineSize g iPart iRing).1 ≠ 0 := by
  rw [mem_forRange] at hP hR
  rw [mem_examinedIndices] at hV
  obtain ⟨h3, hr⟩ := hV
  have hb : 0 ≤ iVert ∧ iVert < (polyLineSize g iPart iRing).1 := by
    unfold inCheckableRange at hr
    split at hr <;> omega
  refine ⟨?_, by omega⟩
  unfold QgsVertexId.isValid
  simp only [Bool.and_eq_true, decide_eq_true_eq]
  exact ⟨⟨⟨⟨⟨hP.1, hP.2⟩, hR.1⟩, hR.2⟩, hb.1⟩, hb.2⟩

/-- C19: every error that the scanner returns belongs to one of the scanned features, and
as long as the pools hold that feature with the geometry that was scanned, `fixError`
(same library, same threshold) recomputes at the stored address the angle stored in the
error, from the vertex stored as location and the same two neighbours; the error passes
the re-validation, so that no method marks it obsolete, and `NoChange` marks it fixed. -/
theorem scanner_fixer_agree {F : Type} [LinearOrderedField F] (lib : LibM F)
    (chk : QgsGeometryAngleCheck F) (layerFeatures : List (LayerFeature F))
    (e : QgsGeometryCheckError F) (he : e ∈ collectErrors lib chk layerFeatures []) :
    ∃ lf ∈ layerFeatures, e.layerId = lf.layerId ∧ e.featureId = lf.featureId ∧
      e.location = lf.geometry.vertexAt e.vidx ∧
      recomputedAngle lib lf.geometry e.vidx = some e.value ∧
      ∀ (featurePools : FeaturePools F) (method : Int) (changes : Changes),
        featurePools e.layerId e.featureId = some lf.geometry →
        passesRevalidation lib chk featurePools e lf.geometry ∧
        (fixError lib chk featurePools e method changes).error.status ≠
          Status.StatusObsolete ∧
        fixError lib chk featurePools e NoChange changes =
          ⟨e.setFixed NoChange, changes, featurePools, []⟩ ∧
        (fixError lib chk featurePools e NoChange changes).error.status =
          Status.StatusFixed := by
  rw [mem_collectErrors] at he
  rcases he with he | ⟨lf, hlf, iPart, hP, iRing, hR, iVert, hV, hmem⟩
  · simp at he
  · rw [mem_checkVertex] at hmem
    obtain ⟨a, ha, hlt, rfl⟩ := hmem
    obtain ⟨hvalid, hnz⟩ := isValid_of_scanned lf.geometry iPart iRing iVert hP hR hV
    have hre : recomputedAngle lib lf.geometry ⟨iPart, iRing, iVert⟩ = some a := ha
    refine ⟨lf, hlf, rfl, rfl, rfl, hre, ?_⟩
    intro featurePools method changes hpool
    have hpass : passesRevalidation lib chk featurePools
        ⟨lf.layerId, lf.featureId, lf.geometry.vertexAt ⟨iPart, iRing, iVert⟩,
          ⟨iPart, iRing, iVert⟩, a, Status.StatusPending, ""⟩ lf.geometry :=
      ⟨hpool, hvalid, hnz, a, hre, hlt⟩
    have hno : fixError lib chk featurePools
        ⟨lf.layerId, lf.featureId, lf.geometry.vertexAt ⟨iPart, iRing, iVert⟩,
          ⟨iPart, iRing, iVert⟩, a, Status.StatusPending, ""⟩ NoChange changes =
        ⟨QgsGeometryCheckError.setFixed
          ⟨lf.layerId, lf.featureId, lf.geometry.vertexAt ⟨iPart, iRing, iVert⟩,
            ⟨iPart, iRing, iVert⟩, a, Status.StatusPending, ""⟩ NoChange,
          changes, featurePools, []⟩ := by
      rw [fixError_of_passes lib chk featurePools _ NoChange changes lf.geometry hpass,
        if_pos rfl]
    refine ⟨hpass, ?_, hno, ?_⟩
    · intro hobs
      exact (fixError_obsolete_iff lib chk featurePools _ method changes lf.geometry hpool).1
        hobs hpass
    · rw [hno]
      rfl

theorem zigzag_error_scanned :
    pendingError (⟨10, 0, 0⟩ : QgsPoint ℝ) ⟨0, 0, 1⟩ 0 ∈
      collectErrors (LibM.mk Real.sqrt Real.arccos Real.pi) ⟨5, 1⟩
        [⟨"layer", 7, singleRing (zigzagLine ℝ)⟩] [] := by
  rw [mem_collectErrors]
  refine Or.inr ⟨_, List.mem_singleton.2 rfl, 0, ?_, 0, ?_, 1, ?_, ?_⟩
  · rw [mem_forRange]
    decide
  · rw [mem_forRange]
    decide
  · rw [mem_examinedIndices]
    decide
  · rw [mem_checkVertex]
    have e1 : (singleRing (zigzagLine ℝ)).vertexAt ⟨0, 0,
        ((1 : Int) - 1 + (polyLineSize (singleRing (zigzagLine ℝ)) 0 0).1).tmod
          (polyLineSize (singleRing (zigzagLine ℝ)) 0 0).1⟩ = ⟨7, 0, 0⟩ := rfl
    have e2 : (singleRing (zigzagLine ℝ)).vertexAt ⟨0, 0, 1⟩ = ⟨10, 0, 0⟩ := rfl
    have e3 : (singleRing (zigzagLine ℝ)).vertexAt ⟨0, 0,
        ((1 : Int) + 1).tmod (polyLineSize (singleRing (zigzagLine ℝ)) 0 0).1⟩ =
          ⟨5, 0, 0⟩ := rfl
    exact ⟨0, (angleAt_congr _ e1 e2 e3).trans
      (real_angleAt_spike _ _ _ rfl rfl (by norm_num) (by norm_num)), by norm_num, rfl⟩

/-- Witness of C19: the error that the scanner returns for vertex 1 of the open ring (7,0),
(10,0), (5,0), (8,0). -/
theorem scanner_fixer_agree_witness :
    pendingError (⟨10, 0, 0⟩ : QgsPoint ℝ) ⟨0, 0, 1⟩ 0 ∈
      collectErrors (LibM.mk Real.sqrt Real.arccos Real.pi) ⟨5, 1⟩
        [⟨"layer", 7, singleRing (zigzagLine ℝ)⟩] [] ∧
    ∃ lf ∈ [(⟨"layer", 7, singleRing (zigzagLine ℝ)⟩ : LayerFeature ℝ)],
      (pendingError (⟨10, 0, 0⟩ : QgsPoint ℝ) ⟨0, 0, 1⟩ 0).layerId = lf.layerId ∧
      (pendingError (⟨10, 0, 0⟩ : QgsPoint ℝ) ⟨0, 0, 1⟩ 0).featureId = lf.featureId ∧
      (pendingError (⟨10, 0, 0⟩ : QgsPoint ℝ) ⟨0, 0, 1⟩ 0).location =
        lf.geometry.vertexAt (pendingError (⟨10, 0, 0⟩ : QgsPoint ℝ) ⟨0, 0, 1⟩ 0).vidx ∧
      recomputedAngle (LibM.mk Real.sqrt Real.arccos Real.pi) lf.geometry
        (pendingError (⟨10, 0, 0⟩ : QgsPoint ℝ) ⟨0, 0, 1⟩ 0).vidx =
        some (pendingError (⟨10, 0, 0⟩ : QgsPoint ℝ) ⟨0, 0, 1⟩ 0).value ∧
      ∀ (featurePools : FeaturePools ℝ) (method : Int) (changes : Changes),
        featurePools (pendingError (⟨10, 0, 0⟩ : QgsPoint ℝ) ⟨0, 0, 1⟩ 0).layerId
          (pendingError (⟨10, 0, 0⟩ : QgsPoint ℝ) ⟨0, 0, 1⟩ 0).featureId = some lf.geometry →
        passesRevalidation (LibM.mk Real.sqrt Real.arccos Real.pi) ⟨5, 1⟩ featurePools
          (pendingError ⟨10, 0, 0⟩ ⟨0, 0, 1⟩ 0) lf.geometry ∧
        (fixError (LibM.mk Real.sqrt Real.arccos Real.pi) ⟨5, 1⟩ featurePools
          (pendingError ⟨10, 0, 0⟩ ⟨0, 0, 1⟩ 0) method changes).error.status ≠
          Status.StatusObsolete ∧
        fixError (LibM.mk Real.sqrt Real.arccos Real.pi) ⟨5, 1⟩ featurePools
          (pendingError ⟨10, 0, 0⟩ ⟨0, 0, 1⟩ 0) NoChange changes =
          ⟨(pendingError ⟨10, 0, 0⟩ ⟨0, 0, 1⟩ 0).setFixed NoChange, changes, featurePools, []⟩ ∧
        (fixError (LibM.mk Real.sqrt Real.arccos Real.pi) ⟨5, 1⟩ featurePools
          (pendingError ⟨10, 0, 0⟩ ⟨0, 0, 1⟩ 0) NoChange changes).error.status =
          Status.StatusFixed :=
  ⟨zigzag_error_scanned,
    scanner_fixer_agree (LibM.mk Real.sqrt Real.arccos Real.pi) ⟨5, 1⟩
      [⟨"layer", 7, singleRing (zigzagLine ℝ)⟩] (pendingError ⟨10, 0, 0⟩ ⟨0, 0, 1⟩ 0)
      zigzag_error_scanned⟩

/-! ## The argument of arccos in exact arithmetic -/

theorem exact_sqrt_pos {F : Type} [LinearOrderedField F] (lib : LibM F) (hex : ExactLibM lib)
    (s : F) (hs : 0 < s) : 0 < lib.sqrt s := by
  obtain ⟨h0, hsq⟩ := hex.1 s (le_of_lt hs)
  rcases lt_or_eq_of_le h0 with h | h
  · exact h
  · rw [← h, mul_zero] at hsq
    exact absurd hsq (ne_of_lt hs)

theorem exact_sqrtZeroIff {F : Type} [LinearOrderedField F] (lib : LibM F)
    (hex : ExactLibM lib) : SqrtZeroIff lib := by
  intro s hs
  constructor
  · intro h
    have hsq := (hex.1 s hs).2
    rw [h, mul_zero] at hsq
    exact hsq.symm
  · intro h
    subst h
    have hsq := (hex.1 0 (le_refl 0)).2
    exact mul_self_eq_zero.1 hsq

theorem sum_squares_pos {F : Type} [LinearOrderedField F] (p q : QgsPoint F)
    (h : nonZeroVector p q) :
    0 < (q.x - p.x) * (q.x - p.x) + (q.y - p.y) * (q.y - p.y) := by
  rcases h with h | h
  · have := mul_self_pos.2 (sub_ne_zero.2 h)
    nlinarith [mul_self_nonneg (q.y - p.y)]
  · have := mul_self_pos.2 (sub_ne_zero.2 h)
    nlinarith [mul_self_nonneg (q.x - p.x)]

theorem normalisedDot_bounds {F : Type} [LinearOrderedField F] (lib : LibM F)
    (hex : ExactLibM lib) (p1 p2 p3 : QgsPoint F)
    (h1 : nonZeroVector p2 p1) (h3 : nonZeroVector p2 p3) :
    -1 ≤ normalisedDot lib p1 p2 p3 ∧ normalisedDot lib p1 p2 p3 ≤ 1 := by
  have hq1 := sum_squares_pos p2 p1 h1
  have hq3 := sum_squares_pos p2 p3 h3
  have hs1 := exact_sqrt_pos lib hex _ hq1
  have hs3 := exact_sqrt_pos lib hex _ hq3
  have hm1 := (hex.1 _ (le_of_lt hq1)).2
  have hm3 := (hex.1 _ (le_of_lt hq3)).2
  unfold normalisedDot QgsVector.dot QgsVector.length
  simp only
  set a := p1.x - p2.x
  set b := p1.y - p2.y
  set c := p3.x - p2.x
  set d := p3.y - p2.y
  set s1 := lib.sqrt (a * a + b * b)
  set s3 := lib.sqrt (c * c + d * d)
  have hpos : 0 < s1 * s3 := mul_pos hs1 hs3
  have e : a / s1 * (c / s3) + b / s1 * (d / s3) = (a * c + b * d) / (s1 * s3) := by
    rw [div_mul_div_comm, div_mul_div_comm, ← add_div]
  rw [e]
  have hsq : (a * c + b * d) ^ 2 ≤ (s1 * s3) ^ 2 := by
    have hprod : (s1 * s3) ^ 2 = (a * a + b * b) * (c * c + d * d) := by
      have : (s1 * s3) ^ 2 = (s1 * s1) * (s3 * s3) := by ring
      rw [this, hm1, hm3]
    rw [hprod]
    nlinarith [sq_nonneg (a * d - b * c)]
  obtain ⟨hlo, hhi⟩ := abs_le_of_sq_le_sq' hsq (le_of_lt hpos)
  constructor
  · rw [le_div_iff₀ hpos]
    linarith
  · rw [div_le_one hpos]
    exact hhi

theorem angleAt_unclamped {F : Type} [LinearOrderedField F] (lib : LibM F)
    (p1 p2 p3 : QgsPoint F)
    (h1 : (QgsVector.mk (p1.x - p2.x) (p1.y - p2.y)).length lib ≠ 0)
    (h3 : (QgsVector.mk (p3.x - p2.x) (p3.y - p2.y)).length lib ≠ 0) :
    angleAt lib p1 p2 p3 = some (lib.acos (normalisedDot lib p1 p2 p3) / lib.pi * 180) := by
  unfold angleAt QgsVector.normalized
  simp only [h1, h3, if_false]
  rfl

/-- In exact arithmetic: for three points with both vectors from `p2` non-zero, the angle
that the scanner and the fixer compute is `acos` of the dot product of the two normalised
vectors, passed on without clamping, divided by `pi` and multiplied by 180 (this much for
every math library in which the two lengths are not zero).  With an exact math library
the dot product lies in [-1, 1], so clamping it changes nothing, the angle equals the
clamped form of the specification and lies in [0, 180].  In `double` the dot product can
leave [-1, 1]. -/
theorem angleAt_exact_range {F : Type} [LinearOrderedField F] (lib : LibM F)
    (p1 p2 p3 : QgsPoint F) (hex : ExactLibM lib)
    (h1 : nonZeroVector p2 p1) (h3 : nonZeroVector p2 p3) :
    angleAt lib p1 p2 p3 = some (lib.acos (normalisedDot lib p1 p2 p3) / lib.pi * 180) ∧
    (-1 ≤ normalisedDot lib p1 p2 p3 ∧ normalisedDot lib p1 p2 p3 ≤ 1) ∧
    clampUnit (normalisedDot lib p1 p2 p3) = normalisedDot lib p1 p2 p3 ∧
    angleAt lib p1 p2 p3 = some (clampedAngle lib p1 p2 p3) ∧
    (0 ≤ lib.acos (normalisedDot lib p1 p2 p3) / lib.pi * 180 ∧
      lib.acos (normalisedDot lib p1 p2 p3) / lib.pi * 180 ≤ 180) ∧
    (∀ lib1 : LibM F,
      (QgsVector.mk (p1.x - p2.x) (p1.y - p2.y)).length lib1 ≠ 0 →
      (QgsVector.mk (p3.x - p2.x) (p3.y - p2.y)).length lib1 ≠ 0 →
      angleAt lib1 p1 p2 p3 =
        some (lib1.acos (normalisedDot lib1 p1 p2 p3) / lib1.pi * 180)) := by
  have hb := normalisedDot_bounds lib hex p1 p2 p3 h1 h3
  have hl1 : (QgsVector.mk (p1.x - p2.x) (p1.y - p2.y)).length lib ≠ 0 :=
    ne_of_gt (exact_sqrt_pos lib hex _ (sum_squares_pos p2 p1 h1))
  have hl3 : (QgsVector.mk (p3.x - p2.x) (p3.y - p2.y)).length lib ≠ 0 :=
    ne_of_gt (exact_sqrt_pos lib hex _ (sum_squares_pos p2 p3 h3))
  have hangle := angleAt_unclamped lib p1 p2 p3 hl1 hl3
  have hclamp : clampUnit (normalisedDot lib p1 p2 p3) = normalisedDot lib p1 p2 p3 := by
    unfold clampUnit
    rw [min_eq_right hb.2, max_eq_right hb.1]
  have hac := hex.2.1 _ hb.1 hb.2
  have hpi := hex.2.2
  refine ⟨hangle, hb, hclamp, ?_, ⟨?_, ?_⟩, fun lib1 g1 g3 => angleAt_unclamped lib1 p1 p2 p3 g1 g3⟩
  · rw [hangle]
    have hc : clampedAngle lib p1 p2 p3 =
        lib.acos (clampUnit (normalisedDot lib p1 p2 p3)) / lib.pi * 180 := rfl
    rw [hc, hclamp]
  · exact mul_nonneg (div_nonneg hac.1 (le_of_lt hpi)) (by norm_num)
  · have h1le : lib.acos (normalisedDot lib p1 p2 p3) / lib.pi ≤ 1 :=
      (div_le_one hpi).2 hac.2
    calc lib.acos (normalisedDot lib p1 p2 p3) / lib.pi * 180 ≤ 1 * 180 :=
          mul_le_mul_of_nonneg_right h1le (by norm_num)
      _ = 180 := one_mul _

theorem real_exactLibM : ExactLibM (LibM.mk Real.sqrt Real.arccos Real.pi) :=
  ⟨fun s hs => ⟨Real.sqrt_nonneg s, Real.mul_self_sqrt hs⟩,
    fun x _ _ => ⟨Real.arccos_nonneg x, Real.arccos_le_pi x⟩, Real.pi_pos⟩

/-- The statement of `angleAt_exact_range` for the angle at vertex A(0,0) of the scenario
ring, between D(0,10) and B(10,0), with the real-number math library. -/
theorem angleAt_exact_range_scenario :
    ExactLibM (LibM.mk Real.sqrt Real.arccos Real.pi) ∧
    angleAt (LibM.mk Real.sqrt Real.arccos Real.pi) (⟨0, 10, 0⟩ : QgsPoint ℝ) ⟨0, 0, 0⟩
        ⟨10, 0, 0⟩ =
      some (clampedAngle (LibM.mk Real.sqrt Real.arccos Real.pi) ⟨0, 10, 0⟩ ⟨0, 0, 0⟩
        ⟨10, 0, 0⟩) :=
  ⟨real_exactLibM,
    (angleAt_exact_range (LibM.mk Real.sqrt Real.arccos Real.pi) ⟨0, 10, 0⟩ ⟨0, 0, 0⟩
      ⟨10, 0, 0⟩ real_exactLibM (Or.inr (by norm_num)) (Or.inl (by norm_num))).2.2.2.1⟩
/-! ## The loops of the binary64 model compute `Nat.log2` and `Nat.sqrt` -/

theorem isqrtLoop_eq (n fuel : Nat) : ∀ lo hi : Nat, lo * lo ≤ n → n < hi * hi →
    hi - lo ≤ 2 ^ fuel → isqrtLoop n fuel lo hi = Nat.sqrt n := by
  induction fuel with
  | zero =>
    intro lo hi hlo hhi hw
    have hlt : lo < hi := by
      by_contra hc
      have : hi * hi ≤ lo * lo := Nat.mul_le_mul (by omega) (by omega)
      omega
    have he : hi = lo + 1 := by
      simp at hw
      omega
    subst he
    simp only [isqrtLoop]
    exact Nat.eq_sqrt.2 ⟨hlo, hhi⟩
  | succ fuel ih =>
    intro lo hi hlo hhi hw
    have hlt : lo < hi := by
      by_contra hc
      have : hi * hi ≤ lo * lo := Nat.mul_le_mul (by omega) (by omega)
      omega
    have hp : 2 ^ (fuel + 1) = 2 * 2 ^ fuel := by ring
    rw [hp] at hw
    simp only [isqrtLoop]
    by_cases h1 : hi ≤ lo + 1
    · rw [if_pos h1]
      have he : hi = lo + 1 := by omega
      subst he
      exact Nat.eq_sqrt.2 ⟨hlo, hhi⟩
    · rw [if_neg h1]
      by_cases hm : (lo + hi) / 2 * ((lo + hi) / 2) ≤ n
      · rw [if_pos hm]
        exact ih _ _ hm hhi (by omega)
      · rw [if_neg hm]
        exact ih _ _ hlo (by omega) (by omega)

theorem isqrt_eq (n : Nat) : isqrt n = Nat.sqrt n := by
  unfold isqrt
  apply isqrtLoop_eq
  · simp
  · nlinarith
  · have : n + 1 < 2 ^ (n + 2) := by
      have := Nat.lt_two_pow (n + 2)
      omega
    omega

/-! ## Exact arithmetic is an instance of the machine translation -/

theorem exact_vertexAt {F : Type} [LinearOrderedField F] (lib : LibM F)
    (g : QgsAbstractGeometry F) (id : QgsVertexId) :
    Machine.vertexAt (exactArith lib) g id = g.vertexAt id :=
  rfl

theorem exact_normalized {F : Type} [LinearOrderedField F] (lib : LibM F) (v : QgsVector F) :
    Machine.normalized (exactArith lib) v = v.normalized lib := by
  unfold Machine.normalized QgsVector.normalized Machine.length QgsVector.length exactArith
  simp only [decide_eq_true_eq]

theorem exact_angleAt {F : Type} [LinearOrderedField F] (lib : LibM F) (p1 p2 p3 : QgsPoint F) :
    Machine.angleAt (exactArith lib) p1 p2 p3 = angleAt lib p1 p2 p3 := by
  unfold Machine.angleAt angleAt
  rw [exact_normalized, exact_normalized]
  rfl

theorem exact_checkVertex {F : Type} [LinearOrderedField F] (lib : LibM F)
    (chk : QgsGeometryAngleCheck F) (layerFeature : LayerFeature F) (iPart iRing nVerts : Int) :
    Machine.checkVertex (exactArith lib) chk layerFeature iPart iRing nVerts =
      checkVertex lib chk layerFeature iPart iRing nVerts := by
  funext errors iVert
  unfold Machine.checkVertex checkVertex
  simp only [exact_vertexAt, exact_angleAt]
  cases angleAt lib _ _ _ with
  | none => rfl
  | some angle => simp [exactArith]

theorem exact_checkRing {F : Type} [LinearOrderedField F] (lib : LibM F)
    (chk : QgsGeometryAngleCheck F) (layerFeature : LayerFeature F) (iPart : Int) :
    Machine.checkRing (exactArith lib) chk layerFeature iPart =
      checkRing lib chk layerFeature iPart := by
  funext errors iRing
  unfold Machine.checkRing checkRing
  simp only [exact_checkVertex]

theorem exact_checkPart {F : Type} [LinearOrderedField F] (lib : LibM F)
    (chk : QgsGeometryAngleCheck F) (layerFeature : LayerFeature F) :
    Machine.checkPart (exactArith lib) chk layerFeature = checkPart lib chk layerFeature := by
  funext errors iPart
  unfold Machine.checkPart checkPart
  simp only [exact_checkRing]

theorem exact_checkFeature {F : Type} [LinearOrderedField F] (lib : LibM F)
    (chk : QgsGeometryAngleCheck F) :
    Machine.checkFeature (exactArith lib) chk = checkFeature lib chk := by
  funext errors layerFeature
  unfold Machine.checkFeature checkFeature
  simp only [exact_checkPart]

/-- Over exact arithmetic the machine translation of `collectErrors` is the translation
over the ordered field. -/
theorem exact_collectErrors {F : Type} [LinearOrderedField F] (lib : LibM F)
    (chk : QgsGeometryAngleCheck F) (layerFeatures : List (LayerFeature F))
    (errors : List (QgsGeometryCheckError F)) :
    Machine.collectErrors (exactArith lib) chk layerFeatures errors =
      collectErrors lib chk layerFeatures errors := by
  unfold Machine.collectErrors collectErrors
  rw [exact_checkFeature]

theorem exact_fixDeleteNode {F : Type} [LinearOrderedField F] (lib : LibM F)
    (chk : QgsGeometryAngleCheck F) (featurePools : FeaturePools F)
    (error : QgsGeometryCheckError F) (method : Int) (changes : Changes)
    (geometry : QgsAbstractGeometry F) (n : Int) (p1 p3 : QgsPoint F) :
    Machine.fixDeleteNode (exactArith lib) chk featurePools error method changes geometry n p1 p3 =
      fixDeleteNode chk featurePools error method changes geometry n p1 p3 := by
  unfold Machine.fixDeleteNode fixDeleteNode
  have hd : (exactArith lib).lt (Machine.sqrDistance2D (exactArith lib) p1 p3) chk.tolerance = true ↔
      sqrDistance2D p1 p3 < chk.tolerance := by
    unfold Machine.sqrDistance2D sqrDistance2D exactArith
    simp only [decide_eq_true_eq]
  simp only [hd]

/-- Over exact arithmetic the machine translation of `fixError` is the translation over
the ordered field. -/
theorem exact_fixError {F : Type} [LinearOrderedField F] (lib : LibM F)
    (chk : QgsGeometryAngleCheck F) (featurePools : FeaturePools F)
    (error : QgsGeometryCheckError F) (method : Int) (changes : Changes) :
    Machine.fixError (exactArith lib) chk featurePools error method changes =
      fixError lib chk featurePools error method changes := by
  unfold Machine.fixError fixError
  simp only [exact_vertexAt, exact_angleAt, exact_fixDeleteNode]
  cases featurePools error.layerId error.featureId with
  | none => rfl
  | some geometry =>
    simp only
    split
    · rfl
    · split
      · rfl
      · cases angleAt lib _ _ _ with
        | none => rfl
        | some angle => simp [exactArith]

/-! ## Every path of the fixer over machine arithmetic -/

theorem machine_fixError_unfetched {D : Type} (ar : Arith D) (chk : QgsGeometryAngleCheck D)
    (featurePools : FeaturePools D) (error : QgsGeometryCheckError D) (method : Int)
    (changes : Changes) (hpool : featurePools error.layerId error.featureId = none) :
    Machine.fixError ar chk featurePools error method changes =
      ⟨error.setObsolete, changes, featurePools, []⟩ := by
  unfold Machine.fixError
  simp only [hpool]

theorem machine_fixError_proceeds {D : Type} (ar : Arith D) (chk : QgsGeometryAngleCheck D)
    (featurePools : FeaturePools D) (error : QgsGeometryCheckError D) (method : Int)
    (changes : Changes) (geometry : QgsAbstractGeometry D) (angle : D)
    (hpool : featurePools error.layerId error.featureId = some geometry)
    (hv : error.vidx.isValid geometry = true)
    (hn : (polyLineSize geometry error.vidx.part error.vidx.ring).1 ≠ 0)
    (ha : Machine.recomputedAngle ar geometry error.vidx = some angle)
    (hge : ar.ge angle chk.mMinAngle = false) :
    Machine.fixError ar chk featurePools error method changes =
      if method = NoChange then ⟨error.setFixed method, changes, featurePools, []⟩
      else if method = DeleteNode then
        Machine.fixDeleteNode ar chk featurePools error method changes geometry
          (polyLineSize geometry error.vidx.part error.vidx.ring).1
          (Machine.vertexAt ar geometry ⟨error.vidx.part, error.vidx.ring,
            (error.vidx.vertex - 1 + (polyLineSize geometry error.vidx.part error.vidx.ring).1).tmod
              (polyLineSize geometry error.vidx.part error.vidx.ring).1⟩)
          (Machine.vertexAt ar geometry ⟨error.vidx.part, error.vidx.ring,
            (error.vidx.vertex + 1).tmod (polyLineSize geometry error.vidx.part error.vidx.ring).1⟩)
      else ⟨error.setFixFailed "Unknown method", changes, featurePools, []⟩ := by
  unfold Machine.recomputedAngle at ha
  unfold Machine.fixError
  simp only [hpool, hv, Bool.not_true, Bool.false_eq_true, if_false, hn, ha, hge]

theorem machine_fixDeleteNode_single {D : Type} (ar : Arith D) (chk : QgsGeometryAngleCheck D)
    (featurePools : FeaturePools D) (error : QgsGeometryCheckError D) (method : Int)
    (changes : Changes) (geometry geometry1 : QgsAbstractGeometry D) (n : Int)
    (p1 p3 : QgsPoint D)
    (hcan : canDeleteVertex geometry error.vidx.part error.vidx.ring = true)
    (hdel : geometry.deleteVertex error.vidx = some geometry1)
    (hno : ¬ (ar.lt (Machine.sqrDistance2D ar p1 p3) chk.tolerance = true ∧
      canDeleteVertex geometry1 error.vidx.part error.vidx.ring = true)) :
    Machine.fixDeleteNode ar chk featurePools error method changes geometry n p1 p3 =
      ⟨error.setFixed method,
        changes.append error.layerId error.featureId
          ⟨ChangeWhat.ChangeNode, ChangeType.ChangeRemoved, error.vidx⟩,
        featurePools.updateFeature error.layerId error.featureId geometry1,
        [Effect.deleteVertexCall error.vidx true,
          Effect.updateFeatureCall error.layerId error.featureId geometry1]⟩ := by
  unfold Machine.fixDeleteNode
  simp only [hcan, Bool.not_true, Bool.false_eq_true, if_false, hdel]
  rw [if_neg hno]

/-! ## C7, amended: what decides the status after an independent deletion -/

theorem machine_angleAt_of_normalized {D : Type} (ar : Arith D) (p1 p2 p3 : QgsPoint D)
    (v21 v23 : QgsVector D)
    (h1 : Machine.normalized ar ⟨ar.sub p1.x p2.x, ar.sub p1.y p2.y⟩ = some v21)
    (h3 : Machine.normalized ar ⟨ar.sub p3.x p2.x, ar.sub p3.y p2.y⟩ = some v23) :
    Machine.angleAt ar p1 p2 p3 =
      some (ar.mul (ar.div (ar.acos (Machine.dot ar v21 v23)) ar.pi) ar.oneEighty) := by
  unfold Machine.angleAt
  simp only [h1, h3]

theorem machine_angleAt_of_zero_length {D : Type} (ar : Arith D) (p1 p2 p3 : QgsPoint D)
    (h : Machine.normalized ar ⟨ar.sub p1.x p2.x, ar.sub p1.y p2.y⟩ = none) :
    Machine.angleAt ar p1 p2 p3 = none := by
  unfold Machine.angleAt
  simp only [h]

/-- In binary64 the vector (12,5) has length 13 and its normalised form has the
coordinates 12/13 and 5/13 rounded to 53 bits. -/
theorem double_normalized_12_5 (libm : ℚ → Double) :
    Machine.normalized (doubleArith libm)
        ⟨Double.sub (Double.finite 12) (Double.finite 0),
          Double.sub (Double.finite 5) (Double.finite 0)⟩ =
      some ⟨Double.finite (4157168886803535 / 4503599627370496),
        Double.finite (6928614811339225 / 18014398509481984)⟩ := by
  have h : Machine.normalized (doubleArith fun _ => Double.nan)
        ⟨Double.sub (Double.finite 12) (Double.finite 0),
          Double.sub (Double.finite 5) (Double.finite 0)⟩ =
      some ⟨Double.finite (4157168886803535 / 4503599627370496),
        Double.finite (6928614811339225 / 18014398509481984)⟩ := by
    decide!
  exact h

/-- In binary64 the vector (24,10) has length 26 and the same normalised form as (12,5). -/
theorem double_normalized_24_10 (libm : ℚ → Double) :
    Machine.normalized (doubleArith libm)
        ⟨Double.sub (Double.finite 24) (Double.finite 0),
          Double.sub (Double.finite 10) (Double.finite 0)⟩ =
      some ⟨Double.finite (4157168886803535 / 4503599627370496),
        Double.finite (6928614811339225 / 18014398509481984)⟩ := by
  have h : Machine.normalized (doubleArith fun _ => Double.nan)
        ⟨Double.sub (Double.finite 24) (Double.finite 0),
          Double.sub (Double.finite 10) (Double.finite 0)⟩ =
      some ⟨Double.finite (4157168886803535 / 4503599627370496),
        Double.finite (6928614811339225 / 18014398509481984)⟩ := by
    decide!
  exact h

/-- In binary64 the dot product of the normalised vector of (12,5) with itself is
1 + 2^-52, the least `double` above 1. -/
theorem double_dot_12_5 (libm : ℚ → Double) :
    Machine.dot (doubleArith libm)
        ⟨Double.finite (4157168886803535 / 4503599627370496),
          Double.finite (6928614811339225 / 18014398509481984)⟩
        ⟨Double.finite (4157168886803535 / 4503599627370496),
          Double.finite (6928614811339225 / 18014398509481984)⟩ =
      Double.finite (4503599627370497 / 4503599627370496) := by
  have h : Machine.dot (doubleArith fun _ => Double.nan)
        ⟨Double.finite (4157168886803535 / 4503599627370496),
          Double.finite (6928614811339225 / 18014398509481984)⟩
        ⟨Double.finite (4157168886803535 / 4503599627370496),
          Double.finite (6928614811339225 / 18014398509481984)⟩ =
      Double.finite (4503599627370497 / 4503599627370496) := by
    decide!
  exact h

theorem double_acos_above_one (libm : ℚ → Double) :
    Double.acos libm (Double.finite (4503599627370497 / 4503599627370496)) = Double.nan := by
  unfold Double.acos
  simp only
  rw [if_neg]
  rintro ⟨_, h⟩
  norm_num at h

theorem double_angleAt_collinear_spike (libm : ℚ → Double) :
    Machine.angleAt (doubleArith libm)
        ⟨Double.finite 12, Double.finite 5, Double.finite 0⟩
        ⟨Double.finite 0, Double.finite 0, Double.finite 0⟩
        ⟨Double.finite 24, Double.finite 10, Double.finite 0⟩ = some Double.nan := by
  rw [machine_angleAt_of_normalized _ _ _ _ _ _ (double_normalized_12_5 libm)
    (double_normalized_24_10 libm), double_dot_12_5]
  have h : (doubleArith libm).acos (Double.finite (4503599627370497 / 4503599627370496)) =
      Double.nan := double_acos_above_one libm
  rw [h]
  rfl

/-- In binary64 the dot product of the normalised vectors of (1,1) and (2,2) is 1 - 2^-52,
inside the domain of `acos`: rounding does not always leave the domain. -/
theorem double_dot_diagonal (libm : ℚ → Double) :
    (Machine.normalized (doubleArith libm)
        ⟨Double.sub (Double.finite 1) (Double.finite 0),
          Double.sub (Double.finite 1) (Double.finite 0)⟩).bind
      (fun v21 => (Machine.normalized (doubleArith libm)
        ⟨Double.sub (Double.finite 2) (Double.finite 0),
          Double.sub (Double.finite 2) (Double.finite 0)⟩).map
        (fun v23 => Machine.dot (doubleArith libm) v21 v23)) =
      some (Double.finite (4503599627370495 / 4503599627370496)) := by
  have h : (Machine.normalized (doubleArith fun _ => Double.nan)
        ⟨Double.sub (Double.finite 1) (Double.finite 0),
          Double.sub (Double.finite 1) (Double.finite 0)⟩).bind
      (fun v21 => (Machine.normalized (doubleArith fun _ => Double.nan)
        ⟨Double.sub (Double.finite 2) (Double.finite 0),
          Double.sub (Double.finite 2) (Double.finite 0)⟩).map
        (fun v23 => Machine.dot (doubleArith fun _ => Double.nan) v21 v23)) =
      some (Double.finite (4503599627370495 / 4503599627370496)) := by
    decide!
  exact h

/-- With the vector multiplied by the reciprocal of its length instead of divided by the
length, the normalised vectors of (12,5) and (24,10) are the same `double`s. -/
theorem double_reciprocal_normalisation :
    Double.mul (Double.finite 12) (Double.div (Double.finite 1) (Double.finite 13)) =
      Double.div (Double.finite 12) (Double.finite 13) ∧
    Double.mul (Double.finite 5) (Double.div (Double.finite 1) (Double.finite 13)) =
      Double.div (Double.finite 5) (Double.finite 13) ∧
    Double.mul (Double.finite 24) (Double.div (Double.finite 1) (Double.finite 26)) =
      Double.div (Double.finite 12) (Double.finite 13) ∧
    Double.mul (Double.finite 10) (Double.div (Double.finite 1) (Double.finite 26)) =
      Double.div (Double.finite 5) (Double.finite 13) := by
  decide!

theorem forRange_zero_one : forRange 0 1 = [0] := by
  decide

theorem machine_collectErrors_singleRing {D : Type} (ar : Arith D)
    (chk : QgsGeometryAngleCheck D) (layerId : String) (featureId : Int) (r : Ring D)
    (errors : List (QgsGeometryCheckError D)) (n : Int) (hn : (r.vertices.length : Int) = n) :
    Machine.collectErrors ar chk [⟨layerId, featureId, singleRing r⟩] errors =
      (examinedIndices n r.closed).foldl
        (Machine.checkVertex ar chk ⟨layerId, featureId, singleRing r⟩ 0 0 n) errors := by
  subst hn
  unfold Machine.collectErrors
  simp only [List.foldl]
  unfold Machine.checkFeature
  have hp : (singleRing r).partCount = 1 := rfl
  simp only [hp, forRange_zero_one, List.foldl]
  unfold Machine.checkPart
  have hr : (singleRing r).ringCount 0 = 1 := rfl
  simp only [hr, forRange_zero_one, List.foldl]
  rfl

theorem machine_angleAt_congr {D : Type} (ar : Arith D) {p1 p2 p3 q1 q2 q3 : QgsPoint D}
    (h1 : p1 = q1) (h2 : p2 = q2) (h3 : p3 = q3) :
    Machine.angleAt ar p1 p2 p3 = Machine.angleAt ar q1 q2 q3 := by
  rw [h1, h2, h3]

theorem machine_checkVertex_of_angle {D : Type} (ar : Arith D) (chk : QgsGeometryAngleCheck D)
    (layerFeature : LayerFeature D) (iPart iRing nVerts : Int)
    (errors : List (QgsGeometryCheckError D)) (iVert : Int) (angle : D)
    (ha : Machine.angleAt ar
      (Machine.vertexAt ar layerFeature.geometry ⟨iPart, iRing, (iVert - 1 + nVerts).tmod nVerts⟩)
      (Machine.vertexAt ar layerFeature.geometry ⟨iPart, iRing, iVert⟩)
      (Machine.vertexAt ar layerFeature.geometry ⟨iPart, iRing, (iVert + 1).tmod nVerts⟩) =
        some angle)
    (hlt : ar.lt angle chk.mMinAngle = false) :
    Machine.checkVertex ar chk layerFeature iPart iRing nVerts errors iVert = errors := by
  unfold Machine.checkVertex
  simp only [ha, hlt, Bool.false_eq_true, if_false]

theorem machine_checkVertex_of_throw {D : Type} (ar : Arith D) (chk : QgsGeometryAngleCheck D)
    (layerFeature : LayerFeature D) (iPart iRing nVerts : Int)
    (errors : List (QgsGeometryCheckError D)) (iVert : Int)
    (ha : Machine.angleAt ar
      (Machine.vertexAt ar layerFeature.geometry ⟨iPart, iRing, (iVert - 1 + nVerts).tmod nVerts⟩)
      (Machine.vertexAt ar layerFeature.geometry ⟨iPart, iRing, iVert⟩)
      (Machine.vertexAt ar layerFeature.geometry ⟨iPart, iRing, (iVert + 1).tmod nVerts⟩) =
        none) :
    Machine.checkVertex ar chk layerFeature iPart iRing nVerts errors iVert = errors := by
  unfold Machine.checkVertex
  simp only [ha]

/-- In binary64 the scanner reports nothing for the open ring (12,5), (0,0), (24,10): the
angle at vertex 1 is a NaN, and `NaN < mMinAngle` is false. -/
theorem double_collectErrors_collinear (libm : ℚ → Double) :
    Machine.collectErrors (doubleArith libm) ⟨Double.finite 5, Double.finite 1⟩
      [⟨"layer", 7, singleRing (collinearSpikeLine ℚ).toDouble⟩] [] = [] := by
  rw [machine_collectErrors_singleRing (doubleArith libm) _ "layer" 7
    (collinearSpikeLine ℚ).toDouble [] 3 rfl]
  have hi : examinedIndices 3 (collinearSpikeLine ℚ).toDouble.closed = [1] := by
    decide
  rw [hi]
  simp only [List.foldl]
  have e1 : Machine.vertexAt (doubleArith fun _ => Double.nan)
      (singleRing (collinearSpikeLine ℚ).toDouble) ⟨0, 0, ((1 : Int) - 1 + 3).tmod 3⟩ =
        ⟨Double.finite 12, Double.finite 5, Double.finite 0⟩ := by
    decide!
  have e2 : Machine.vertexAt (doubleArith fun _ => Double.nan)
      (singleRing (collinearSpikeLine ℚ).toDouble) ⟨0, 0, 1⟩ =
        ⟨Double.finite 0, Double.finite 0, Double.finite 0⟩ := by
    decide!
  have e3 : Machine.vertexAt (doubleArith fun _ => Double.nan)
      (singleRing (collinearSpikeLine ℚ).toDouble) ⟨0, 0, ((1 : Int) + 1).tmod 3⟩ =
        ⟨Double.finite 24, Double.finite 10, Double.finite 0⟩ := by
    decide!
  exact machine_checkVertex_of_angle _ _ _ _ _ _ _ _ Double.nan
    ((machine_angleAt_congr (doubleArith libm) e1 e2 e3).trans
      (double_angleAt_collinear_spike libm)) rfl

/-- In binary64 the squares of 2^-600 and 2^-599 round to zero, so the vectors from (0,0)
to (2^-600,0) and to (2^-599,0) have the computed length 0 and `normalized` throws. -/
theorem double_normalized_tiny (libm : ℚ → Double) :
    Machine.normalized (doubleArith libm)
        ⟨Double.sub (Double.finite (1 / 2 ^ 600)) (Double.finite 0),
          Double.sub (Double.finite 0) (Double.finite 0)⟩ = none := by
  have h : Machine.normalized (doubleArith fun _ => Double.nan)
        ⟨Double.sub (Double.finite (1 / 2 ^ 600)) (Double.finite 0),
          Double.sub (Double.finite 0) (Double.finite 0)⟩ = none := by
    decide!
  exact h

/-- In binary64 the scanner reports nothing for the open ring (2^-600,0), (0,0),
(2^-599,0): a vector of computed length zero makes it skip vertex 1. -/
theorem double_collectErrors_tiny (libm : ℚ → Double) :
    Machine.collectErrors (doubleArith libm) ⟨Double.finite 5, Double.finite 1⟩
      [⟨"layer", 7, singleRing (tinySpikeLine ℚ).toDouble⟩] [] = [] := by
  rw [machine_collectErrors_singleRing (doubleArith libm) _ "layer" 7
    (tinySpikeLine ℚ).toDouble [] 3 rfl]
  have hi : examinedIndices 3 (tinySpikeLine ℚ).toDouble.closed = [1] := by
    decide
  rw [hi]
  simp only [List.foldl]
  have e1 : Machine.vertexAt (doubleArith fun _ => Double.nan)
      (singleRing (tinySpikeLine ℚ).toDouble) ⟨0, 0, ((1 : Int) - 1 + 3).tmod 3⟩ =
        ⟨Double.finite (1 / 2 ^ 600), Double.finite 0, Double.finite 0⟩ := by
    decide!
  have e2 : Machine.vertexAt (doubleArith fun _ => Double.nan)
      (singleRing (tinySpikeLine ℚ).toDouble) ⟨0, 0, 1⟩ =
        ⟨Double.finite 0, Double.finite 0, Double.finite 0⟩ := by
    decide!
  exact machine_checkVertex_of_throw _ _ _ _ _ _ _ _
    ((machine_angleAt_congr (doubleArith libm) e1 e2 rfl).trans
      (machine_angleAt_of_zero_length _ _ _ _ (double_normalized_tiny libm)))

/-! ## Real angles of the inputs that make `double` round out of the domain of `acos` -/

theorem real_normalized_of_length (x y l : ℝ) (hl : 0 < l) (h : x * x + y * y = l * l) :
    (QgsVector.mk x y).normalized (LibM.mk Real.sqrt Real.arccos Real.pi) =
      some ⟨x / l, y / l⟩ := by
  have hs : Real.sqrt (x * x + y * y) = l := by
    rw [h, Real.sqrt_mul_self (le_of_lt hl)]
  unfold QgsVector.normalized QgsVector.length
  simp only [hs]
  rw [if_neg (ne_of_gt hl)]

/-- With the real-number library the angle at (0,0) between (12,5) and (24,10) is 0
degrees. -/
theorem real_angleAt_collinear :
    angleAt (LibM.mk Real.sqrt Real.arccos Real.pi) (⟨12, 5, 0⟩ : QgsPoint ℝ) ⟨0, 0, 0⟩
      ⟨24, 10, 0⟩ = some 0 := by
  unfold angleAt
  rw [real_normalized_of_length (12 - 0) (5 - 0) 13 (by norm_num) (by norm_num),
    real_normalized_of_length (24 - 0) (10 - 0) 26 (by norm_num) (by norm_num)]
  have hd : (QgsVector.mk ((12 - 0 : ℝ) / 13) ((5 - 0) / 13)).dot ⟨(24 - 0) / 26, (10 - 0) / 26⟩ =
      1 := by
    unfold QgsVector.dot
    norm_num
  simp only [hd, Real.arccos_one, zero_div, zero_mul]

/-- With the real-number library the angle at (0,0) between (-12,-5) and (12,5) is 180
degrees. -/
theorem real_angleAt_straight :
    angleAt (LibM.mk Real.sqrt Real.arccos Real.pi) (⟨-12, -5, 0⟩ : QgsPoint ℝ) ⟨0, 0, 0⟩
      ⟨12, 5, 0⟩ = some 180 := by
  unfold angleAt
  rw [real_normalized_of_length (-12 - 0) (-5 - 0) 13 (by norm_num) (by norm_num),
    real_normalized_of_length (12 - 0) (5 - 0) 13 (by norm_num) (by norm_num)]
  have hd : (QgsVector.mk ((-12 - 0 : ℝ) / 13) ((-5 - 0) / 13)).dot ⟨(12 - 0) / 13, (5 - 0) / 13⟩ =
      -1 := by
    unfold QgsVector.dot
    norm_num
  simp only [hd, Real.arccos_neg_one]
  have hpi := Real.pi_pos
  congr 1
  field_simp

/-! ## C16: the argument of arccos -/

theorem collinear_error_expected :
    pendingError (⟨0, 0, 0⟩ : QgsPoint ℝ) ⟨0, 0, 1⟩ 0 ∈
      expectedDefects (LibM.mk Real.sqrt Real.arccos Real.pi) ⟨5, 1⟩
        [⟨"layer", 7, singleRing (collinearSpikeLine ℝ)⟩] := by
  have h := collectErrors_eq (LibM.mk Real.sqrt Real.arccos Real.pi) real_sqrtZeroIff ⟨5, 1⟩
    [⟨"layer", 7, singleRing (collinearSpikeLine ℝ)⟩] []
  rw [List.nil_append] at h
  rw [← h, mem_collectErrors]
  refine Or.inr ⟨_, List.mem_singleton.2 rfl, 0, ?_, 0, ?_, 1, ?_, ?_⟩
  · rw [mem_forRange]
    decide
  · rw [mem_forRange]
    decide
  · rw [mem_examinedIndices]
    decide
  · rw [mem_checkVertex]
    have e1 : (singleRing (collinearSpikeLine ℝ)).vertexAt ⟨0, 0,
        ((1 : Int) - 1 + (polyLineSize (singleRing (collinearSpikeLine ℝ)) 0 0).1).tmod
          (polyLineSize (singleRing (collinearSpikeLine ℝ)) 0 0).1⟩ = ⟨12, 5, 0⟩ := rfl
    have e2 : (singleRing (collinearSpikeLine ℝ)).vertexAt ⟨0, 0, 1⟩ = ⟨0, 0, 0⟩ := rfl
    have e3 : (singleRing (collinearSpikeLine ℝ)).vertexAt ⟨0, 0,
        ((1 : Int) + 1).tmod (polyLineSize (singleRing (collinearSpikeLine ℝ)) 0 0).1⟩ =
          ⟨24, 10, 0⟩ := rfl
    exact ⟨0, (angleAt_congr _ e1 e2 e3).trans real_angleAt_collinear, by norm_num, rfl⟩

theorem tiny_error_expected :
    pendingError (⟨0, 0, 0⟩ : QgsPoint ℝ) ⟨0, 0, 1⟩ 0 ∈
      expectedDefects (LibM.mk Real.sqrt Real.arccos Real.pi) ⟨5, 1⟩
        [⟨"layer", 7, singleRing (tinySpikeLine ℝ)⟩] := by
  have h := collectErrors_eq (LibM.mk Real.sqrt Real.arccos Real.pi) real_sqrtZeroIff ⟨5, 1⟩
    [⟨"layer", 7, singleRing (tinySpikeLine ℝ)⟩] []
  rw [List.nil_append] at h
  rw [← h, mem_collectErrors]
  refine Or.inr ⟨_, List.mem_singleton.2 rfl, 0, ?_, 0, ?_, 1, ?_, ?_⟩
  · rw [mem_forRange]
    decide
  · rw [mem_forRange]
    decide
  · rw [mem_examinedIndices]
    decide
  · rw [mem_checkVertex]
    have e1 : (singleRing (tinySpikeLine ℝ)).vertexAt ⟨0, 0,
        ((1 : Int) - 1 + (polyLineSize (singleRing (tinySpikeLine ℝ)) 0 0).1).tmod
          (polyLineSize (singleRing (tinySpikeLine ℝ)) 0 0).1⟩ = ⟨1 / 2 ^ 600, 0, 0⟩ := rfl
    have e2 : (singleRing (tinySpikeLine ℝ)).vertexAt ⟨0, 0, 1⟩ = ⟨0, 0, 0⟩ := rfl
    have e3 : (singleRing (tinySpikeLine ℝ)).vertexAt ⟨0, 0,
        ((1 : Int) + 1).tmod (polyLineSize (singleRing (tinySpikeLine ℝ)) 0 0).1⟩ =
          ⟨1 / 2 ^ 599, 0, 0⟩ := rfl
    exact ⟨0, (angleAt_congr _ e1 e2 e3).trans
      (real_angleAt_spike_right _ _ _ rfl rfl (by positivity) (by positivity)), by norm_num, rfl⟩

/-- C1, evaluated at the failing inputs: with a threshold of 5 degrees the list of the
claim holds the record of vertex 1, with an angle of 0 degrees, both for the open ring
(12,5), (0,0), (24,10) and for the open ring (2^-600,0), (0,0), (2^-599,0); in `double`
`collectErrors` returns the empty list for both, because for the first ring the angle is a
NaN (the dot product 1 + 2^-52 is outside the domain of `acos`) and `NaN < mMinAngle` is
false, and for the second ring the squares of the coordinates round to zero, so that
`normalized` throws on a vector that is not zero. -/
theorem collinear_spike_not_reported :
    pendingError (⟨0, 0, 0⟩ : QgsPoint ℝ) ⟨0, 0, 1⟩ 0 ∈
      expectedDefects (LibM.mk Real.sqrt Real.arccos Real.pi) ⟨5, 1⟩
        [⟨"layer", 7, singleRing (collinearSpikeLine ℝ)⟩] ∧
    (∀ libm : ℚ → Double,
      Machine.collectErrors (doubleArith libm) ⟨Double.finite 5, Double.finite 1⟩
        [⟨"layer", 7, singleRing (collinearSpikeLine ℚ).toDouble⟩] [] = []) ∧
    pendingError (⟨0, 0, 0⟩ : QgsPoint ℝ) ⟨0, 0, 1⟩ 0 ∈
      expectedDefects (LibM.mk Real.sqrt Real.arccos Real.pi) ⟨5, 1⟩
        [⟨"layer", 7, singleRing (tinySpikeLine ℝ)⟩] ∧
    nonZeroVector (⟨0, 0, 0⟩ : QgsPoint ℚ) ⟨1 / 2 ^ 600, 0, 0⟩ ∧
    (∀ libm : ℚ → Double,
      Machine.collectErrors (doubleArith libm) ⟨Double.finite 5, Double.finite 1⟩
        [⟨"layer", 7, singleRing (tinySpikeLine ℚ).toDouble⟩] [] = []) :=
  ⟨collinear_error_expected, double_collectErrors_collinear, tiny_error_expected,
    Or.inl (by norm_num), double_collectErrors_tiny⟩

/-! ## C6: a recomputed angle that is a NaN -/

/-- In binary64 the normalised form of the vector (-12,-5) has the coordinates -12/13 and
-5/13 rounded to 53 bits. -/
theorem double_normalized_neg_12_5 (libm : ℚ → Double) :
    Machine.normalized (doubleArith libm)
        ⟨Double.sub (Double.finite (-12)) (Double.finite 0),
          Double.sub (Double.finite (-5)) (Double.finite 0)⟩ =
      some ⟨Double.finite (-4157168886803535 / 4503599627370496),
        Double.finite (-6928614811339225 / 18014398509481984)⟩ := by
  have h : Machine.normalized (doubleArith fun _ => Double.nan)
        ⟨Double.sub (Double.finite (-12)) (Double.finite 0),
          Double.sub (Double.finite (-5)) (Double.finite 0)⟩ =
      some ⟨Double.finite (-4157168886803535 / 4503599627370496),
        Double.finite (-6928614811339225 / 18014398509481984)⟩ := by
    decide!
  exact h

/-- In binary64 the dot product of the normalised vectors of (-12,-5) and (12,5) is
-(1 + 2^-52), the greatest `double` below -1. -/
theorem double_dot_straight (libm : ℚ → Double) :
    Machine.dot (doubleArith libm)
        ⟨Double.finite (-4157168886803535 / 4503599627370496),
          Double.finite (-6928614811339225 / 18014398509481984)⟩
        ⟨Double.finite (4157168886803535 / 4503599627370496),
          Double.finite (6928614811339225 / 18014398509481984)⟩ =
      Double.finite (-4503599627370497 / 4503599627370496) := by
  have h : Machine.dot (doubleArith fun _ => Double.nan)
        ⟨Double.finite (-4157168886803535 / 4503599627370496),
          Double.finite (-6928614811339225 / 18014398509481984)⟩
        ⟨Double.finite (4157168886803535 / 4503599627370496),
          Double.finite (6928614811339225 / 18014398509481984)⟩ =
      Double.finite (-4503599627370497 / 4503599627370496) := by
    decide!
  exact h

theorem double_acos_below_minus_one (libm : ℚ → Double) :
    Double.acos libm (Double.finite (-4503599627370497 / 4503599627370496)) = Double.nan := by
  unfold Double.acos
  simp only
  rw [if_neg]
  rintro ⟨h, _⟩
  norm_num at h

theorem double_angleAt_straight (libm : ℚ → Double) :
    Machine.angleAt (doubleArith libm)
        ⟨Double.finite (-12), Double.finite (-5), Double.finite 0⟩
        ⟨Double.finite 0, Double.finite 0, Double.finite 0⟩
        ⟨Double.finite 12, Double.finite 5, Double.finite 0⟩ = some Double.nan := by
  rw [machine_angleAt_of_normalized _ _ _ _ _ _ (double_normalized_neg_12_5 libm)
    (double_normalized_12_5 libm), double_dot_straight]
  have h : (doubleArith libm).acos (Double.finite (-4503599627370497 / 4503599627370496)) =
      Double.nan := double_acos_below_minus_one libm
  rw [h]
  rfl

theorem double_straight_p1 (libm : ℚ → Double) :
    Machine.vertexAt (doubleArith libm) (singleRing (straightLine ℚ).toDouble) ⟨0, 0,
      ((1 : Int) - 1 + (polyLineSize (singleRing (straightLine ℚ).toDouble) 0 0).1).tmod
        (polyLineSize (singleRing (straightLine ℚ).toDouble) 0 0).1⟩ =
      ⟨Double.finite (-12), Double.finite (-5), Double.finite 0⟩ := by
  have h : Machine.vertexAt (doubleArith fun _ => Double.nan)
      (singleRing (straightLine ℚ).toDouble) ⟨0, 0,
        ((1 : Int) - 1 + (polyLineSize (singleRing (straightLine ℚ).toDouble) 0 0).1).tmod
          (polyLineSize (singleRing (straightLine ℚ).toDouble) 0 0).1⟩ =
      ⟨Double.finite (-12), Double.finite (-5), Double.finite 0⟩ := by
    decide!
  exact h

theorem double_straight_p2 (libm : ℚ → Double) :
    Machine.vertexAt (doubleArith libm) (singleRing (straightLine ℚ).toDouble) ⟨0, 0, 1⟩ =
      ⟨Double.finite 0, Double.finite 0, Double.finite 0⟩ := by
  have h : Machine.vertexAt (doubleArith fun _ => Double.nan)
      (singleRing (straightLine ℚ).toDouble) ⟨0, 0, 1⟩ =
      ⟨Double.finite 0, Double.finite 0, Double.finite 0⟩ := by
    decide!
  exact h

theorem double_straight_p3 (libm : ℚ → Double) :
    Machine.vertexAt (doubleArith libm) (singleRing (straightLine ℚ).toDouble) ⟨0, 0,
      ((1 : Int) + 1).tmod (polyLineSize (singleRing (straightLine ℚ).toDouble) 0 0).1⟩ =
      ⟨Double.finite 12, Double.finite 5, Double.finite 0⟩ := by
  have h : Machine.vertexAt (doubleArith fun _ => Double.nan)
      (singleRing (straightLine ℚ).toDouble) ⟨0, 0,
        ((1 : Int) + 1).tmod (polyLineSize (singleRing (straightLine ℚ).toDouble) 0 0).1⟩ =
      ⟨Double.finite 12, Double.finite 5, Double.finite 0⟩ := by
    decide!
  exact h

/-- In binary64 the angle that `fixError` recomputes at vertex 1 of the open ring
(-12,-5), (0,0), (12,5) is a NaN. -/
theorem double_recomputedAngle_straight (libm : ℚ → Double) :
    Machine.recomputedAngle (doubleArith libm) (singleRing (straightLine ℚ).toDouble)
      ⟨0, 0, 1⟩ = some Double.nan :=
  (machine_angleAt_congr (doubleArith libm) (double_straight_p1 libm) (double_straight_p2 libm)
    (double_straight_p3 libm)).trans (double_angleAt_straight libm)

/-- In binary64 `fixError` with `DeleteNode` on the record of vertex 1 of the open ring
(-12,-5), (0,0), (12,5) deletes the vertex. -/
theorem double_fixError_straight (libm : ℚ → Double) :
    Machine.fixError (doubleArith libm) ⟨Double.finite 5, Double.finite 1⟩
        (singleFeaturePool (singleRing (straightLine ℚ).toDouble)) (pendingDouble ⟨0, 0, 1⟩)
        DeleteNode noChanges =
      ⟨(pendingDouble ⟨0, 0, 1⟩).setFixed DeleteNode,
        noChanges.append "layer" 7 ⟨ChangeWhat.ChangeNode, ChangeType.ChangeRemoved, ⟨0, 0, 1⟩⟩,
        (singleFeaturePool (singleRing (straightLine ℚ).toDouble)).updateFeature "layer" 7
          (singleRing (straightLineCut ℚ).toDouble),
        [Effect.deleteVertexCall ⟨0, 0, 1⟩ true,
          Effect.updateFeatureCall "layer" 7 (singleRing (straightLineCut ℚ).toDouble)]⟩ := by
  have hfix := machine_fixError_proceeds (doubleArith libm)
    ⟨Double.finite 5, Double.finite 1⟩
    (singleFeaturePool (singleRing (straightLine ℚ).toDouble)) (pendingDouble ⟨0, 0, 1⟩)
    DeleteNode noChanges (singleRing (straightLine ℚ).toDouble) Double.nan rfl rfl (by decide)
    (double_recomputedAngle_straight libm) rfl
  rw [if_neg (by decide), if_pos rfl] at hfix
  have hfar : Double.lt (Machine.sqrDistance2D (doubleArith fun _ => Double.nan)
      ⟨Double.finite (-12), Double.finite (-5), Double.finite 0⟩
      ⟨Double.finite 12, Double.finite 5, Double.finite 0⟩) (Double.finite 1) = false := by
    decide!
  refine hfix.trans (machine_fixDeleteNode_single (doubleArith libm)
    ⟨Double.finite 5, Double.finite 1⟩
    (singleFeaturePool (singleRing (straightLine ℚ).toDouble)) (pendingDouble ⟨0, 0, 1⟩)
    DeleteNode noChanges (singleRing (straightLine ℚ).toDouble)
    (singleRing (straightLineCut ℚ).toDouble) _ _ _ rfl rfl ?_)
  rintro ⟨hlt, _⟩
  have e1 := double_straight_p1 libm
  have e3 := double_straight_p3 libm
  simp only [pendingDouble] at hlt
  rw [e1, e3] at hlt
  rw [show (doubleArith libm).lt (Machine.sqrDistance2D (doubleArith libm)
      ⟨Double.finite (-12), Double.finite (-5), Double.finite 0⟩
      ⟨Double.finite 12, Double.finite 5, Double.finite 0⟩) (Double.finite 1) = false from hfar]
    at hlt
  exact Bool.noConfusion hlt

theorem straight_recomputedAngle :
    recomputedAngle (LibM.mk Real.sqrt Real.arccos Real.pi) (singleRing (straightLine ℝ))
      ⟨0, 0, 1⟩ = some 180 := by
  have e1 : neighbourP1 (singleRing (straightLine ℝ)) ⟨0, 0, 1⟩ = ⟨-12, -5, 0⟩ := rfl
  have e2 : (singleRing (straightLine ℝ)).vertexAt ⟨0, 0, 1⟩ = ⟨0, 0, 0⟩ := rfl
  have e3 : neighbourP3 (singleRing (straightLine ℝ)) ⟨0, 0, 1⟩ = ⟨12, 5, 0⟩ := rfl
  exact (angleAt_congr _ e1 e2 e3).trans real_angleAt_straight

/-- C6, evaluated at the failing input, the record of vertex 1 of the open ring (-12,-5),
(0,0), (12,5) with a threshold of 5 degrees: the angle at the vertex is 180 degrees, and
in exact arithmetic `fixError` marks the record obsolete; in `double` the recomputed angle
is a NaN (the dot product is -(1 + 2^-52)), which is not below the threshold, yet
`NaN >= mMinAngle` is false as well, and `fixError` marks the record fixed, with
`DeleteNode` after deleting the vertex, appending a change record and storing the
geometry. -/
theorem nan_angle_not_obsolete :
    recomputedAngle (LibM.mk Real.sqrt Real.arccos Real.pi) (singleRing (straightLine ℝ))
      ⟨0, 0, 1⟩ = some 180 ∧
    (fixError (LibM.mk Real.sqrt Real.arccos Real.pi) ⟨5, 1⟩
        (singleFeaturePool (singleRing (straightLine ℝ))) (pendingError ⟨0, 0, 0⟩ ⟨0, 0, 1⟩ 0)
        DeleteNode noChanges).error.status = Status.StatusObsolete ∧
    (∀ libm : ℚ → Double,
      Machine.recomputedAngle (doubleArith libm) (singleRing (straightLine ℚ).toDouble)
        ⟨0, 0, 1⟩ = some Double.nan ∧
      (Machine.fixError (doubleArith libm) ⟨Double.finite 5, Double.finite 1⟩
          (singleFeaturePool (singleRing (straightLine ℚ).toDouble)) (pendingDouble ⟨0, 0, 1⟩)
          DeleteNode noChanges).error.status = Status.StatusFixed ∧
      (Machine.fixError (doubleArith libm) ⟨Double.finite 5, Double.finite 1⟩
          (singleFeaturePool (singleRing (straightLine ℚ).toDouble)) (pendingDouble ⟨0, 0, 1⟩)
          DeleteNode noChanges).changes "layer" 7 =
        [⟨ChangeWhat.ChangeNode, ChangeType.ChangeRemoved, ⟨0, 0, 1⟩⟩] ∧
      (Machine.fixError (doubleArith libm) ⟨Double.finite 5, Double.finite 1⟩
          (singleFeaturePool (singleRing (straightLine ℚ).toDouble)) (pendingDouble ⟨0, 0, 1⟩)
          DeleteNode noChanges).effects =
        [Effect.deleteVertexCall ⟨0, 0, 1⟩ true,
          Effect.updateFeatureCall "layer" 7 (singleRing (straightLineCut ℚ).toDouble)] ∧
      (Machine.fixError (doubleArith libm) ⟨Double.finite 5, Double.finite 1⟩
          (singleFeaturePool (singleRing (straightLine ℚ).toDouble)) (pendingDouble ⟨0, 0, 1⟩)
          NoChange noChanges).error.status = Status.StatusFixed) ∧
    Double.lt Double.nan (Double.finite 5) = false ∧
    Double.ge Double.nan (Double.finite 5) = false := by
  refine ⟨straight_recomputedAngle, ?_, ?_, rfl, rfl⟩
  · exact (fixError_obsolete_when_stale _ ⟨5, 1⟩
      (singleFeaturePool (singleRing (straightLine ℝ))) (pendingError ⟨0, 0, 0⟩ ⟨0, 0, 1⟩ 0)
      DeleteNode noChanges
      (Or.inr ⟨singleRing (straightLine ℝ), rfl,
        Or.inr (Or.inr (Or.inr (Or.inr ⟨180, straight_recomputedAngle, by norm_num⟩)))⟩)).2.1
  · intro libm
    refine ⟨double_recomputedAngle_straight libm, ?_, ?_, ?_, ?_⟩
    · rw [double_fixError_straight]
      rfl
    · rw [double_fixError_straight]
      simp [Changes.append, noChanges]
    · rw [double_fixError_straight]
    · rw [machine_fixError_proceeds (doubleArith libm) ⟨Double.finite 5, Double.finite 1⟩
        (singleFeaturePool (singleRing (straightLine ℚ).toDouble)) (pendingDouble ⟨0, 0, 1⟩)
        NoChange noChanges (singleRing (straightLine ℚ).toDouble) Double.nan rfl rfl (by decide)
        (double_recomputedAngle_straight libm) rfl]
      rfl

/-! ## C9: the duplicate clean-up at the last vertex of a ring -/

theorem lastNeedleLine_passes :
    passesRevalidation (LibM.mk Real.sqrt Real.arccos Real.pi) ⟨5, 1⟩
      (singleFeaturePool (singleRing (lastNeedleLine ℝ))) (pendingError ⟨10, 0, 0⟩ ⟨0, 0, 4⟩ 0)
      (singleRing (lastNeedleLine ℝ)) := by
  have e1 : neighbourP1 (singleRing (lastNeedleLine ℝ)) ⟨0, 0, 4⟩ = ⟨1 / 2, 0, 0⟩ := rfl
  have e2 : (singleRing (lastNeedleLine ℝ)).vertexAt ⟨0, 0, 4⟩ = ⟨10, 0, 0⟩ := rfl
  have e3 : neighbourP3 (singleRing (lastNeedleLine ℝ)) ⟨0, 0, 4⟩ = ⟨0, 0, 0⟩ := rfl
  exact ⟨rfl, rfl, by decide, 0, (angleAt_congr _ e1 e2 e3).trans
    (real_angleAt_spike _ _ _ rfl rfl (by norm_num) (by norm_num)), by norm_num⟩

theorem lastNeedleLine_near :
    sqrDistance2D (neighbourP1 (singleRing (lastNeedleLine ℝ)) ⟨0, 0, 4⟩)
      (neighbourP3 (singleRing (lastNeedleLine ℝ)) ⟨0, 0, 4⟩) < (1 : ℝ) := by
  have e1 : neighbourP1 (singleRing (lastNeedleLine ℝ)) ⟨0, 0, 4⟩ = ⟨1 / 2, 0, 0⟩ := rfl
  have e3 : neighbourP3 (singleRing (lastNeedleLine ℝ)) ⟨0, 0, 4⟩ = ⟨0, 0, 0⟩ := rfl
  rw [e1, e3]
  norm_num [sqrDistance2D]

/-- C9, evaluated at the failing input, the record of the last vertex 4 of the open ring
(0,0), (0,5), (5,5), (0.5,0), (10,0) with a threshold of 5 degrees and a tolerance of 1:
the record passes the re-validation (the next neighbour `p3` is taken at index
(4 + 1) % 5 = 0), the first deletion succeeds, `p1` and `p3` are within the tolerance and
the ring of 4 vertices is still deletable, yet `fixError` appends one change record only:
the second `deleteVertex` call is made at the stored index 4, which after the first
deletion addresses no vertex, so that it is rejected; the record is marked fixed. -/
theorem cleanup_skipped_at_last_vertex :
    passesRevalidation (LibM.mk Real.sqrt Real.arccos Real.pi) ⟨5, 1⟩
      (singleFeaturePool (singleRing (lastNeedleLine ℝ))) (pendingError ⟨10, 0, 0⟩ ⟨0, 0, 4⟩ 0)
      (singleRing (lastNeedleLine ℝ)) ∧
    (singleRing (lastNeedleLine ℝ)).deleteVertex ⟨0, 0, 4⟩ =
      some (singleRing (lastNeedleLineCut ℝ)) ∧
    sqrDistance2D (neighbourP1 (singleRing (lastNeedleLine ℝ)) ⟨0, 0, 4⟩)
      (neighbourP3 (singleRing (lastNeedleLine ℝ)) ⟨0, 0, 4⟩) < (1 : ℝ) ∧
    canDeleteVertex (singleRing (lastNeedleLineCut ℝ)) 0 0 = true ∧
    neighbourP3 (singleRing (lastNeedleLine ℝ)) ⟨0, 0, 4⟩ =
      (singleRing (lastNeedleLine ℝ)).vertexAt ⟨0, 0, 0⟩ ∧
    QgsVertexId.isValid ⟨0, 0, 4⟩ (singleRing (lastNeedleLineCut ℝ)) = false ∧
    (fixError (LibM.mk Real.sqrt Real.arccos Real.pi) ⟨5, 1⟩
        (singleFeaturePool (singleRing (lastNeedleLine ℝ)))
        (pendingError ⟨10, 0, 0⟩ ⟨0, 0, 4⟩ 0) DeleteNode noChanges).changes "layer" 7 =
      [⟨ChangeWhat.ChangeNode, ChangeType.ChangeRemoved, ⟨0, 0, 4⟩⟩] ∧
    (fixError (LibM.mk Real.sqrt Real.arccos Real.pi) ⟨5, 1⟩
        (singleFeaturePool (singleRing (lastNeedleLine ℝ)))
        (pendingError ⟨10, 0, 0⟩ ⟨0, 0, 4⟩ 0) DeleteNode noChanges).effects =
      [Effect.deleteVertexCall ⟨0, 0, 4⟩ true, Effect.deleteVertexCall ⟨0, 0, 4⟩ false,
        Effect.updateFeatureCall "layer" 7 (singleRing (lastNeedleLineCut ℝ))] ∧
    (fixError (LibM.mk Real.sqrt Real.arccos Real.pi) ⟨5, 1⟩
        (singleFeaturePool (singleRing (lastNeedleLine ℝ)))
        (pendingError ⟨10, 0, 0⟩ ⟨0, 0, 4⟩ 0) DeleteNode noChanges).error.status =
      Status.StatusFixed := by
  have hfix := fixError_of_passes _ _ _ _ DeleteNode noChanges _ lastNeedleLine_passes
  rw [if_neg (by decide), if_pos rfl] at hfix
  replace hfix := hfix.trans
    (fixDeleteNode_second_rejected (⟨5, 1⟩ : QgsGeometryAngleCheck ℝ)
      (singleFeaturePool (singleRing (lastNeedleLine ℝ))) (pendingError ⟨10, 0, 0⟩ ⟨0, 0, 4⟩ 0)
      DeleteNode noChanges (singleRing (lastNeedleLine ℝ)) (singleRing (lastNeedleLineCut ℝ))
      _ _ _ rfl rfl lastNeedleLine_near rfl rfl)
  refine ⟨lastNeedleLine_passes, rfl, lastNeedleLine_near, rfl, rfl, rfl, ?_, ?_, ?_⟩
  · rw [hfix]
    simp [Changes.append, noChanges, pendingError]
  · rw [hfix]
    rfl
  · rw [hfix]
    rfl

end AngleCheck
